import Mathlib

/-!
# Lockstep serial coordinator of the GBA core (`src/gba/sio/lockstep.c`)

A shallow embedding of the lockstep SIO driver: the shared `GBASIOLockstep`
object, the per-console `GBASIOLockstepNode`, the roster operations, load and
unload, the two register-write hooks, `_finishTransfer`, `_masterUpdate`,
`_slaveUpdate` and the event callback; and of the callbacks `signal`, `wait`,
`addCycles`, `useCycles` and `unusedCycles` of the Qt host bridge
(`src/platform/qt/MultiplayerController.cpp`).

Conventions of the embedding

* C pointers to nodes are handles (`NodeRef`); the heap `Session.nodes` maps
  every handle to the node it designates, a roster slot holds `none` for the
  null pointer.  Reading through a null roster slot is the fault
  `Fault.nullPlayer`, `abort()` is the fault `Fault.abort`.
* `uint16_t` registers are natural numbers; the `int32_t` counters of the
  driver are integers (signed overflow, undefined in C, is not modelled).
  The subtraction and the addition of the `uint32_t` argument `cyclesLate` in
  the event callback, which C computes in unsigned 32-bit arithmetic before it
  stores the result in an `int32_t` counter, wrap around (`wrapInt32`); the
  cycle bank `cyclesPosted` of the host bridge wraps around as well.  The
  `unsigned` masks of the host bridge are natural numbers.
* The host-bridge callbacks (`wait`, `signal`, `addCycles`, `useCycles`,
  `unusedCycles`, `unload`) are supplied by the embedder.  Every invocation
  is appended to `Session.calls`; the values they return are inputs of the
  operation that invokes them.
* Fields that exist only when `NDEBUG` is not defined (`node->phase`,
  `transferId`) are left out.
-/

namespace Lockstep

/-! ## Constants and enumerations -/

/-- The constant `LOCKSTEP_INCREMENT` of lockstep.c. -/
def LOCKSTEP_INCREMENT : Int := 2000

/-- Modelled from the spec: `MAX_GBAS`, declared in a header that is not part
of the sources; the spec gives "MAX = 4". -/
def MAX_GBAS : Nat := 4

/-- Modelled from the spec: the register offsets of the header `io.h`, which is
not part of the sources ("addresses are the handheld's memory-mapped IO
offsets"): the four multiplayer receive registers. -/
def REG_SIOMULTI0 : Nat := 0x120
/-- Modelled from the spec: offset of the second receive register (`io.h`). -/
def REG_SIOMULTI1 : Nat := 0x122
/-- Modelled from the spec: offset of the third receive register (`io.h`). -/
def REG_SIOMULTI2 : Nat := 0x124
/-- Modelled from the spec: offset of the fourth receive register (`io.h`). -/
def REG_SIOMULTI3 : Nat := 0x126
/-- Modelled from the spec: offset of the serial control register (`io.h`). -/
def REG_SIOCNT : Nat := 0x128
/-- Modelled from the spec: offset of the multiplayer send register (`io.h`). -/
def REG_SIOMLT_SEND : Nat := 0x12A
/-- Modelled from the spec: offset of the 8-bit data register (`io.h`); it is
the same halfword as the multiplayer send register. -/
def REG_SIODATA8 : Nat := 0x12A
/-- Modelled from the spec: low half of the 32-bit data register (`io.h`); the
same halfword as `REG_SIOMULTI0`. -/
def REG_SIODATA32_LO : Nat := 0x120
/-- Modelled from the spec: high half of the 32-bit data register (`io.h`); the
same halfword as `REG_SIOMULTI1`. -/
def REG_SIODATA32_HI : Nat := 0x122

/-- Modelled from the spec: `enum mLockstepPhase` of the header
`core/lockstep.h` (absent); the five phases in their cyclic order, with
`TRANSFER_IDLE = 0` as `mLockstepInit` stores it. -/
inductive mLockstepPhase where
  | TRANSFER_IDLE
  | TRANSFER_STARTING
  | TRANSFER_STARTED
  | TRANSFER_FINISHING
  | TRANSFER_FINISHED
  deriving DecidableEq, Repr

/-- Modelled from the spec: `enum GBASIOMode` of the header `sio.h` (absent).
The spec lists MULTI, NORMAL_8, NORMAL_32 and "other"; the remaining hardware
modes are the "other" ones. -/
inductive GBASIOMode where
  | SIO_NORMAL_8
  | SIO_NORMAL_32
  | SIO_MULTI
  | SIO_UART
  | SIO_GPIO
  | SIO_JOYBUS
  deriving DecidableEq, Repr

/-- What `abort()` and a read through a null roster pointer do. -/
inductive Fault where
  | abort
  | nullPlayer
  deriving DecidableEq, Repr

/-- One invocation of a host-bridge callback. -/
inductive HostCall where
  | wait (mask : Nat)
  | signal (mask : Nat)
  | addCycles (id : Nat) (cycles : Int)
  | useCycles (id : Nat) (cycles : Int)
  | unusedCycles (id : Nat)
  | unload (id : Nat)
  deriving DecidableEq, Repr

/-- The function stored in `node->d.writeRegister`. -/
inductive WriteHook where
  | null
  | multi
  | normal
  deriving DecidableEq, Repr

/-! ## Bit fields of the 16-bit registers -/

/-- Read the one-bit field at bit `k`. -/
def getBit (reg k : Nat) : Bool := reg.testBit k

/-- Assign the one-bit field at bit `k`. -/
def setBit (reg k : Nat) (b : Bool) : Nat :=
  if b then reg ||| (1 <<< k) else reg ^^^ (reg &&& (1 <<< k))

/-- Read the two-bit field whose low bit is bit `k`. -/
def getField2 (reg k : Nat) : Nat :=
  (reg.testBit k).toNat + 2 * (reg.testBit (k + 1)).toNat

/-- Assign the two-bit field whose low bit is bit `k`; as in C the value is
truncated to the width of the field. -/
def setField2 (reg k v : Nat) : Nat :=
  setBit (setBit reg k (v.testBit 0)) (k + 1) (v.testBit 1)

/-- Test of a C condition `value & mask`. -/
def maskSet (value mask : Nat) : Bool := (value &&& mask) != 0

namespace multiplayerControl

/-- Modelled from the spec: the bit-field layout of `multiplayerControl` is
declared in the absent header `sio.h`.  The spec gives the width of the baud
selector (`cyclesPerTransfer[baud 0..3]`) but not its place; it is put at
bits 0-1, where the hardware has it. -/
def baud (siocnt : Nat) : Nat := getField2 siocnt 0

/-- Modelled from the spec: "bit 0 is slave-indicator" (layout of the absent
header `sio.h`). -/
def setSlave (siocnt : Nat) (b : Bool) : Nat := setBit siocnt 0 b

/-- Modelled from the spec: "bit 3 is ready" (layout of the absent header). -/
def ready (siocnt : Nat) : Bool := getBit siocnt 3

/-- Modelled from the spec: assignment to the ready bit, bit 3. -/
def setReady (siocnt : Nat) (b : Bool) : Nat := setBit siocnt 3 b

/-- Modelled from the spec: "bits 4-5 are the guest-assigned id". -/
def id (siocnt : Nat) : Nat := getField2 siocnt 4

/-- Modelled from the spec: assignment to the id field, bits 4-5. -/
def setId (siocnt : Nat) (v : Nat) : Nat := setField2 siocnt 4 v

/-- Modelled from the spec: the busy flag of multiplayer mode shares bit 7 with
the start bit ("bit 7 is start"). -/
def busy (siocnt : Nat) : Bool := getBit siocnt 7

/-- Modelled from the spec: assignment to the busy flag, bit 7. -/
def setBusy (siocnt : Nat) (b : Bool) : Nat := setBit siocnt 7 b

/-- Modelled from the spec: "bit 14 is IRQ-enable". -/
def irq (siocnt : Nat) : Bool := getBit siocnt 14

end multiplayerControl

namespace normalControl

/-- Modelled from the spec: the layout of `normalControl` is declared in the
absent header `sio.h`; the serial-input flag is bit 2 of the control register
on the hardware. -/
def setSi (siocnt : Nat) (b : Bool) : Nat := setBit siocnt 2 b

/-- Modelled from the spec: the idle state of the serial output line, bit 3 of
the control register on the hardware. -/
def idleSo (siocnt : Nat) : Bool := getBit siocnt 3

/-- Modelled from the spec: "bit 7 is start". -/
def setStart (siocnt : Nat) (b : Bool) : Nat := setBit siocnt 7 b

end normalControl

/-! ## Data model -/

/-- A handle designating a `struct GBASIOLockstepNode`. -/
abbrev NodeRef := Nat

/-- Update of one cell of an array or of the heap. -/
def upd {α : Type} (f : Nat → α) (i : Nat) (v : α) : Nat → α :=
  fun j => if j = i then v else f j

/-- Modelled from the spec: the timing wheel is an external collaborator ("a
min-heap of scheduled events"); of `struct mTimingEvent` the model keeps the
number of entries that the event has on the wheel and the due time `when` of
the entry made last. -/
structure mTimingEvent where
  entries : Nat
  when : Int
  deriving DecidableEq, Repr

/-- The console behind `node->d.p`: the fields of `struct GBASIO` that the
driver uses together with what it reaches through `sio->p` in `struct GBA`:
the I/O memory (`memory.io`, indexed by halfword), the number of serial
interrupts raised with `GBARaiseIRQ`, the `earlyExit` flag and the current
time of the console's timing wheel. -/
structure GBASIOPort where
  mode : GBASIOMode
  rcnt : Nat
  siocnt : Nat
  io : Nat → Nat
  irqs : Nat
  earlyExit : Bool
  now : Int

/-- The `struct GBASIOLockstepNode`.  `p` records whether the parent pointer
has been set (the session has one lockstep object). -/
structure GBASIOLockstepNode where
  d : GBASIOPort
  writeRegister : WriteHook
  p : Bool
  id : Nat
  mode : GBASIOMode
  transferFinished : Bool
  nextEvent : Int
  eventDiff : Int
  event : mTimingEvent

/-- The `struct mLockstep` (core part of the shared object). -/
structure mLockstep where
  attached : Nat
  transferActive : mLockstepPhase
  transferCycles : Int
  deriving DecidableEq, Repr

/-- The `struct GBASIOLockstep`. -/
structure GBASIOLockstep where
  d : mLockstep
  players : Nat → Option NodeRef
  multiRecv : Nat → Nat
  normalRecv : Nat → Nat
  attachedMulti : Int

/-- The whole session: the shared object, the heap of nodes and the log of
host-bridge invocations (oldest first). -/
structure Session where
  lockstep : GBASIOLockstep
  nodes : NodeRef → GBASIOLockstepNode
  calls : List HostCall

namespace Session

/-- Replace the node behind a handle. -/
def setNode (s : Session) (r : NodeRef) (n : GBASIOLockstepNode) : Session :=
  { s with nodes := upd s.nodes r n }

/-- Apply a function to the node behind a handle. -/
def modNode (s : Session) (r : NodeRef) (f : GBASIOLockstepNode → GBASIOLockstepNode) : Session :=
  s.setNode r (f (s.nodes r))

/-- Apply a function to the console of the node behind a handle. -/
def modPort (s : Session) (r : NodeRef) (f : GBASIOPort → GBASIOPort) : Session :=
  s.modNode r (fun n => { n with d := f n.d })

/-- Store into `memory.io[reg >> 1]` of the console of node `r`. -/
def setIo (s : Session) (r : NodeRef) (reg v : Nat) : Session :=
  s.modPort r (fun g => { g with io := upd g.io (reg >>> 1) v })

/-- Read `memory.io[reg >> 1]` of the console of node `r`. -/
def getIo (s : Session) (r : NodeRef) (reg : Nat) : Nat :=
  (s.nodes r).d.io (reg >>> 1)

/-- Store into `multiRecv[i]`. -/
def setMultiRecv (s : Session) (i v : Nat) : Session :=
  { s with lockstep := { s.lockstep with multiRecv := upd s.lockstep.multiRecv i v } }

/-- Store into `normalRecv[i]`. -/
def setNormalRecv (s : Session) (i v : Nat) : Session :=
  { s with lockstep := { s.lockstep with normalRecv := upd s.lockstep.normalRecv i v } }

/-- Store into `d.transferActive`. -/
def setPhase (s : Session) (ph : mLockstepPhase) : Session :=
  { s with lockstep := { s.lockstep with d := { s.lockstep.d with transferActive := ph } } }

/-- Store into `d.transferCycles`. -/
def setTransferCycles (s : Session) (c : Int) : Session :=
  { s with lockstep := { s.lockstep with d := { s.lockstep.d with transferCycles := c } } }

/-- Store into `attachedMulti`. -/
def setAttachedMulti (s : Session) (v : Int) : Session :=
  { s with lockstep := { s.lockstep with attachedMulti := v } }

/-- Record an invocation of a host-bridge callback. -/
def call (s : Session) (c : HostCall) : Session :=
  { s with calls := s.calls ++ [c] }

/-- The phase, `d.transferActive`. -/
def phase (s : Session) : mLockstepPhase := s.lockstep.d.transferActive

end Session

/-! ## The timing wheel, as far as the driver sees it -/

/-- Modelled from the spec: `mTimingSchedule(timing, event, when)` of the
external timing wheel puts the event `when` cycles after the current time; it
does not look whether the event is on the wheel already, so the event gains an
entry. -/
def mTimingSchedule (n : GBASIOLockstepNode) (delay : Int) : GBASIOLockstepNode :=
  { n with event := { entries := n.event.entries + 1, when := n.d.now + delay } }

/-- Modelled from the spec: `mTimingDeschedule` takes the event off the wheel:
no entry of it is left. -/
def mTimingDeschedule (n : GBASIOLockstepNode) : GBASIOLockstepNode :=
  { n with event := { n.event with entries := 0 } }

/-- Modelled from the spec: `mTimingIsScheduled`: the event has an entry on the
wheel. -/
def mTimingIsScheduled (n : GBASIOLockstepNode) : Bool := decide (0 < n.event.entries)

/-- Modelled from the spec: `GBARaiseIRQ(sio->p, IRQ_SIO)` of the external
interrupt controller; the model counts the serial interrupts raised. -/
def GBARaiseIRQ (g : GBASIOPort) : GBASIOPort := { g with irqs := g.irqs + 1 }

/-! ## Initialisation and roster management -/

/-- The function `mLockstepInit` of core/lockstep.c. -/
def mLockstepInit (l : mLockstep) : mLockstep :=
  { l with attached := 0, transferActive := .TRANSFER_IDLE }

/-- The function `GBASIOLockstepInit2`. -/
def GBASIOLockstepInit2 (s : Session) (initBase : Bool) : Session :=
  let d := if initBase then mLockstepInit s.lockstep.d else s.lockstep.d
  { s with lockstep :=
      { s.lockstep with
        d := d
        players := upd (upd (upd (upd s.lockstep.players 0 none) 1 none) 2 none) 3 none
        multiRecv := upd (upd (upd (upd s.lockstep.multiRecv 0 0xFFFF) 1 0xFFFF) 2 0xFFFF) 3 0xFFFF
        attachedMulti := 0 } }

/-- The function `GBASIOLockstepInit`. -/
def GBASIOLockstepInit (s : Session) : Session := GBASIOLockstepInit2 s true

/-- The function `GBASIOLockstepNodeCreate`: the driver's `writeRegister` hook
is cleared (the other hooks are constant function pointers). -/
def GBASIOLockstepNodeCreate (s : Session) (r : NodeRef) : Session :=
  s.modNode r (fun n => { n with writeRegister := .null })

/-- The function `GBASIOLockstepAttachNode`. -/
def GBASIOLockstepAttachNode (s : Session) (r : NodeRef) : Bool × Session :=
  if s.lockstep.d.attached = MAX_GBAS then
    (false, s)
  else
    let s1 : Session :=
      { s with lockstep :=
          { s.lockstep with players := upd s.lockstep.players s.lockstep.d.attached (some r) } }
    let s2 := s1.modNode r (fun n => { n with p := true })
    let s3 := s2.modNode r (fun n => { n with id := s2.lockstep.d.attached })
    let s4 : Session :=
      { s3 with lockstep :=
          { s3.lockstep with d := { s3.lockstep.d with attached := s3.lockstep.d.attached + 1 } } }
    (true, s4)

/-- One iteration of the inner loop of `GBASIOLockstepDetachNode`:
`players[i - 1] = players[i]; players[i - 1]->id = i - 1;`. -/
def detachShift (s : Session) (i : Nat) : Except Fault Session :=
  let s1 : Session :=
    { s with lockstep :=
        { s.lockstep with players := upd s.lockstep.players (i - 1) (s.lockstep.players i) } }
  match s1.lockstep.players (i - 1) with
  | none => .error .nullPlayer
  | some q => .ok (s1.modNode q (fun n => { n with id := i - 1 }))

/-- The inner loop of `GBASIOLockstepDetachNode`, run over the indices it
visits. -/
def detachShiftLoop (s : Session) : List Nat → Except Fault Session
  | [] => .ok s
  | i :: is =>
    match detachShift s i with
    | .error e => .error e
    | .ok s1 => detachShiftLoop s1 is

/-- The function `GBASIOLockstepDetachNode`. -/
def GBASIOLockstepDetachNode (s : Session) (r : NodeRef) : Except Fault Session :=
  if s.lockstep.d.attached = 0 then
    .ok s
  else
    match (List.range s.lockstep.d.attached).find? (fun i => decide (s.lockstep.players i = some r)) with
    | none => .ok s
    | some i =>
      match detachShiftLoop s (List.range' (i + 1) (s.lockstep.d.attached - (i + 1))) with
      | .error e => .error e
      | .ok s1 =>
        .ok { s1 with lockstep :=
                { s1.lockstep with d := { s1.lockstep.d with attached := s1.lockstep.d.attached - 1 } } }

/-! ## Driver hooks -/

/-- The function `GBASIOLockstepNodeInit` (the event's constant fields, its
name, callback and priority, are not modelled). -/
def GBASIOLockstepNodeInit (s : Session) (r : NodeRef) : Bool × Session :=
  (true, s.modPort r (fun g =>
    { g with siocnt := multiplayerControl.setSlave g.siocnt (decide ((s.nodes r).id > 0)) }))

/-- The function `GBASIOLockstepNodeLoad`. -/
def GBASIOLockstepNodeLoad (s : Session) (r : NodeRef) : Bool × Session :=
  let s := s.modNode r (fun n => { n with nextEvent := 0 })
  let s := s.modNode r (fun n => { n with eventDiff := 0 })
  let s := s.modNode r (fun n => mTimingSchedule n 0)
  let s := s.modNode r (fun n => { n with mode := n.d.mode })
  let s :=
    match (s.nodes r).mode with
    | .SIO_MULTI =>
      let s := s.modNode r (fun n => { n with writeRegister := .multi })
      let s := s.modPort r (fun g => { g with rcnt := g.rcnt ||| 3 })
      let s : Session :=
        { s with lockstep := { s.lockstep with attachedMulti := s.lockstep.attachedMulti + 1 } }
      let quorum := decide (s.lockstep.attachedMulti = (s.lockstep.d.attached : Int))
      let s := s.modPort r (fun g => { g with siocnt := multiplayerControl.setReady g.siocnt quorum })
      if (s.nodes r).id ≠ 0 then
        let s := s.modPort r (fun g => { g with rcnt := g.rcnt ||| 4 })
        s.modPort r (fun g => { g with siocnt := multiplayerControl.setSlave g.siocnt true })
      else s
    | .SIO_NORMAL_32 => s.modNode r (fun n => { n with writeRegister := .normal })
    | _ => s
  (true, s)

/-- The function `GBASIOLockstepNodeMultiWriteRegister`.  The table
`GBASIOCyclesPerTransfer` is defined outside the sources and is a parameter.
The `uint16_t` argument is reduced modulo 2^16; `~0x0080` on a 16-bit value is
the mask `0xFF7F`. -/
def GBASIOLockstepNodeMultiWriteRegister (GBASIOCyclesPerTransfer : Nat → Nat → Int)
    (s : Session) (r : NodeRef) (address : Nat) (value : Nat) : Nat × Session :=
  let value := value % 65536
  if address = REG_SIOCNT then
    let transferActive := s.lockstep.d.transferActive
    let (value, s) :=
      if maskSet value 0x0080 ∧ transferActive = .TRANSFER_IDLE then
        if (s.nodes r).id = 0 ∧ multiplayerControl.ready (s.nodes r).d.siocnt then
          let s := s.setPhase .TRANSFER_STARTING
          let s := s.setTransferCycles
            (GBASIOCyclesPerTransfer (multiplayerControl.baud (s.nodes r).d.siocnt)
              (s.lockstep.d.attached - 1))
          let scheduled := mTimingIsScheduled (s.nodes r)
          let oldWhen := (s.nodes r).event.when
          let s := s.modNode r mTimingDeschedule
          let s := s.modNode r (fun n => mTimingSchedule n 0)
          let s :=
            if scheduled then
              s.modNode r (fun n => { n with eventDiff := n.eventDiff - (oldWhen - n.event.when) })
            else s
          (value, s)
        else
          (value &&& 0xFF7F, s)
      else
        (value, s)
    let value := value &&& 0xFF83
    let value := value ||| ((s.nodes r).d.siocnt &&& 0x00FC)
    (value, s)
  else
    (value, s)

/-- Modelled from the spec: the caller of the `writeRegister` hook
(`GBASIOWriteSIOCNT`, outside the sources) stores the value returned by the
hook in the control register: the returned value is the "written value". -/
def GBASIOWriteSIOCNT (GBASIOCyclesPerTransfer : Nat → Nat → Int)
    (s : Session) (r : NodeRef) (value : Nat) : Session :=
  let res := GBASIOLockstepNodeMultiWriteRegister GBASIOCyclesPerTransfer s r REG_SIOCNT value
  res.2.modPort r (fun g => { g with siocnt := res.1 })

/-! ## Completion of a transfer -/

/-- The `if (sio->multiplayerControl.irq) GBARaiseIRQ(sio->p, IRQ_SIO);` that
ends every case of `_finishTransfer`. -/
def raiseIfEnabled (s : Session) (r : NodeRef) : Session :=
  if multiplayerControl.irq (s.nodes r).d.siocnt then s.modPort r GBARaiseIRQ else s

/-- The case `SIO_MULTI` of `_finishTransfer`. -/
def finishMulti (s : Session) (r : NodeRef) : Session :=
  let s := s.setIo r REG_SIOMULTI0 (s.lockstep.multiRecv 0)
  let s := s.setIo r REG_SIOMULTI1 (s.lockstep.multiRecv 1)
  let s := s.setIo r REG_SIOMULTI2 (s.lockstep.multiRecv 2)
  let s := s.setIo r REG_SIOMULTI3 (s.lockstep.multiRecv 3)
  let s := s.modPort r (fun g => { g with rcnt := g.rcnt ||| 1 })
  let s := s.modPort r (fun g => { g with siocnt := multiplayerControl.setBusy g.siocnt false })
  let s := s.modPort r (fun g => { g with siocnt := multiplayerControl.setId g.siocnt (s.nodes r).id })
  raiseIfEnabled s r

/-- The case `SIO_NORMAL_8` of `_finishTransfer`. -/
def finishNormal8 (s : Session) (r : NodeRef) : Except Fault Session :=
  let s := s.modPort r (fun g => { g with siocnt := normalControl.setStart g.siocnt false })
  if (s.nodes r).id ≠ 0 then
    match s.lockstep.players ((s.nodes r).id - 1) with
    | none => .error .nullPlayer
    | some u =>
      let si := normalControl.idleSo (s.nodes u).d.siocnt
      let s := s.modPort r (fun g => { g with siocnt := normalControl.setSi g.siocnt si })
      let s := s.setIo r REG_SIODATA8 (s.lockstep.normalRecv ((s.nodes r).id - 1) &&& 0xFF)
      .ok (raiseIfEnabled s r)
  else
    let s := s.setIo r REG_SIODATA8 0xFFFF
    .ok (raiseIfEnabled s r)

/-- The case `SIO_NORMAL_32` of `_finishTransfer`; the stores into the 16-bit
I/O registers truncate the 32-bit operands. -/
def finishNormal32 (s : Session) (r : NodeRef) : Except Fault Session :=
  let s := s.modPort r (fun g => { g with siocnt := normalControl.setStart g.siocnt false })
  if (s.nodes r).id ≠ 0 then
    match s.lockstep.players ((s.nodes r).id - 1) with
    | none => .error .nullPlayer
    | some u =>
      let si := normalControl.idleSo (s.nodes u).d.siocnt
      let s := s.modPort r (fun g => { g with siocnt := normalControl.setSi g.siocnt si })
      let s := s.setIo r REG_SIODATA32_LO (s.lockstep.normalRecv ((s.nodes r).id - 1) % 65536)
      let s := s.setIo r REG_SIODATA32_HI
        ((s.getIo r REG_SIODATA32_HI ||| (s.lockstep.normalRecv ((s.nodes r).id - 1) >>> 16)) % 65536)
      .ok (raiseIfEnabled s r)
  else
    let s := s.setIo r REG_SIODATA32_LO 0xFFFF
    let s := s.setIo r REG_SIODATA32_HI 0xFFFF
    .ok (raiseIfEnabled s r)

/-- The `switch (node->mode)` of `_finishTransfer`. -/
def finishSwitch (s : Session) (r : NodeRef) : Except Fault Session :=
  match (s.nodes r).mode with
  | .SIO_MULTI => .ok (finishMulti s r)
  | .SIO_NORMAL_8 => finishNormal8 s r
  | .SIO_NORMAL_32 => finishNormal32 s r
  | _ => .ok s

/-- The function `_finishTransfer`. -/
def _finishTransfer (s : Session) (r : NodeRef) : Except Fault Session :=
  if (s.nodes r).transferFinished then
    .ok s
  else
    match finishSwitch s r with
    | .error e => .error e
    | .ok s => .ok (s.modNode r (fun n => { n with transferFinished := true }))

/-! ## The phase machine -/

/-- The loop of `_masterUpdate` that collects the mask of the slaves whose
mode is the master's, over the indices it visits. -/
def slaveMaskLoop (s : Session) (mode : GBASIOMode) : List Nat → Nat → Except Fault Nat
  | [], mask => .ok mask
  | i :: is, mask =>
    match s.lockstep.players i with
    | none => .error .nullPlayer
    | some q =>
      slaveMaskLoop s mode is (if (s.nodes q).mode = mode then mask ||| (1 <<< i) else mask)

/-- The mask computed by `_masterUpdate` for node `r`: the indices
`1 .. attached - 1` whose node has the mode of `r`. -/
def slaveMask (s : Session) (r : NodeRef) : Except Fault Nat :=
  slaveMaskLoop s (s.nodes r).mode (List.range' 1 (s.lockstep.d.attached - 1)) 0

/-- The `switch` of `_masterUpdate`: the session after the case of the phase
found on entry, and `needsToWait`. -/
def masterPhaseStep (s : Session) (r : NodeRef) : Except Fault (Bool × Session) :=
  let transferActive := s.lockstep.d.transferActive
  let attachedMulti := s.lockstep.attachedMulti
  let attached := s.lockstep.d.attached
  match transferActive with
  | .TRANSFER_IDLE =>
    let s := s.modNode r (fun n => { n with nextEvent := n.nextEvent + LOCKSTEP_INCREMENT })
    let s := s.modPort r (fun g =>
      { g with siocnt := multiplayerControl.setReady g.siocnt (decide (attachedMulti = (attached : Int))) })
    .ok (false, s)
  | .TRANSFER_STARTING =>
    let s := s.modNode r (fun n => { n with transferFinished := false })
    let s := s.setMultiRecv 0 (s.getIo r REG_SIOMLT_SEND)
    let s := s.setIo r REG_SIOMULTI0 0xFFFF
    let s := s.setIo r REG_SIOMULTI1 0xFFFF
    let s := s.setIo r REG_SIOMULTI2 0xFFFF
    let s := s.setIo r REG_SIOMULTI3 0xFFFF
    let s := s.setMultiRecv 1 0xFFFF
    let s := s.setMultiRecv 2 0xFFFF
    let s := s.setMultiRecv 3 0xFFFF
    let s := s.setPhase .TRANSFER_STARTED
    let s := s.modNode r (fun n => { n with nextEvent := n.nextEvent + 512 })
    .ok (true, s)
  | .TRANSFER_STARTED =>
    let s := s.modNode r (fun n => { n with nextEvent := n.nextEvent + 512 })
    let s := s.setPhase .TRANSFER_FINISHING
    .ok (false, s)
  | .TRANSFER_FINISHING =>
    let s := s.modNode r (fun n =>
      { n with nextEvent := n.nextEvent + (s.lockstep.d.transferCycles - 1024) })
    let s := s.setPhase .TRANSFER_FINISHED
    .ok (true, s)
  | .TRANSFER_FINISHED =>
    match _finishTransfer s r with
    | .error e => .error e
    | .ok s =>
      let s := s.modNode r (fun n => { n with nextEvent := n.nextEvent + LOCKSTEP_INCREMENT })
      let s := s.setPhase .TRANSFER_IDLE
      .ok (false, s)

/-- The function `_masterUpdate`; `waitResult` is what the host bridge's `wait`
returns if it is invoked.  The call `addCycles(0, eventDiff)` that ends the
update is recorded in the log of the session; what the host bridge does with
it (the bridge of the Qt front end, `addCycles`, aborts on a negative amount)
is not part of this function. -/
def _masterUpdate (s : Session) (r : NodeRef) (waitResult : Bool) : Except Fault (Int × Session) :=
  match masterPhaseStep s r with
  | .error e => .error e
  | .ok (needsToWait, s) =>
    match slaveMask s r with
    | .error e => .error e
    | .ok mask =>
      let afterMask : Except Fault Session :=
        if mask ≠ 0 then
          if needsToWait then
            if waitResult then .ok (s.call (.wait mask)) else .error .abort
          else
            .ok (s.call (.signal mask))
        else
          .ok s
      match afterMask with
      | .error e => .error e
      | .ok s =>
        let s := s.call (.addCycles 0 (s.nodes r).eventDiff)
        if needsToWait then .ok (0, s) else .ok ((s.nodes r).nextEvent, s)

/-- The contribution of a slave in phase STARTED (inner `switch` of
`_slaveUpdate`). -/
def slaveContribute (s : Session) (r : NodeRef) : Session :=
  match (s.nodes r).mode with
  | .SIO_MULTI =>
    let s := s.modPort r (fun g => { g with rcnt := g.rcnt &&& 0xFFFE })
    let s := s.setMultiRecv (s.nodes r).id (s.getIo r REG_SIOMLT_SEND)
    let s := s.setIo r REG_SIOMULTI0 0xFFFF
    let s := s.setIo r REG_SIOMULTI1 0xFFFF
    let s := s.setIo r REG_SIOMULTI2 0xFFFF
    let s := s.setIo r REG_SIOMULTI3 0xFFFF
    s.modPort r (fun g => { g with siocnt := multiplayerControl.setBusy g.siocnt true })
  | .SIO_NORMAL_8 =>
    let s := s.setMultiRecv (s.nodes r).id 0xFFFF
    s.setNormalRecv (s.nodes r).id (s.getIo r REG_SIODATA8 &&& 0xFF)
  | .SIO_NORMAL_32 =>
    let s := s.setMultiRecv (s.nodes r).id 0xFFFF
    let s := s.setNormalRecv (s.nodes r).id (s.getIo r REG_SIODATA32_LO)
    s.setNormalRecv (s.nodes r).id
      (s.lockstep.normalRecv (s.nodes r).id ||| (s.getIo r REG_SIODATA32_HI <<< 16))
  | _ => s.setMultiRecv (s.nodes r).id 0xFFFF

/-- The function `_slaveUpdate`; `unused` is what the host bridge's
`unusedCycles` returns if it is invoked. -/
def _slaveUpdate (s : Session) (r : NodeRef) (unused : Int) : Except Fault (Int × Session) :=
  let transferActive := s.lockstep.d.transferActive
  let attachedMulti := s.lockstep.attachedMulti
  let attached := s.lockstep.d.attached
  let s := s.modPort r (fun g =>
    { g with siocnt := multiplayerControl.setReady g.siocnt (decide (attachedMulti = (attached : Int))) })
  let step : Except Fault (Bool × Session) :=
    match transferActive with
    | .TRANSFER_IDLE =>
      if ¬ multiplayerControl.ready (s.nodes r).d.siocnt then
        .ok (false, s.call (.addCycles (s.nodes r).id LOCKSTEP_INCREMENT))
      else
        .ok (false, s)
    | .TRANSFER_STARTING => .ok (false, s)
    | .TRANSFER_FINISHING => .ok (false, s)
    | .TRANSFER_STARTED =>
      let s := s.call (.unusedCycles (s.nodes r).id)
      if unused > (s.nodes r).eventDiff then
        .ok (false, s)
      else
        let s := s.modNode r (fun n => { n with transferFinished := false })
        .ok (true, slaveContribute s r)
    | .TRANSFER_FINISHED =>
      let s := s.call (.unusedCycles (s.nodes r).id)
      if unused > (s.nodes r).eventDiff then
        .ok (false, s)
      else
        match _finishTransfer s r with
        | .error e => .error e
        | .ok s => .ok (true, s)
  match step with
  | .error e => .error e
  | .ok (signal, s) =>
    if signal then .ok (0, s.call (.signal (1 <<< (s.nodes r).id))) else .ok (0, s)

/-! ## Unload, the normal-mode write hook and the event callback -/

/-- The "flush ongoing transfer" block of `GBASIOLockstepNodeUnload`: if the
event is scheduled it is descheduled, scheduled at delay 0, `eventDiff` is
corrected by the time the event was due after now, and the event is
descheduled again. -/
def unloadFlush (s : Session) (r : NodeRef) : Session :=
  let scheduled := mTimingIsScheduled (s.nodes r)
  if scheduled then
    let oldWhen := (s.nodes r).event.when
    let s := s.modNode r mTimingDeschedule
    let s := s.modNode r (fun n => mTimingSchedule n 0)
    let s :=
      if scheduled then
        s.modNode r (fun n => { n with eventDiff := n.eventDiff - (oldWhen - n.event.when) })
      else s
    s.modNode r mTimingDeschedule
  else s

/-- The `switch (node->mode)` of `GBASIOLockstepNodeUnload`:
`SAFE_SUB(node->p->attachedMulti, 1)` in multiplayer mode. -/
def unloadSwitch (s : Session) (r : NodeRef) : Session :=
  match (s.nodes r).mode with
  | .SIO_MULTI => s.setAttachedMulti (s.lockstep.attachedMulti - 1)
  | _ => s

/-- The part of `GBASIOLockstepNodeUnload` that precedes the call of
`_finishTransfer`: the mode is read from the console, `attachedMulti` is
decremented in multiplayer mode, the event is flushed, the host bridge's
`unload` callback is invoked (recorded in the log) and the shared receive
words are invalidated. -/
def unloadPrepare (s : Session) (r : NodeRef) : Session :=
  let s := s.modNode r (fun n => { n with mode := n.d.mode })
  let s := unloadSwitch s r
  let s := unloadFlush s r
  let s := s.call (.unload (s.nodes r).id)
  let s := s.setMultiRecv 0 0xFFFF
  let s := s.setMultiRecv 1 0xFFFF
  let s := s.setMultiRecv 2 0xFFFF
  s.setMultiRecv 3 0xFFFF

/-- The function `GBASIOLockstepNodeUnload`. -/
def GBASIOLockstepNodeUnload (s : Session) (r : NodeRef) : Except Fault (Bool × Session) :=
  match _finishTransfer (unloadPrepare s r) r with
  | .error e => .error e
  | .ok s =>
    let s := if (s.nodes r).id = 0 then s.setPhase .TRANSFER_IDLE else s
    .ok (true, s)

/-- The function `GBASIOLockstepNodeNormalWriteRegister`.  The constant
`GBA_ARM7TDMI_FREQUENCY` (the CPU clock rate) is defined outside the sources
and is a parameter.  The `uint16_t` argument is reduced modulo 2^16. -/
def GBASIOLockstepNodeNormalWriteRegister (GBA_ARM7TDMI_FREQUENCY : Nat)
    (s : Session) (r : NodeRef) (address : Nat) (value : Nat) : Nat × Session :=
  let value := value % 65536
  if address = REG_SIOCNT then
    let value := value &&& 0xFF8B
    let s :=
      if (s.nodes r).id = 0 then
        s.modPort r (fun g => { g with siocnt := normalControl.setSi g.siocnt true })
      else s
    let s :=
      if maskSet value 0x0080 ∧ (s.nodes r).id = 0 then
        let s := if maskSet value 1 then s.setPhase .TRANSFER_STARTING else s
        if maskSet value 2 then
          s.setTransferCycles ((GBA_ARM7TDMI_FREQUENCY / 1024 : Nat) : Int)
        else
          s.setTransferCycles ((GBA_ARM7TDMI_FREQUENCY / 8192 : Nat) : Int)
      else s
    (value, s)
  else
    (value, s)

/-- Modelled from the spec: the caller of the `writeRegister` hook
(`GBASIOWriteSIOCNT`, outside the sources), for a node whose hook is the
normal-mode one: it stores the value returned by the hook in the control
register. -/
def GBASIOWriteSIOCNTNormal (GBA_ARM7TDMI_FREQUENCY : Nat)
    (s : Session) (r : NodeRef) (value : Nat) : Session :=
  let res := GBASIOLockstepNodeNormalWriteRegister GBA_ARM7TDMI_FREQUENCY s r REG_SIOCNT value
  res.2.modPort r (fun g => { g with siocnt := res.1 })

/-- The update run by the event callback when `nextEvent <= 0`: the master
update for the node with id 0, otherwise the slave update followed by
`useCycles(id, eventDiff)`, whose result `used` is added to the cycle count;
then `eventDiff` is cleared. -/
def processUpdate (s : Session) (r : NodeRef) (waitResult : Bool) (unused used : Int) :
    Except Fault (Int × Session) :=
  let res : Except Fault (Int × Session) :=
    if (s.nodes r).id = 0 then
      _masterUpdate s r waitResult
    else
      match _slaveUpdate s r unused with
      | .error e => .error e
      | .ok res => .ok (res.1 + used, res.2.call (.useCycles (res.2.nodes r).id (res.2.nodes r).eventDiff))
  match res with
  | .error e => .error e
  | .ok res => .ok (res.1, res.2.modNode r (fun n => { n with eventDiff := 0 }))

/-- The rescheduling that ends the event callback. -/
def processReschedule (s : Session) (r : NodeRef) (cycles : Int) : Session :=
  if cycles > 0 then
    let s := s.modNode r (fun n => { n with nextEvent := 0 })
    let s := s.modNode r (fun n => { n with eventDiff := n.eventDiff + cycles })
    let s := s.modNode r mTimingDeschedule
    s.modNode r (fun n => mTimingSchedule n cycles)
  else
    let s := s.modPort r (fun g => { g with earlyExit := true })
    let s := s.modNode r (fun n => { n with eventDiff := n.eventDiff + 1 })
    s.modNode r (fun n => mTimingSchedule n 1)

/-- The value of a 32-bit signed counter after an arithmetic operation whose
mathematical result is `x` (two's complement wrap-around). -/
def wrapInt32 (x : Int) : Int := (x + 2147483648) % 4294967296 - 2147483648

/-- The session after the two assignments that open the event callback once
it has found two nodes attached: `node->nextEvent -= cyclesLate;
node->eventDiff += cyclesLate;`.  The argument `cyclesLate` is a `uint32_t`
(reduced modulo 2^32), so both results are computed in unsigned 32-bit
arithmetic and stored in the `int32_t` counters: they wrap around. -/
def callbackEntry (s : Session) (r : NodeRef) (cyclesLate : Nat) : Session :=
  let cyclesLate := cyclesLate % 4294967296
  let s := s.modNode r (fun n => { n with nextEvent := wrapInt32 (n.nextEvent - (cyclesLate : Int)) })
  s.modNode r (fun n => { n with eventDiff := wrapInt32 (n.eventDiff + (cyclesLate : Int)) })

/-- The function `_GBASIOLockstepNodeProcessEvents`, the callback of the
node's event.  `cyclesLate` is the argument of the callback; `waitResult`,
`unused` and `used` are what the host bridge's `wait`, `unusedCycles` and
`useCycles` return if they are invoked. -/
def _GBASIOLockstepNodeProcessEvents (s : Session) (r : NodeRef) (cyclesLate : Nat)
    (waitResult : Bool) (unused used : Int) : Except Fault Session :=
  if s.lockstep.d.attached < 2 then
    .ok s
  else
    let s := callbackEntry s r cyclesLate
    let upd : Except Fault (Int × Session) :=
      if (s.nodes r).nextEvent ≤ 0 then
        processUpdate s r waitResult unused used
      else
        .ok ((s.nodes r).nextEvent, s)
    match upd with
    | .error e => .error e
    | .ok res => .ok (processReschedule res.2 r res.1)

/-! ## Concrete sessions used to evaluate the embedding -/

/-- A console in multiplayer mode with all registers zero. -/
def port0 : GBASIOPort :=
  { mode := .SIO_MULTI, rcnt := 0, siocnt := 0, io := fun _ => 0, irqs := 0,
    earlyExit := false, now := 0 }

/-- A freshly allocated node on the console `port0`. -/
def node0 : GBASIOLockstepNode :=
  { d := port0, writeRegister := .null, p := false, id := 0, mode := .SIO_MULTI,
    transferFinished := false, nextEvent := 0, eventDiff := 0,
    event := { entries := 0, when := 0 } }

/-- A session before initialisation: every handle designates a copy of `node0`. -/
def rawSession : Session :=
  { lockstep :=
      { d := { attached := 0, transferActive := .TRANSFER_IDLE, transferCycles := 0 }
        players := fun _ => none
        multiRecv := fun _ => 0
        normalRecv := fun _ => 0
        attachedMulti := 0 }
    nodes := fun _ => node0
    calls := [] }

/-- The initialised session. -/
def session0 : Session := GBASIOLockstepInit rawSession

/-- A sample of the table `GBASIOCyclesPerTransfer` (the values of the GBA
hardware reference), used where a concrete table is needed. -/
def sampleCyclesPerTransfer (baud participants : Nat) : Int :=
  (([[38326, 73003, 107680, 142356], [9582, 18251, 26920, 35589],
     [6388, 12167, 17947, 23726], [3194, 6075, 8973, 11863]] : List (List Int)).getD baud []).getD
    participants 0

/-- Session of two consoles in which only the first has been loaded: after
initialisation, node 0 is attached and loaded in multiplayer mode, then node 1
is attached. -/
def staleReadySession : Session :=
  (GBASIOLockstepAttachNode
    (GBASIOLockstepNodeLoad (GBASIOLockstepAttachNode session0 0).2 0).2 1).2

/-- Session at IDLE with a slave (id 1) whose control register has bit 7 set. -/
def busySlaveSession : Session :=
  session0.setNode 1 { node0 with id := 1, d := { port0 with siocnt := 0x0080 } }

/-- Session at IDLE with a slave (id 1) whose registers are zero. -/
def idleSlaveSession : Session := session0.setNode 1 { node0 with id := 1 }

/-- Session in phase STARTED. -/
def startedSession : Session := session0.setPhase .TRANSFER_STARTED

/-- Scenario "two-player multi, clean transfer": two attached nodes in
multiplayer mode, node `i` in roster slot `i`, the ready bit set in the control
registers, the master's send register holding 0xAAAA and the slave's 0x5555. -/
def twoPlayerSession : Session :=
  { lockstep :=
      { d := { attached := 2, transferActive := .TRANSFER_IDLE, transferCycles := 0 }
        players := fun i => if i < 2 then some i else none
        multiRecv := fun _ => 0xFFFF
        normalRecv := fun _ => 0
        attachedMulti := 2 }
    nodes := fun r =>
      { node0 with
        id := r
        d := { port0 with
          siocnt := 0x0008
          io := fun a => if a = REG_SIOMLT_SEND >>> 1 then (if r = 0 then 0xAAAA else 0x5555) else 0 } }
    calls := [] }

/-- The words sent in the two-player scenario. -/
def twoPlayerData (i : Nat) : Nat := if i = 0 then 0xAAAA else 0x5555

/-! ## Sequences of roster operations -/

/-- An operation on the roster. -/
inductive RosterOp where
  | attach (r : NodeRef)
  | detach (r : NodeRef)
  deriving DecidableEq, Repr

/-- Run one roster operation on the code (the result of attach is dropped). -/
def runRosterOp (s : Session) : RosterOp → Except Fault Session
  | .attach r => .ok (GBASIOLockstepAttachNode s r).2
  | .detach r => GBASIOLockstepDetachNode s r

/-- Run a sequence of roster operations on the code. -/
def runRosterOps (s : Session) : List RosterOp → Except Fault Session
  | [] => .ok s
  | op :: ops =>
    match runRosterOp s op with
    | .error e => .error e
    | .ok s1 => runRosterOps s1 ops

/-- The roster as the specification describes it, a list of live nodes:
attach appends the node unless four nodes are present, detach removes the
node and keeps the order of the others. -/
def specRosterOp (l : List NodeRef) : RosterOp → List NodeRef
  | .attach r => if l.length = 4 then l else l ++ [r]
  | .detach r => l.erase r

/-- The specification's roster after a sequence of operations. -/
def specRoster (l : List NodeRef) (ops : List RosterOp) : List NodeRef :=
  ops.foldl specRosterOp l

/-- The nodes of the sequence are pairwise distinct: no operation attaches a
node that is in the roster at that moment. -/
def DistinctOps (l : List NodeRef) : List RosterOp → Prop
  | [] => True
  | .attach r :: ops => r ∉ l ∧ DistinctOps (specRosterOp l (.attach r)) ops
  | .detach r :: ops => DistinctOps (specRosterOp l (.detach r)) ops

/-- The slots `players[0 .. attached)` of the code's roster. -/
def rosterOf (s : Session) : List (Option NodeRef) :=
  (List.range s.lockstep.d.attached).map s.lockstep.players

/-- The code's roster holds exactly the nodes of the list `l`, in order, and
every one of them has its index as id. -/
def RosterInv (s : Session) (l : List NodeRef) : Prop :=
  s.lockstep.d.attached = l.length ∧ l.length ≤ 4 ∧ l.Nodup ∧
  ∀ i r, l[i]? = some r → s.lockstep.players i = some r ∧ (s.nodes r).id = i

/-- State of the inner loop of detach when it is about to visit index `j`,
the node removed being at index `k` of `l`. -/
def ShiftState (l : List NodeRef) (k j : Nat) (s : Session) : Prop :=
  (∀ i r, i + 1 < j → (l.eraseIdx k)[i]? = some r →
    s.lockstep.players i = some r ∧ (s.nodes r).id = i) ∧
  (∀ i r, j ≤ i → l[i]? = some r → s.lockstep.players i = some r ∧ (s.nodes r).id = i)

/-! ## A complete multiplayer transfer -/

/-- Run the updates of a list of slaves, one after the other; each entry
carries the node and the value `unusedCycles` returns to it. -/
def runSlaveUpdates (s : Session) : List (NodeRef × Int) → Except Fault Session
  | [] => .ok s
  | x :: rest =>
    match _slaveUpdate s x.1 x.2 with
    | .error e => .error e
    | .ok res => runSlaveUpdates res.2 rest

/-- One transfer: the master writes the control register, its update runs for
STARTING, the slaves of `started` run their updates, the master update runs
for STARTED and FINISHING, the slaves of `finished` run their updates and the
master update runs for FINISHED.  The host bridge's `wait` returns true. -/
def multiTransfer (GBASIOCyclesPerTransfer : Nat → Nat → Int) (s : Session) (master : NodeRef)
    (value : Nat) (started finished : List (NodeRef × Int)) : Except Fault Session :=
  let s0 := GBASIOWriteSIOCNT GBASIOCyclesPerTransfer s master value
  match _masterUpdate s0 master true with
  | .error e => .error e
  | .ok r1 =>
    match runSlaveUpdates r1.2 started with
    | .error e => .error e
    | .ok s2 =>
      match _masterUpdate s2 master true with
      | .error e => .error e
      | .ok r3 =>
        match _masterUpdate r3.2 master true with
        | .error e => .error e
        | .ok r4 =>
          match runSlaveUpdates r4.2 finished with
          | .error e => .error e
          | .ok s5 =>
            match _masterUpdate s5 master true with
            | .error e => .error e
            | .ok r6 => .ok r6.2

/-- The fields of a node on which the course of a multiplayer transfer
depends and that no step of a transfer changes: `n'` agrees with `n` on id,
mode, `eventDiff` and the send register. -/
def KeepCore (n n' : GBASIOLockstepNode) : Prop :=
  n'.id = n.id ∧ n'.mode = n.mode ∧ n'.eventDiff = n.eventDiff ∧
  n'.d.io (REG_SIOMLT_SEND >>> 1) = n.d.io (REG_SIOMLT_SEND >>> 1)

/-- The session has `n` attached nodes, all in multiplayer mode: roster slot
`i` holds the node `ref i`, whose id is `i` and whose send register holds
`d i`; the nodes are pairwise distinct. -/
def MultiSetup (s : Session) (n : Nat) (ref : Nat → NodeRef) (d : Nat → Nat) : Prop :=
  s.lockstep.d.attached = n ∧
  (∀ i j, i < n → j < n → ref i = ref j → i = j) ∧
  ∀ i, i < n → s.lockstep.players i = some (ref i) ∧ (s.nodes (ref i)).id = i ∧
    (s.nodes (ref i)).mode = .SIO_MULTI ∧ s.getIo (ref i) REG_SIOMLT_SEND = d i

/-- `MultiSetup` together with the values `e i` of the slaves' `eventDiff`. -/
def TransferInv (n : Nat) (ref : Nat → NodeRef) (d : Nat → Nat) (e : Nat → Int) (s : Session) :
    Prop :=
  MultiSetup s n ref d ∧ ∀ i, 1 ≤ i → i < n → (s.nodes (ref i)).eventDiff = e i

/-- The outcome of a transfer at the node in roster slot `j`: the four
receive registers hold the words sent by the attached nodes and 0xFFFF for
the empty slots, the reported id is `j`, and the node has finished. -/
def TransferDone (n : Nat) (ref : Nat → NodeRef) (d : Nat → Nat) (s : Session) (j : Nat) : Prop :=
  (s.nodes (ref j)).transferFinished = true ∧
  s.getIo (ref j) REG_SIOMULTI0 = d 0 ∧
  s.getIo (ref j) REG_SIOMULTI1 = d 1 ∧
  s.getIo (ref j) REG_SIOMULTI2 = (if 2 < n then d 2 else 0xFFFF) ∧
  s.getIo (ref j) REG_SIOMULTI3 = (if 3 < n then d 3 else 0xFFFF) ∧
  multiplayerControl.id (s.nodes (ref j)).d.siocnt = j

/-- The shared receive buffer holds the words of all attached nodes. -/
def RecvComplete (n : Nat) (d : Nat → Nat) (s : Session) : Prop :=
  s.lockstep.multiRecv 0 = d 0 ∧ s.lockstep.multiRecv 1 = d 1 ∧
  s.lockstep.multiRecv 2 = (if 2 < n then d 2 else 0xFFFF) ∧
  s.lockstep.multiRecv 3 = (if 3 < n then d 3 else 0xFFFF)

/-! ## Predicates used in the statements -/

/-- The fields of a node that `_finishTransfer` does not write: `n'` agrees
with `n` on them. -/
def SameControl (n n' : GBASIOLockstepNode) : Prop :=
  n'.id = n.id ∧ n'.mode = n.mode ∧ n'.nextEvent = n.nextEvent ∧ n'.eventDiff = n.eventDiff ∧
  n'.event = n.event ∧ n'.p = n.p ∧ n'.writeRegister = n.writeRegister ∧
  n'.d.mode = n.d.mode ∧ n'.d.now = n.d.now ∧ n'.d.earlyExit = n.d.earlyExit

/-- The roster slots `1 .. attached - 1`, which `_masterUpdate` reads through,
hold nodes. -/
def SlavesPresent (s : Session) : Prop :=
  ∀ i, 1 ≤ i → i < s.lockstep.d.attached → (s.lockstep.players i).isSome = true

/-- The phase that follows a phase in the cycle of a transfer. -/
def nextPhase : mLockstepPhase → mLockstepPhase
  | .TRANSFER_IDLE => .TRANSFER_STARTING
  | .TRANSFER_STARTING => .TRANSFER_STARTED
  | .TRANSFER_STARTED => .TRANSFER_FINISHING
  | .TRANSFER_FINISHING => .TRANSFER_FINISHED
  | .TRANSFER_FINISHED => .TRANSFER_IDLE

/-- The phase after one master update, as the specification tabulates it:
IDLE stays IDLE, every other phase moves to its successor. -/
def masterNextPhase : mLockstepPhase → mLockstepPhase
  | .TRANSFER_IDLE => .TRANSFER_IDLE
  | ph => nextPhase ph

/-- The advance of `nextEvent` in one master update, as the specification
tabulates it. -/
def masterAdvance (transferCycles : Int) : mLockstepPhase → Int
  | .TRANSFER_IDLE => 2000
  | .TRANSFER_STARTING => 512
  | .TRANSFER_STARTED => 512
  | .TRANSFER_FINISHING => transferCycles - 1024
  | .TRANSFER_FINISHED => 2000

/-- The phases in which the specification has the master wait. -/
def masterWaits : mLockstepPhase → Bool
  | .TRANSFER_STARTING => true
  | .TRANSFER_FINISHING => true
  | _ => false

/-! ## Operations of the coordinator -/

/-- An operation of the coordinator on the session, with the values that the
host bridge returns to it. -/
inductive CoordinatorOp where
  | attach (r : NodeRef)
  | detach (r : NodeRef)
  | load (r : NodeRef)
  | unload (r : NodeRef)
  | multiWrite (r : NodeRef) (address value : Nat)
  | normalWrite (r : NodeRef) (address value : Nat)
  | masterUpdate (r : NodeRef) (waitResult : Bool)
  | slaveUpdate (r : NodeRef) (unused : Int)
  | finishTransfer (r : NodeRef)
  | processEvents (r : NodeRef) (cyclesLate : Nat) (waitResult : Bool) (unused used : Int)

/-- Run one operation of the coordinator; the values returned to the caller
are dropped. -/
def runOp (GBASIOCyclesPerTransfer : Nat → Nat → Int) (GBA_ARM7TDMI_FREQUENCY : Nat)
    (s : Session) : CoordinatorOp → Except Fault Session
  | .attach r => .ok (GBASIOLockstepAttachNode s r).2
  | .detach r => GBASIOLockstepDetachNode s r
  | .load r => .ok (GBASIOLockstepNodeLoad s r).2
  | .unload r =>
    match GBASIOLockstepNodeUnload s r with
    | .error e => .error e
    | .ok res => .ok res.2
  | .multiWrite r address value =>
    .ok (GBASIOLockstepNodeMultiWriteRegister GBASIOCyclesPerTransfer s r address value).2
  | .normalWrite r address value =>
    .ok (GBASIOLockstepNodeNormalWriteRegister GBA_ARM7TDMI_FREQUENCY s r address value).2
  | .masterUpdate r waitResult =>
    match _masterUpdate s r waitResult with
    | .error e => .error e
    | .ok res => .ok res.2
  | .slaveUpdate r unused =>
    match _slaveUpdate s r unused with
    | .error e => .error e
    | .ok res => .ok res.2
  | .finishTransfer r => _finishTransfer s r
  | .processEvents r cyclesLate waitResult unused used =>
    _GBASIOLockstepNodeProcessEvents s r cyclesLate waitResult unused used

/-- A sample of the constant `GBA_ARM7TDMI_FREQUENCY` (the clock rate of the
GBA, 2^24 Hz), used where a concrete value is needed. -/
def sampleFrequency : Nat := 16777216

/-- What every operation other than attach, detach, load and unload leaves
alone: the number of attached nodes, the roster, `attachedMulti`, and the
serial mode of every console. -/
def RosterFrame (s s' : Session) : Prop :=
  s'.lockstep.d.attached = s.lockstep.d.attached ∧
  s'.lockstep.players = s.lockstep.players ∧
  s'.lockstep.attachedMulti = s.lockstep.attachedMulti ∧
  ∀ q, (s'.nodes q).d.mode = (s.nodes q).d.mode

/-- The word a slave stores in its `multiRecv` slot when it contributes in
phase STARTED: its send register in multiplayer mode, 0xFFFF in the other
modes. -/
def slaveStored (s : Session) (r : NodeRef) : Nat :=
  if (s.nodes r).mode = .SIO_MULTI then s.getIo r REG_SIOMLT_SEND else 0xFFFF

/-! ## Scenarios and predicates for unload, the normal mode and the callback -/

/-- Run the event callback of node `r` once for every entry of a list; an
entry carries the argument `cyclesLate` and the values that the host bridge's
`wait`, `unusedCycles` and `useCycles` return to that run. -/
def runCallbacks (s : Session) (r : NodeRef) : List (Nat × Bool × Int × Int) → Except Fault Session
  | [] => .ok s
  | x :: rest =>
    match _GBASIOLockstepNodeProcessEvents s r x.1 x.2.1 x.2.2.1 x.2.2.2 with
    | .error e => .error e
    | .ok s1 => runCallbacks s1 r rest

/-- Unload of a node followed by its detach. -/
def unloadDetach (s : Session) (r : NodeRef) : Except Fault Session :=
  match GBASIOLockstepNodeUnload s r with
  | .error e => .error e
  | .ok res => GBASIOLockstepDetachNode res.2 r

/-- A two-node multiplayer session: the master `m` in roster slot 0 and the
slave `sl` in roster slot 1, both in multiplayer mode. -/
def TwoNodeMulti (s : Session) (m sl : NodeRef) : Prop :=
  s.lockstep.d.attached = 2 ∧ m ≠ sl ∧
  s.lockstep.players 0 = some m ∧ s.lockstep.players 1 = some sl ∧
  (s.nodes m).id = 0 ∧ (s.nodes sl).id = 1 ∧
  (s.nodes m).mode = .SIO_MULTI ∧ (s.nodes sl).mode = .SIO_MULTI ∧
  (s.nodes m).d.mode = .SIO_MULTI ∧ (s.nodes sl).d.mode = .SIO_MULTI

/-- The two-player scenario in phase FINISHING. -/
def finishingSession : Session := twoPlayerSession.setPhase .TRANSFER_FINISHING

/-- Scenario "32-bit normal transfer": two attached nodes in 32-bit normal
mode, node `i` in roster slot `i`; the data register of the master holds the
halves `L` (low) and `H` (high), the registers of the slave are zero, and so
are the shared receive words `normalRecv`. -/
def normal32Session (L H : Nat) : Session :=
  { lockstep :=
      { d := { attached := 2, transferActive := .TRANSFER_IDLE, transferCycles := 0 }
        players := fun i => if i < 2 then some i else none
        multiRecv := fun _ => 0xFFFF
        normalRecv := fun _ => 0
        attachedMulti := 0 }
    nodes := fun r =>
      { node0 with
        id := r
        mode := .SIO_NORMAL_32
        writeRegister := .normal
        d := { port0 with
          mode := .SIO_NORMAL_32
          io := fun a => if r = 0 then (if a = REG_SIODATA32_LO >>> 1 then L else if a = REG_SIODATA32_HI >>> 1 then H else 0) else 0 } }
    calls := [] }

/-- One transfer in normal mode between a master and one slave: the master
writes the control register, its update runs for STARTING, the slave's update
runs (STARTED), the master's update runs for STARTED and for FINISHING, the
slave's update runs (FINISHED) and the master's update runs for FINISHED.  The
host bridge's `wait` returns true and the slave has caught up (`unusedCycles`
returns 0). -/
def normalTransfer (GBA_ARM7TDMI_FREQUENCY : Nat) (s : Session) (master slave : NodeRef)
    (value : Nat) : Except Fault Session :=
  let s0 := GBASIOWriteSIOCNTNormal GBA_ARM7TDMI_FREQUENCY s master value
  match _masterUpdate s0 master true with
  | .error e => .error e
  | .ok r1 =>
    match _slaveUpdate r1.2 slave 0 with
    | .error e => .error e
    | .ok r2 =>
      match _masterUpdate r2.2 master true with
      | .error e => .error e
      | .ok r3 =>
        match _masterUpdate r3.2 master true with
        | .error e => .error e
        | .ok r4 =>
          match _slaveUpdate r4.2 slave 0 with
          | .error e => .error e
          | .ok r5 =>
            match _masterUpdate r5.2 master true with
            | .error e => .error e
            | .ok r6 => .ok r6.2

/-- The 32-bit data register of node `r`, read from its two halves. -/
def readSIODATA32 (s : Session) (r : NodeRef) : Nat :=
  (s.getIo r REG_SIODATA32_HI <<< 16) ||| s.getIo r REG_SIODATA32_LO

/-- Modelled from the spec: the start bit of the normal-mode control register,
"bit 7 is start". -/
def normalControl.start (siocnt : Nat) : Bool := getBit siocnt 7

/-- The operations that the driver's hooks and the event callback invoke on
the node `r` when it is a slave: slave update, the two register-write hooks,
load, unload and `_finishTransfer`. -/
def IsSlaveOp (r : NodeRef) : CoordinatorOp → Prop
  | .slaveUpdate q _ => q = r
  | .multiWrite q _ _ => q = r
  | .normalWrite q _ _ => q = r
  | .load q => q = r
  | .unload q => q = r
  | .finishTransfer q => q = r
  | _ => False

/-- Some attached slave (roster slot `1 .. attached - 1`) has the serial mode
of node `r`: the mask that `_masterUpdate` computes is not empty. -/
def SlaveInMode (s : Session) (r : NodeRef) : Prop :=
  ∃ i q, 1 ≤ i ∧ i < s.lockstep.d.attached ∧ s.lockstep.players i = some q ∧
    (s.nodes q).mode = (s.nodes r).mode

/-- The invocations of the host bridge's `wait` in a log. -/
def waitCalls (calls : List HostCall) : List HostCall :=
  calls.filter (fun c => match c with | .wait _ => true | _ => false)

/-! ## Runs of operations, contributions and loaded nodes -/

/-- Run a sequence of operations of the coordinator. -/
def runOps (GBASIOCyclesPerTransfer : Nat → Nat → Int) (GBA_ARM7TDMI_FREQUENCY : Nat)
    (s : Session) : List CoordinatorOp → Except Fault Session
  | [] => .ok s
  | op :: ops =>
    match runOp GBASIOCyclesPerTransfer GBA_ARM7TDMI_FREQUENCY s op with
    | .error e => .error e
    | .ok s1 => runOps GBASIOCyclesPerTransfer GBA_ARM7TDMI_FREQUENCY s1 ops

/-- The operation, run in state `s`, is an unload or a STARTING step of the
master (a master update, direct or through the event callback of the node
with id 0, entered in phase STARTING): the operations that reset the receive
words. -/
def ResetsRecv (s : Session) : CoordinatorOp → Prop
  | .unload _ => True
  | .masterUpdate _ _ => s.phase = .TRANSFER_STARTING
  | .processEvents r cyclesLate _ _ _ =>
    2 ≤ s.lockstep.d.attached ∧ ((callbackEntry s r cyclesLate).nodes r).nextEvent ≤ 0 ∧
      (s.nodes r).id = 0 ∧ s.phase = .TRANSFER_STARTING
  | _ => False

/-- The STARTED contribution that the operation makes when run in state `s`,
if it makes one: the slot (the id of the contributing node) and the word
stored.  A slave update (direct or through the event callback of a node with
id > 0) contributes when the phase is STARTED and the slave has caught up. -/
def contribution (s : Session) : CoordinatorOp → Option (Nat × Nat)
  | .slaveUpdate r unused =>
    if s.phase = .TRANSFER_STARTED ∧ ¬ unused > (s.nodes r).eventDiff then
      some ((s.nodes r).id, slaveStored s r)
    else none
  | .processEvents r cyclesLate _ unused _ =>
    if 2 ≤ s.lockstep.d.attached ∧ ((callbackEntry s r cyclesLate).nodes r).nextEvent ≤ 0 ∧
        (s.nodes r).id ≠ 0 ∧ s.phase = .TRANSFER_STARTED ∧
        ¬ unused > ((callbackEntry s r cyclesLate).nodes r).eventDiff then
      some ((s.nodes r).id, slaveStored s r)
    else none
  | _ => none

/-- The word most recently contributed to slot `i` in the course of a run of
operations from state `s`, if any; `acc` is the word contributed before the
run. -/
def lastContribution (GBASIOCyclesPerTransfer : Nat → Nat → Int) (GBA_ARM7TDMI_FREQUENCY : Nat)
    (i : Nat) : Session → List CoordinatorOp → Option Nat → Option Nat
  | _, [], acc => acc
  | s, op :: ops, acc =>
    match runOp GBASIOCyclesPerTransfer GBA_ARM7TDMI_FREQUENCY s op with
    | .error _ => acc
    | .ok s1 =>
      lastContribution GBASIOCyclesPerTransfer GBA_ARM7TDMI_FREQUENCY i s1 ops
        (match contribution s op with
          | some (j, v) => if j = i then some v else acc
          | none => acc)

/-- No operation of the run from state `s` is an unload or a STARTING step of
the master. -/
def NoReset (GBASIOCyclesPerTransfer : Nat → Nat → Int) (GBA_ARM7TDMI_FREQUENCY : Nat) :
    Session → List CoordinatorOp → Prop
  | _, [] => True
  | s, op :: ops =>
    ¬ ResetsRecv s op ∧
    match runOp GBASIOCyclesPerTransfer GBA_ARM7TDMI_FREQUENCY s op with
    | .error _ => True
    | .ok s1 => NoReset GBASIOCyclesPerTransfer GBA_ARM7TDMI_FREQUENCY s1 ops

/-- The two-player scenario in phase STARTING. -/
def startingSession : Session := twoPlayerSession.setPhase .TRANSFER_STARTING

/-- The nodes in the roster slots `players[0 .. attached)`. -/
def rosterNodes (s : Session) : List NodeRef :=
  (List.range s.lockstep.d.attached).filterMap s.lockstep.players

/-- The operations by which the session evolves, given the list of the nodes
that are loaded: load is applied to an attached node that is not loaded,
unload to a loaded node, detach to a node that is not loaded; attach, the
register writes, the event callback and the updates it runs are unrestricted. -/
def AllowedOp (s : Session) (loaded : List NodeRef) : CoordinatorOp → Prop
  | .load r => r ∈ rosterNodes s ∧ r ∉ loaded
  | .unload r => r ∈ loaded
  | .detach r => r ∉ loaded
  | _ => True

/-- The list of loaded nodes after an operation. -/
def loadedAfter (loaded : List NodeRef) : CoordinatorOp → List NodeRef
  | .load r => r :: loaded
  | .unload r => loaded.erase r
  | _ => loaded

/-- The states reachable from an initialised session by allowed operations
that return, together with the list of the nodes that are loaded. -/
inductive Reachable (GBASIOCyclesPerTransfer : Nat → Nat → Int) (GBA_ARM7TDMI_FREQUENCY : Nat) :
    Session → List NodeRef → Prop where
  | init (s0 : Session) :
    Reachable GBASIOCyclesPerTransfer GBA_ARM7TDMI_FREQUENCY (GBASIOLockstepInit s0) []
  | step (s s' : Session) (loaded : List NodeRef) (op : CoordinatorOp) :
    Reachable GBASIOCyclesPerTransfer GBA_ARM7TDMI_FREQUENCY s loaded →
    AllowedOp s loaded op →
    runOp GBASIOCyclesPerTransfer GBA_ARM7TDMI_FREQUENCY s op = .ok s' →
    Reachable GBASIOCyclesPerTransfer GBA_ARM7TDMI_FREQUENCY s' (loadedAfter loaded op)

/-- The loaded nodes are pairwise distinct and attached, and `attachedMulti`
counts those whose console is in multiplayer mode. -/
def LoadedInv (s : Session) (loaded : List NodeRef) : Prop :=
  loaded.Nodup ∧ (∀ q, q ∈ loaded → q ∈ rosterNodes s) ∧
  s.lockstep.attachedMulti =
    ((loaded.filter (fun q => decide ((s.nodes q).d.mode = .SIO_MULTI))).length : Int)

/-- The two-player scenario right after the STARTING step of the master: the
session that the master update leaves when it is entered in phase STARTING
and the host bridge's `wait` returns true. -/
def afterStartingStep : Session :=
  match _masterUpdate startingSession 0 true with
  | .ok res => res.2
  | .error _ => startingSession

/-! ## The host bridge of the Qt front end -/

/-- Modelled from the spec: the platform of a player's console (`enum
mPlatform`, declared outside the sources): the primary console, its
predecessor, or none. -/
inductive mPlatform where
  | PLATFORM_NONE
  | PLATFORM_GBA
  | PLATFORM_GB
  deriving DecidableEq, Repr

/-- Modelled from the spec: what the host bridge uses of a player's
`CoreController` (a class declared outside the sources): the platform of its
console, the switch set by `setSync`, and whether the emulator thread is parked
by "the host thread wrapper that owns an emulator loop". -/
structure CoreController where
  platform : mPlatform
  sync : Bool
  parked : Bool
  deriving DecidableEq, Repr

/-- Modelled from the spec: `CoreController::setSync`. -/
def CoreController.setSync (c : CoreController) (b : Bool) : CoreController := { c with sync := b }

/-- Modelled from the spec: `mCoreThreadStopWaiting` of the host thread
wrapper releases the parked thread. -/
def mCoreThreadStopWaiting (c : CoreController) : CoreController := { c with parked := false }

/-- Modelled from the spec: `mCoreThreadWaitFromThread` of the host thread
wrapper parks the thread. -/
def mCoreThreadWaitFromThread (c : CoreController) : CoreController := { c with parked := true }

/-- Modelled from the spec: the node of the coordinator of the predecessor
console (`struct GBSIOLockstepNode`, outside the sources), of which the bridge
uses `nextEvent`. -/
structure GBSIOLockstepNode where
  nextEvent : Int
  deriving DecidableEq, Repr

/-- The class `MultiplayerController::Player`, with the fields that its
constructor initialises. -/
structure Player where
  controller : CoreController
  gbNode : Option GBSIOLockstepNode
  gbaNode : Option NodeRef
  awake : Int
  cyclesPosted : Int
  waitMask : Nat
  deriving DecidableEq, Repr

/-- The class `MultiplayerController`: the list `m_players`. -/
structure MultiplayerController where
  m_players : List Player
  deriving DecidableEq, Repr

/-- Replace `m_players[i]`. -/
def MultiplayerController.setPlayer (c : MultiplayerController) (i : Nat) (p : Player) :
    MultiplayerController :=
  { c with m_players := c.m_players.set i p }

/-- The test at the head of the loop of `addCycles`:
`player->controller->platform() == PLATFORM_GBA &&
player->gbaNode->d.p->mode != controller->m_players[0].gbaNode->d.p->mode`. -/
def modeDiffers (c : MultiplayerController) (s : Session) (player : Player) : Except Fault Bool :=
  if player.controller.platform = .PLATFORM_GBA then
    match player.gbaNode with
    | none => .error .nullPlayer
    | some q =>
      match c.m_players[0]? with
      | none => .error .nullPlayer
      | some p0 =>
        match p0.gbaNode with
        | none => .error .nullPlayer
        | some q0 => .ok (decide ((s.nodes q).d.mode ≠ (s.nodes q0).d.mode))
  else .ok false

/-- The `if (player->awake < 1)` block that ends the body of the loop of
`addCycles`: `nextEvent` of the player's node is advanced by the bank, the
thread is released and `awake` is set. -/
def wakePlayer (s : Session) (player : Player) : Except Fault (Player × Session) :=
  let advanced : Except Fault (Player × Session) :=
    match player.controller.platform with
    | .PLATFORM_GBA =>
      match player.gbaNode with
      | none => .error .nullPlayer
      | some q =>
        .ok (player, s.modNode q (fun n => { n with nextEvent := n.nextEvent + player.cyclesPosted }))
    | .PLATFORM_GB =>
      match player.gbNode with
      | none => .error .nullPlayer
      | some g =>
        .ok ({ player with gbNode := some { g with nextEvent := g.nextEvent + player.cyclesPosted } }, s)
    | .PLATFORM_NONE => .ok (player, s)
  match advanced with
  | .error e => .error e
  | .ok (player, s) =>
    let player := { player with controller := mCoreThreadStopWaiting player.controller }
    .ok ({ player with awake := 1 }, s)

/-- The body of the loop of `addCycles` for the player with index `i`. -/
def addCyclesStep (cycles : Int) (st : MultiplayerController × Session) (i : Nat) :
    Except Fault (MultiplayerController × Session) :=
  match st.1.m_players[i]? with
  | none => .error .nullPlayer
  | some player =>
    match modeDiffers st.1 st.2 player with
    | .error e => .error e
    | .ok true =>
      .ok (st.1.setPlayer i { player with controller := player.controller.setSync true }, st.2)
    | .ok false =>
      let player := { player with controller := player.controller.setSync false }
      let player := { player with cyclesPosted := wrapInt32 (player.cyclesPosted + cycles) }
      if player.awake < 1 then
        match wakePlayer st.2 player with
        | .error e => .error e
        | .ok (player, s) => .ok (st.1.setPlayer i player, s)
      else
        .ok (st.1.setPlayer i player, st.2)

/-- The loop of `addCycles`, run over the indices it visits. -/
def addCyclesLoop (cycles : Int) :
    MultiplayerController × Session → List Nat → Except Fault (MultiplayerController × Session)
  | st, [] => .ok st
  | st, i :: is =>
    match addCyclesStep cycles st i with
    | .error e => .error e
    | .ok st1 => addCyclesLoop cycles st1 is

/-- The callback `m_lockstep.addCycles` of the Qt host bridge. -/
def addCycles (c : MultiplayerController) (s : Session) (id : Nat) (cycles : Int) :
    Except Fault (MultiplayerController × Session) :=
  if cycles < 0 then
    .error .abort
  else if id = 0 then
    addCyclesLoop cycles (c, s) (List.range' 1 (c.m_players.length - 1))
  else
    match c.m_players[id]? with
    | none => .error .nullPlayer
    | some player =>
      let player := { player with controller := player.controller.setSync true }
      .ok (c.setPlayer id { player with cyclesPosted := wrapInt32 (player.cyclesPosted + cycles) }, s)

/-- The pointers that `addCycles(0, ...)` reads through are set: player 0 has
a node of the primary console, and so has every player of that platform;
every player of the predecessor platform has a node of that console. -/
def PlayersSet (c : MultiplayerController) : Prop :=
  (∀ p0, c.m_players[0]? = some p0 → p0.gbaNode.isSome = true) ∧
  ∀ p, p ∈ c.m_players →
    (p.controller.platform = .PLATFORM_GBA → p.gbaNode.isSome = true) ∧
    (p.controller.platform = .PLATFORM_GB → p.gbNode.isSome = true)

/-- What `addCycles(0, cycles)` does to a player `p` of the roster, `p'`
being the player afterwards: a player of the primary console whose serial mode
differs from that of player 0 is not credited and has synchronisation switched
on; every other player is credited `cycles` (in 32-bit arithmetic), has
synchronisation switched off and is awake. -/
def Credited (c : MultiplayerController) (s : Session) (cycles : Int) (p p' : Player) : Prop :=
  (modeDiffers c s p = .ok true →
    p'.cyclesPosted = p.cyclesPosted ∧ p'.controller.sync = true ∧ p'.awake = p.awake) ∧
  (modeDiffers c s p = .ok false →
    p'.cyclesPosted = wrapInt32 (p.cyclesPosted + cycles) ∧ p'.controller.sync = false ∧
    1 ≤ p'.awake)

/-- A player of the primary console on node `q`, awake, with an empty bank. -/
def gbaPlayer (q : NodeRef) : Player :=
  { controller := { platform := .PLATFORM_GBA, sync := false, parked := false }
    gbNode := none, gbaNode := some q, awake := 1, cyclesPosted := 0, waitMask := 0 }

/-- The roster of the Qt front end for two consoles on the nodes 0 and 1. -/
def twoPlayers : MultiplayerController := { m_players := [gbaPlayer 0, gbaPlayer 1] }

/-- The two-player scenario after the console of the slave has been switched
to 32-bit normal mode. -/
def mixedModeSession : Session :=
  twoPlayerSession.modPort 1 (fun g => { g with mode := .SIO_NORMAL_32 })

/-! ## The host bridge: wait, signal and the cycle bank -/

/-- The C expression `waitMask & ~mask` on unsigned values: the bits of `w`
that are not bits of `m`. -/
def clearMask (w m : Nat) : Nat := w ^^^ (w &&& m)

/-- The callback `m_lockstep.signal` of the Qt host bridge; it returns `woke`. -/
def signal (c : MultiplayerController) (mask : Nat) : Except Fault (Bool × MultiplayerController) :=
  match c.m_players[0]? with
  | none => .error .nullPlayer
  | some player =>
    let player := { player with waitMask := clearMask player.waitMask mask }
    if player.waitMask = 0 ∧ player.awake < 1 then
      let player := { player with controller := mCoreThreadStopWaiting player.controller }
      let player := { player with awake := 1 }
      .ok (true, c.setPlayer 0 player)
    else
      .ok (false, c.setPlayer 0 player)

/-- The callback `m_lockstep.wait` of the Qt host bridge; it returns `slept`. -/
def wait (c : MultiplayerController) (mask : Nat) : Except Fault (Bool × MultiplayerController) :=
  match c.m_players[0]? with
  | none => .error .nullPlayer
  | some player =>
    let player := { player with waitMask := player.waitMask ||| mask }
    if player.awake > 0 then
      let player := { player with controller := mCoreThreadWaitFromThread player.controller }
      let player := { player with awake := 0 }
      .ok (true, c.setPlayer 0 player)
    else
      .ok (false, c.setPlayer 0 player)

/-- The callback `m_lockstep.useCycles` of the Qt host bridge; it returns the
bank after the debit. -/
def useCycles (c : MultiplayerController) (id : Nat) (cycles : Int) :
    Except Fault (Int × MultiplayerController) :=
  match c.m_players[id]? with
  | none => .error .nullPlayer
  | some player =>
    let player := { player with cyclesPosted := wrapInt32 (player.cyclesPosted - cycles) }
    let player :=
      if player.cyclesPosted ≤ 0 then
        let player := { player with controller := mCoreThreadWaitFromThread player.controller }
        { player with awake := 0 }
      else player
    .ok (player.cyclesPosted, c.setPlayer id player)

/-- The callback `m_lockstep.unusedCycles` of the Qt host bridge. -/
def unusedCycles (c : MultiplayerController) (id : Nat) :
    Except Fault (Int × MultiplayerController) :=
  match c.m_players[id]? with
  | none => .error .nullPlayer
  | some player => .ok (player.cyclesPosted, c)

/-- Run `signal` once for every mask of a list; the results `woke` are
collected in order. -/
def runSignals (c : MultiplayerController) :
    List Nat → Except Fault (List Bool × MultiplayerController)
  | [] => .ok ([], c)
  | m :: ms =>
    match signal c m with
    | .error e => .error e
    | .ok res =>
      match runSignals res.2 ms with
      | .error e => .error e
      | .ok rest => .ok (res.1 :: rest.1, rest.2)

/-- The union of a list of masks. -/
def unionMasks (ms : List Nat) : Nat := ms.foldl (fun u m => u ||| m) 0

/-- The results that a sequence of signals to a master sleeping on `mask`
must have, `u` being the union of the masks signalled before: a call returns
true when the union covers `mask` after it and did not cover it before, and
false otherwise. -/
def firstCover (mask : Nat) : Nat → List Nat → List Bool
  | _, [] => []
  | u, m :: ms =>
    decide (mask &&& (u ||| m) = mask ∧ mask &&& u ≠ mask) :: firstCover mask (u ||| m) ms

/-- A call of the host bridge that concerns the bank of one slave:
`addCycles(0, cycles)`, `addCycles(id, cycles)`, `useCycles(id, cycles)` and
`unusedCycles(id)`. -/
inductive BankCall where
  | addAll (cycles : Int)
  | addOne (cycles : Int)
  | use (cycles : Int)
  | unused
  deriving DecidableEq, Repr

/-- Run one call on the bank of the slave `id`; the result is the value that
the call returns, if it returns one. -/
def runBankCall (c : MultiplayerController) (s : Session) (id : Nat) :
    BankCall → Except Fault (Option Int × MultiplayerController × Session)
  | .addAll cycles =>
    match addCycles c s 0 cycles with
    | .error e => .error e
    | .ok res => .ok (none, res.1, res.2)
  | .addOne cycles =>
    match addCycles c s id cycles with
    | .error e => .error e
    | .ok res => .ok (none, res.1, res.2)
  | .use cycles =>
    match useCycles c id cycles with
    | .error e => .error e
    | .ok res => .ok (some res.1, res.2, s)
  | .unused =>
    match unusedCycles c id with
    | .error e => .error e
    | .ok res => .ok (some res.1, res.2, s)

/-- Run a sequence of calls on the bank of the slave `id`. -/
def runBankCalls (c : MultiplayerController) (s : Session) (id : Nat) :
    List BankCall → Except Fault (List (Option Int) × MultiplayerController × Session)
  | [] => .ok ([], c, s)
  | call :: calls =>
    match runBankCall c s id call with
    | .error e => .error e
    | .ok res =>
      match runBankCalls res.2.1 res.2.2 id calls with
      | .error e => .error e
      | .ok rest => .ok (res.1 :: rest.1, rest.2)

/-- The sum of the credited amounts minus the sum of the debited amounts of
a sequence of calls. -/
def netCredit : List BankCall → Int
  | [] => 0
  | .addAll cycles :: calls => cycles + netCredit calls
  | .addOne cycles :: calls => cycles + netCredit calls
  | .use cycles :: calls => netCredit calls - cycles
  | .unused :: calls => netCredit calls

/-- Every credited amount of the sequence is non-negative (a negative amount
makes `addCycles` abort). -/
def NonNegCredits : List BankCall → Prop
  | [] => True
  | .addAll cycles :: calls => 0 ≤ cycles ∧ NonNegCredits calls
  | .addOne cycles :: calls => 0 ≤ cycles ∧ NonNegCredits calls
  | _ :: calls => NonNegCredits calls

/-- The values that the calls of a sequence must return when the bank holds
`b` before it: `useCycles` returns the bank after its debit, `unusedCycles`
the bank as it is (32-bit arithmetic). -/
def bankReturns (b : Int) : List BankCall → List (Option Int)
  | [] => []
  | .addAll cycles :: calls => none :: bankReturns (wrapInt32 (b + cycles)) calls
  | .addOne cycles :: calls => none :: bankReturns (wrapInt32 (b + cycles)) calls
  | .use cycles :: calls =>
    some (wrapInt32 (b - cycles)) :: bankReturns (wrapInt32 (b - cycles)) calls
  | .unused :: calls => some b :: bankReturns b calls

/-- The player `p'` sits where `p` sat: same platform, same node of the
primary console, and a node of the predecessor console if `p` had one. -/
def SameSeat (p p' : Player) : Prop :=
  p'.controller.platform = p.controller.platform ∧ p'.gbaNode = p.gbaNode ∧
  p'.gbNode.isSome = p.gbNode.isSome

/-- The roster `c'` seats the players of `c`. -/
def SameSeats (c c' : MultiplayerController) : Prop :=
  c'.m_players.length = c.m_players.length ∧
  ∀ (j : Nat) (p : Player), c.m_players[j]? = some p →
    ∃ p', c'.m_players[j]? = some p' ∧ SameSeat p p'

/-- The roster of the Qt front end for two consoles, the bank of the slave
holding 50 cycles. -/
def bankPlayers : MultiplayerController :=
  { m_players := [gbaPlayer 0, { gbaPlayer 1 with cyclesPosted := 50 }] }

/-! ## The event callback: the delay of the rescheduling -/

@[simp] theorem upd_apply {α : Type} (f : Nat → α) (i : Nat) (v : α) (j : Nat) :
    upd f i v j = if j = i then v else f j := rfl

theorem testBit_setBit (reg k : Nat) (b : Bool) (j : Nat) :
    (setBit reg k b).testBit j = if j = k then b else reg.testBit j := by
  unfold setBit
  cases b with
  | true =>
    simp only [if_true, Nat.testBit_or, Nat.one_shiftLeft, Nat.testBit_two_pow]
    by_cases h : j = k
    · subst h; simp
    · have h' : ¬ k = j := fun e => h e.symm
      simp [h, h']
  | false =>
    simp only [Bool.false_eq_true, if_false, Nat.testBit_xor, Nat.testBit_and, Nat.one_shiftLeft,
      Nat.testBit_two_pow]
    by_cases h : j = k
    · subst h; simp
    · have h' : ¬ k = j := fun e => h e.symm
      simp [h, h']

theorem and_two_pow_ite (x k : Nat) : x &&& 2 ^ k = if x.testBit k then 2 ^ k else 0 := by
  apply Nat.eq_of_testBit_eq
  intro i
  rw [Nat.testBit_and]
  by_cases h : x.testBit k = true
  · rw [if_pos h, Nat.testBit_two_pow]
    by_cases hi : k = i
    · subst hi; simp [h]
    · simp [hi]
  · rw [if_neg h, Nat.testBit_two_pow]
    by_cases hi : k = i
    · subst hi; simp [h]
    · simp [hi]

theorem and_0x80 (x : Nat) : x &&& 0x0080 = if x.testBit 7 then 0x0080 else 0 := by
  have h := and_two_pow_ite x 7
  norm_num at h
  exact h

theorem maskSet_0x80 (x : Nat) : maskSet x 0x0080 = x.testBit 7 := by
  unfold maskSet
  rw [and_0x80]
  by_cases h : x.testBit 7 = true <;> simp [h]

theorem testBit7_mod (x : Nat) : (x % 65536).testBit 7 = x.testBit 7 := by
  have h : (65536 : Nat) = 2 ^ 16 := by norm_num
  rw [h, Nat.testBit_mod_two_pow]
  simp

/-- Bit 7 of the value returned by the multiplayer write hook, in terms of
bit 7 of the value that reaches the final masking and of the register. -/
theorem testBit7_masked (v c : Nat) :
    ((v &&& 0xFF83) ||| (c &&& 0x00FC)).testBit 7 = (v.testBit 7 || c.testBit 7) := by
  have h1 : (0xFF83 : Nat).testBit 7 = true := by decide
  have h2 : (0x00FC : Nat).testBit 7 = true := by decide
  simp [Nat.testBit_or, Nat.testBit_and, h1, h2]

theorem testBit7_clear (v : Nat) : (v &&& 0xFF7F).testBit 7 = false := by
  have h1 : (0xFF7F : Nat).testBit 7 = false := by decide
  simp [Nat.testBit_and, h1]

namespace Session

variable (s : Session) (r q : NodeRef)

@[simp] theorem setNode_lockstep (n : GBASIOLockstepNode) : (s.setNode r n).lockstep = s.lockstep := rfl
@[simp] theorem setNode_calls (n : GBASIOLockstepNode) : (s.setNode r n).calls = s.calls := rfl
@[simp] theorem setNode_phase (n : GBASIOLockstepNode) : (s.setNode r n).phase = s.phase := rfl
theorem setNode_nodes (n : GBASIOLockstepNode) :
    (s.setNode r n).nodes q = if q = r then n else s.nodes q := rfl

@[simp] theorem modNode_lockstep (f : GBASIOLockstepNode → GBASIOLockstepNode) :
    (s.modNode r f).lockstep = s.lockstep := rfl
@[simp] theorem modNode_calls (f : GBASIOLockstepNode → GBASIOLockstepNode) :
    (s.modNode r f).calls = s.calls := rfl
@[simp] theorem modNode_phase (f : GBASIOLockstepNode → GBASIOLockstepNode) :
    (s.modNode r f).phase = s.phase := rfl
theorem modNode_nodes (f : GBASIOLockstepNode → GBASIOLockstepNode) :
    (s.modNode r f).nodes q = if q = r then f (s.nodes r) else s.nodes q := rfl
@[simp] theorem modNode_nodes_self (f : GBASIOLockstepNode → GBASIOLockstepNode) :
    (s.modNode r f).nodes r = f (s.nodes r) := by simp [modNode_nodes]
@[simp] theorem modNode_nodes_ne (f : GBASIOLockstepNode → GBASIOLockstepNode) (h : q ≠ r) :
    (s.modNode r f).nodes q = s.nodes q := by simp [modNode_nodes, h]

@[simp] theorem modPort_lockstep (f : GBASIOPort → GBASIOPort) :
    (s.modPort r f).lockstep = s.lockstep := rfl
@[simp] theorem modPort_calls (f : GBASIOPort → GBASIOPort) :
    (s.modPort r f).calls = s.calls := rfl
@[simp] theorem modPort_phase (f : GBASIOPort → GBASIOPort) :
    (s.modPort r f).phase = s.phase := rfl
@[simp] theorem modPort_nodes_self (f : GBASIOPort → GBASIOPort) :
    (s.modPort r f).nodes r = { s.nodes r with d := f (s.nodes r).d } := by
  simp [modPort]
@[simp] theorem modPort_nodes_ne (f : GBASIOPort → GBASIOPort) (h : q ≠ r) :
    (s.modPort r f).nodes q = s.nodes q := by simp [modPort, h]

@[simp] theorem setIo_lockstep (reg v : Nat) : (s.setIo r reg v).lockstep = s.lockstep := rfl
@[simp] theorem setIo_calls (reg v : Nat) : (s.setIo r reg v).calls = s.calls := rfl
@[simp] theorem setIo_phase (reg v : Nat) : (s.setIo r reg v).phase = s.phase := rfl
@[simp] theorem setIo_nodes_self (reg v : Nat) :
    (s.setIo r reg v).nodes r =
      { s.nodes r with d := { (s.nodes r).d with io := upd (s.nodes r).d.io (reg >>> 1) v } } := by
  simp [setIo]
@[simp] theorem setIo_nodes_ne (reg v : Nat) (h : q ≠ r) :
    (s.setIo r reg v).nodes q = s.nodes q := by simp [setIo, h]

@[simp] theorem setMultiRecv_nodes (i v : Nat) : (s.setMultiRecv i v).nodes = s.nodes := rfl
@[simp] theorem setMultiRecv_calls (i v : Nat) : (s.setMultiRecv i v).calls = s.calls := rfl
@[simp] theorem setMultiRecv_phase (i v : Nat) : (s.setMultiRecv i v).phase = s.phase := rfl
@[simp] theorem setMultiRecv_d (i v : Nat) : (s.setMultiRecv i v).lockstep.d = s.lockstep.d := rfl
@[simp] theorem setMultiRecv_players (i v : Nat) :
    (s.setMultiRecv i v).lockstep.players = s.lockstep.players := rfl
@[simp] theorem setMultiRecv_normalRecv (i v : Nat) :
    (s.setMultiRecv i v).lockstep.normalRecv = s.lockstep.normalRecv := rfl
@[simp] theorem setMultiRecv_attachedMulti (i v : Nat) :
    (s.setMultiRecv i v).lockstep.attachedMulti = s.lockstep.attachedMulti := rfl
@[simp] theorem setMultiRecv_multiRecv (i v : Nat) :
    (s.setMultiRecv i v).lockstep.multiRecv = upd s.lockstep.multiRecv i v := rfl

@[simp] theorem setNormalRecv_nodes (i v : Nat) : (s.setNormalRecv i v).nodes = s.nodes := rfl
@[simp] theorem setNormalRecv_calls (i v : Nat) : (s.setNormalRecv i v).calls = s.calls := rfl
@[simp] theorem setNormalRecv_phase (i v : Nat) : (s.setNormalRecv i v).phase = s.phase := rfl
@[simp] theorem setNormalRecv_d (i v : Nat) : (s.setNormalRecv i v).lockstep.d = s.lockstep.d := rfl
@[simp] theorem setNormalRecv_players (i v : Nat) :
    (s.setNormalRecv i v).lockstep.players = s.lockstep.players := rfl
@[simp] theorem setNormalRecv_multiRecv (i v : Nat) :
    (s.setNormalRecv i v).lockstep.multiRecv = s.lockstep.multiRecv := rfl
@[simp] theorem setNormalRecv_attachedMulti (i v : Nat) :
    (s.setNormalRecv i v).lockstep.attachedMulti = s.lockstep.attachedMulti := rfl
@[simp] theorem setNormalRecv_normalRecv (i v : Nat) :
    (s.setNormalRecv i v).lockstep.normalRecv = upd s.lockstep.normalRecv i v := rfl

@[simp] theorem setPhase_nodes (ph : mLockstepPhase) : (s.setPhase ph).nodes = s.nodes := rfl
@[simp] theorem setPhase_calls (ph : mLockstepPhase) : (s.setPhase ph).calls = s.calls := rfl
@[simp] theorem setPhase_phase (ph : mLockstepPhase) : (s.setPhase ph).phase = ph := rfl
@[simp] theorem setPhase_transferActive (ph : mLockstepPhase) :
    (s.setPhase ph).lockstep.d.transferActive = ph := rfl
@[simp] theorem setPhase_attached (ph : mLockstepPhase) :
    (s.setPhase ph).lockstep.d.attached = s.lockstep.d.attached := rfl
@[simp] theorem setPhase_transferCycles (ph : mLockstepPhase) :
    (s.setPhase ph).lockstep.d.transferCycles = s.lockstep.d.transferCycles := rfl
@[simp] theorem setPhase_players (ph : mLockstepPhase) :
    (s.setPhase ph).lockstep.players = s.lockstep.players := rfl
@[simp] theorem setPhase_multiRecv (ph : mLockstepPhase) :
    (s.setPhase ph).lockstep.multiRecv = s.lockstep.multiRecv := rfl
@[simp] theorem setPhase_normalRecv (ph : mLockstepPhase) :
    (s.setPhase ph).lockstep.normalRecv = s.lockstep.normalRecv := rfl
@[simp] theorem setPhase_attachedMulti (ph : mLockstepPhase) :
    (s.setPhase ph).lockstep.attachedMulti = s.lockstep.attachedMulti := rfl

@[simp] theorem setTransferCycles_nodes (c : Int) : (s.setTransferCycles c).nodes = s.nodes := rfl
@[simp] theorem setTransferCycles_calls (c : Int) : (s.setTransferCycles c).calls = s.calls := rfl
@[simp] theorem setTransferCycles_phase (c : Int) : (s.setTransferCycles c).phase = s.phase := rfl
@[simp] theorem setTransferCycles_transferActive (c : Int) :
    (s.setTransferCycles c).lockstep.d.transferActive = s.lockstep.d.transferActive := rfl
@[simp] theorem setTransferCycles_attached (c : Int) :
    (s.setTransferCycles c).lockstep.d.attached = s.lockstep.d.attached := rfl
@[simp] theorem setTransferCycles_transferCycles (c : Int) :
    (s.setTransferCycles c).lockstep.d.transferCycles = c := rfl
@[simp] theorem setTransferCycles_players (c : Int) :
    (s.setTransferCycles c).lockstep.players = s.lockstep.players := rfl
@[simp] theorem setTransferCycles_multiRecv (c : Int) :
    (s.setTransferCycles c).lockstep.multiRecv = s.lockstep.multiRecv := rfl
@[simp] theorem setTransferCycles_normalRecv (c : Int) :
    (s.setTransferCycles c).lockstep.normalRecv = s.lockstep.normalRecv := rfl
@[simp] theorem setTransferCycles_attachedMulti (c : Int) :
    (s.setTransferCycles c).lockstep.attachedMulti = s.lockstep.attachedMulti := rfl

@[simp] theorem call_nodes (c : HostCall) : (s.call c).nodes = s.nodes := rfl
@[simp] theorem call_lockstep (c : HostCall) : (s.call c).lockstep = s.lockstep := rfl
@[simp] theorem call_phase (c : HostCall) : (s.call c).phase = s.phase := rfl
@[simp] theorem call_calls (c : HostCall) : (s.call c).calls = s.calls ++ [c] := rfl

theorem phase_def : s.phase = s.lockstep.d.transferActive := rfl

end Session

/-! ## Facts about `_finishTransfer` -/

theorem raiseIfEnabled_lockstep (s : Session) (r : NodeRef) : (raiseIfEnabled s r).lockstep = s.lockstep := by
  unfold raiseIfEnabled; split <;> simp
theorem raiseIfEnabled_calls (s : Session) (r : NodeRef) : (raiseIfEnabled s r).calls = s.calls := by
  unfold raiseIfEnabled; split <;> simp
theorem raiseIfEnabled_nodes_ne (s : Session) (r q : NodeRef) (h : q ≠ r) : (raiseIfEnabled s r).nodes q = s.nodes q := by
  unfold raiseIfEnabled; split <;> simp [h]
theorem raiseIfEnabled_nodes_self (s : Session) (r : NodeRef) :
    (raiseIfEnabled s r).nodes r = { s.nodes r with d := { (s.nodes r).d with irqs := (s.nodes r).d.irqs + (if multiplayerControl.irq (s.nodes r).d.siocnt then 1 else 0) } } := by
  unfold raiseIfEnabled; split <;> simp [GBARaiseIRQ]

theorem testBit_toNat_low2 (v : Nat) : (v.testBit 0).toNat + 2 * (v.testBit 1).toNat = v % 4 := by
  have e0 : v.testBit 0 = decide (v % 2 = 1) := by
    simp [Nat.testBit_to_div_mod]
  have e1 : v.testBit 1 = decide (v / 2 % 2 = 1) := by
    simp [Nat.testBit_to_div_mod]
  rw [e0, e1]
  rcases Nat.mod_two_eq_zero_or_one v with h0 | h0 <;>
    rcases Nat.mod_two_eq_zero_or_one (v / 2) with h1 | h1 <;>
    simp [h0, h1] <;> omega

theorem getField2_setField2 (c k v : Nat) : getField2 (setField2 c k v) k = v % 4 := by
  unfold getField2 setField2
  rw [testBit_setBit, testBit_setBit, testBit_setBit]
  have hk : ¬ k = k + 1 := by omega
  simp only [if_true, hk, if_false, testBit_toNat_low2]

theorem getBit_setField2 (c k v j : Nat) (h1 : j ≠ k) (h2 : j ≠ k + 1) :
    getBit (setField2 c k v) j = getBit c j := by
  unfold getBit setField2
  rw [testBit_setBit, testBit_setBit]
  simp [h1, h2]

theorem getBit_setBit (c k j : Nat) (b : Bool) : getBit (setBit c k b) j = if j = k then b else getBit c j := by
  unfold getBit; exact testBit_setBit c k b j

/-- The node left by the case `SIO_MULTI` of `_finishTransfer`. -/
theorem finishMulti_node (s : Session) (r : NodeRef) :
    (finishMulti s r).nodes r =
      { s.nodes r with
        d := { (s.nodes r).d with
          io := upd (upd (upd (upd (s.nodes r).d.io (REG_SIOMULTI0 >>> 1) (s.lockstep.multiRecv 0))
                  (REG_SIOMULTI1 >>> 1) (s.lockstep.multiRecv 1))
                  (REG_SIOMULTI2 >>> 1) (s.lockstep.multiRecv 2))
                  (REG_SIOMULTI3 >>> 1) (s.lockstep.multiRecv 3)
          rcnt := (s.nodes r).d.rcnt ||| 1
          siocnt := multiplayerControl.setId (multiplayerControl.setBusy (s.nodes r).d.siocnt false) (s.nodes r).id
          irqs := (s.nodes r).d.irqs + (if multiplayerControl.irq (s.nodes r).d.siocnt then 1 else 0) } } := by
  unfold finishMulti
  simp [raiseIfEnabled_nodes_self, multiplayerControl.irq, multiplayerControl.setId, multiplayerControl.setBusy,
    getBit_setField2, getBit_setBit]

theorem finishMulti_lockstep (s : Session) (r : NodeRef) : (finishMulti s r).lockstep = s.lockstep := by
  unfold finishMulti; simp [raiseIfEnabled_lockstep]
theorem finishMulti_calls (s : Session) (r : NodeRef) : (finishMulti s r).calls = s.calls := by
  unfold finishMulti; simp [raiseIfEnabled_calls]
theorem finishMulti_nodes_ne (s : Session) (r q : NodeRef) (h : q ≠ r) : (finishMulti s r).nodes q = s.nodes q := by
  unfold finishMulti; simp [raiseIfEnabled_nodes_ne, h]

theorem finishTransfer_multi_eq (s : Session) (r : NodeRef)
    (hmode : (s.nodes r).mode = .SIO_MULTI) (htf : (s.nodes r).transferFinished = false) :
    _finishTransfer s r = .ok ((finishMulti s r).modNode r (fun n => { n with transferFinished := true })) := by
  simp [_finishTransfer, finishSwitch, hmode, htf]

theorem finishTransfer_done (s : Session) (r : NodeRef)
    (htf : (s.nodes r).transferFinished = true) : _finishTransfer s r = .ok s := by
  simp [_finishTransfer, htf]

theorem finishTransfer_sets_flag (s s' : Session) (r : NodeRef) (h : _finishTransfer s r = .ok s') :
    (s'.nodes r).transferFinished = true := by
  unfold _finishTransfer at h
  split at h
  · cases h; assumption
  · split at h
    · cases h
    · cases h; simp

/-- Claim C7: for a node in multiplayer mode whose `transferFinished` flag is
false (and whose id fits the two-bit id field, id < 4), `_finishTransfer`
returns normally; it stores `multiRecv[0..3]` in SIOMULTI0..3, sets bit 0 of
`rcnt`, clears the busy bit, sets the reported id to the node's id, raises
exactly one serial interrupt if the IRQ-enable bit is set and none otherwise,
sets `transferFinished`, and leaves `multiRecv`, `normalRecv` and the phase
unchanged. -/
theorem C7_finish_transfer_multi (s : Session) (r : NodeRef)
    (hmode : (s.nodes r).mode = .SIO_MULTI) (htf : (s.nodes r).transferFinished = false)
    (hid : (s.nodes r).id < 4) :
    ∃ s', _finishTransfer s r = .ok s' ∧
      s'.getIo r REG_SIOMULTI0 = s.lockstep.multiRecv 0 ∧
      s'.getIo r REG_SIOMULTI1 = s.lockstep.multiRecv 1 ∧
      s'.getIo r REG_SIOMULTI2 = s.lockstep.multiRecv 2 ∧
      s'.getIo r REG_SIOMULTI3 = s.lockstep.multiRecv 3 ∧
      (s'.nodes r).d.rcnt = (s.nodes r).d.rcnt ||| 1 ∧
      (s'.nodes r).d.rcnt.testBit 0 = true ∧
      multiplayerControl.busy (s'.nodes r).d.siocnt = false ∧
      multiplayerControl.id (s'.nodes r).d.siocnt = (s.nodes r).id ∧
      (s'.nodes r).d.irqs =
        (s.nodes r).d.irqs + (if multiplayerControl.irq (s.nodes r).d.siocnt then 1 else 0) ∧
      (s'.nodes r).transferFinished = true ∧
      s'.lockstep.multiRecv = s.lockstep.multiRecv ∧
      s'.lockstep.normalRecv = s.lockstep.normalRecv ∧
      s'.phase = s.phase := by
  refine ⟨_, finishTransfer_multi_eq s r hmode htf, ?_⟩
  have hid4 : (s.nodes r).id % 4 = (s.nodes r).id := Nat.mod_eq_of_lt hid
  simp [Session.getIo, finishMulti_node, finishMulti_lockstep, Session.phase_def,
    REG_SIOMULTI0, REG_SIOMULTI1, REG_SIOMULTI2, REG_SIOMULTI3,
    multiplayerControl.busy, multiplayerControl.id, multiplayerControl.setId,
    multiplayerControl.setBusy, getField2_setField2, getBit_setField2, getBit_setBit, hid4]


theorem finishSwitch_ok (s : Session) (r : NodeRef)
    (hup : (s.nodes r).id ≠ 0 → (s.lockstep.players ((s.nodes r).id - 1)).isSome = true) :
    ∃ s1, finishSwitch s r = .ok s1 := by
  unfold finishSwitch
  split
  · exact ⟨_, rfl⟩
  · unfold finishNormal8
    by_cases hid : (s.nodes r).id = 0
    · simp [hid]
    · obtain ⟨u, hu⟩ := Option.isSome_iff_exists.mp (hup hid)
      simp [hid, hu]
  · unfold finishNormal32
    by_cases hid : (s.nodes r).id = 0
    · simp [hid]
    · obtain ⟨u, hu⟩ := Option.isSome_iff_exists.mp (hup hid)
      simp [hid, hu]
  · exact ⟨_, rfl⟩

/-- After `_finishTransfer` has returned, a second call returns the session
unchanged. -/
theorem finishTransfer_twice (s : Session) (r : NodeRef)
    (hup : (s.nodes r).id ≠ 0 → (s.lockstep.players ((s.nodes r).id - 1)).isSome = true) :
    ∃ s', _finishTransfer s r = .ok s' ∧ _finishTransfer s' r = .ok s' := by
  by_cases htf : (s.nodes r).transferFinished = true
  · exact ⟨s, finishTransfer_done s r htf, finishTransfer_done s r htf⟩
  · obtain ⟨s1, h1⟩ := finishSwitch_ok s r hup
    have h : _finishTransfer s r = .ok (s1.modNode r (fun n => { n with transferFinished := true })) := by
      simp [_finishTransfer, htf, h1]
    exact ⟨_, h, finishTransfer_done _ r (finishTransfer_sets_flag _ _ r h)⟩

/-- Claim C8: for every node, in every serial mode, and every session in which
the roster slot read by the normal modes (slot id - 1 of a slave) holds a
node, `_finishTransfer` returns, a second call right after it returns too,
and the second call leaves the whole session as the first one left it: the
node, the guest memory and the count of raised interrupts are the same. -/
theorem C8_finish_transfer_idempotent (s : Session) (r : NodeRef)
    (hup : (s.nodes r).id ≠ 0 → (s.lockstep.players ((s.nodes r).id - 1)).isSome = true) :
    ∃ s1 s2, _finishTransfer s r = .ok s1 ∧ _finishTransfer s1 r = .ok s2 ∧ s2 = s1 ∧
      s2.nodes r = s1.nodes r ∧ (s2.nodes r).d.io = (s1.nodes r).d.io ∧
      (s2.nodes r).d.irqs = (s1.nodes r).d.irqs := by
  obtain ⟨s1, h1, h2⟩ := finishTransfer_twice s r hup
  exact ⟨s1, s1, h1, h2, rfl, rfl, rfl, rfl⟩

theorem finishNormal8_frame (s s1 : Session) (r : NodeRef) (h : finishNormal8 s r = .ok s1) :
    s1.lockstep = s.lockstep ∧ s1.calls = s.calls ∧ (∀ q, q ≠ r → s1.nodes q = s.nodes q) ∧
    SameControl (s.nodes r) (s1.nodes r) ∧
    (s1.nodes r).transferFinished = (s.nodes r).transferFinished := by
  unfold finishNormal8 at h
  simp only [Session.modPort_nodes_self, Session.modPort_lockstep] at h
  split at h
  · split at h
    · cases h
    · cases h
      refine ⟨?_, ?_, ?_, ?_, ?_⟩
      · simp [raiseIfEnabled_lockstep]
      · simp [raiseIfEnabled_calls]
      · intro q hq; simp [raiseIfEnabled_nodes_ne, hq]
      · simp [SameControl, raiseIfEnabled_nodes_self]
      · simp [raiseIfEnabled_nodes_self]
  · cases h
    refine ⟨?_, ?_, ?_, ?_, ?_⟩
    · simp [raiseIfEnabled_lockstep]
    · simp [raiseIfEnabled_calls]
    · intro q hq; simp [raiseIfEnabled_nodes_ne, hq]
    · simp [SameControl, raiseIfEnabled_nodes_self]
    · simp [raiseIfEnabled_nodes_self]

theorem finishNormal32_frame (s s1 : Session) (r : NodeRef) (h : finishNormal32 s r = .ok s1) :
    s1.lockstep = s.lockstep ∧ s1.calls = s.calls ∧ (∀ q, q ≠ r → s1.nodes q = s.nodes q) ∧
    SameControl (s.nodes r) (s1.nodes r) ∧
    (s1.nodes r).transferFinished = (s.nodes r).transferFinished := by
  unfold finishNormal32 at h
  simp only [Session.modPort_nodes_self, Session.modPort_lockstep] at h
  split at h
  · split at h
    · cases h
    · cases h
      refine ⟨?_, ?_, ?_, ?_, ?_⟩
      · simp [raiseIfEnabled_lockstep]
      · simp [raiseIfEnabled_calls]
      · intro q hq; simp [raiseIfEnabled_nodes_ne, hq]
      · simp [SameControl, raiseIfEnabled_nodes_self]
      · simp [raiseIfEnabled_nodes_self]
  · cases h
    refine ⟨?_, ?_, ?_, ?_, ?_⟩
    · simp [raiseIfEnabled_lockstep]
    · simp [raiseIfEnabled_calls]
    · intro q hq; simp [raiseIfEnabled_nodes_ne, hq]
    · simp [SameControl, raiseIfEnabled_nodes_self]
    · simp [raiseIfEnabled_nodes_self]

theorem finishSwitch_frame (s s1 : Session) (r : NodeRef) (h : finishSwitch s r = .ok s1) :
    s1.lockstep = s.lockstep ∧ s1.calls = s.calls ∧ (∀ q, q ≠ r → s1.nodes q = s.nodes q) ∧
    SameControl (s.nodes r) (s1.nodes r) ∧
    (s1.nodes r).transferFinished = (s.nodes r).transferFinished := by
  unfold finishSwitch at h
  split at h
  · cases h
    refine ⟨finishMulti_lockstep s r, finishMulti_calls s r, fun q hq => finishMulti_nodes_ne s r q hq, ?_, ?_⟩
    · simp [SameControl, finishMulti_node]
    · simp [finishMulti_node]
  · exact finishNormal8_frame s s1 r h
  · exact finishNormal32_frame s s1 r h
  · cases h
    simp [SameControl]

/-- What `_finishTransfer` leaves alone: the shared object, the bridge log,
every other node and the control fields of the node itself. -/
theorem finishTransfer_frame (s s' : Session) (r : NodeRef) (h : _finishTransfer s r = .ok s') :
    s'.lockstep = s.lockstep ∧ s'.calls = s.calls ∧ (∀ q, q ≠ r → s'.nodes q = s.nodes q) ∧
    SameControl (s.nodes r) (s'.nodes r) := by
  unfold _finishTransfer at h
  split at h
  · cases h; simp [SameControl]
  · split at h
    · cases h
    · rename_i s1 h1
      cases h
      obtain ⟨a, b, c, d, _⟩ := finishSwitch_frame s s1 r h1
      refine ⟨by simp [a], by simp [b], fun q hq => by simp [hq, c q hq], ?_⟩
      simpa [SameControl] using d




theorem slaveMaskLoop_ok (s : Session) (mode : GBASIOMode) (l : List Nat) :
    ∀ m0, (∀ i ∈ l, (s.lockstep.players i).isSome = true) → ∃ m, slaveMaskLoop s mode l m0 = .ok m := by
  induction l with
  | nil => intro m0 _; exact ⟨m0, rfl⟩
  | cons i is ih =>
    intro m0 h
    obtain ⟨q, hq⟩ := Option.isSome_iff_exists.mp (h i (List.mem_cons_self i is))
    simp only [slaveMaskLoop, hq]
    exact ih _ (fun j hj => h j (List.mem_cons_of_mem i hj))

theorem slaveMask_ok (s : Session) (r : NodeRef) (h : SlavesPresent s) :
    ∃ m, slaveMask s r = .ok m := by
  unfold slaveMask
  apply slaveMaskLoop_ok
  intro i hi
  rw [List.mem_range'_1] at hi
  exact h i hi.1 (by omega)

theorem masterPhaseStep_master (s : Session) (r : NodeRef) (hid : (s.nodes r).id = 0) :
    ∃ s1, masterPhaseStep s r = .ok (masterWaits s.phase, s1) ∧
      s1.phase = masterNextPhase s.phase ∧
      (s1.nodes r).nextEvent =
        (s.nodes r).nextEvent + masterAdvance s.lockstep.d.transferCycles s.phase ∧
      s1.lockstep.players = s.lockstep.players ∧
      s1.lockstep.d.attached = s.lockstep.d.attached ∧
      s1.lockstep.d.transferCycles = s.lockstep.d.transferCycles ∧
      (s1.nodes r).id = 0 := by
  unfold masterPhaseStep
  rw [Session.phase_def]
  cases hph : s.lockstep.d.transferActive
  · simp [masterWaits, masterNextPhase, masterAdvance, LOCKSTEP_INCREMENT, Session.phase_def, hph, hid]
  · simp [masterWaits, masterNextPhase, nextPhase, masterAdvance, Session.phase_def, hid]
  · simp [masterWaits, masterNextPhase, nextPhase, masterAdvance, Session.phase_def, hid]
  · simp [masterWaits, masterNextPhase, nextPhase, masterAdvance, Session.phase_def, hid]
  · obtain ⟨s', h1, _⟩ := finishTransfer_twice s r (fun h => absurd hid h)
    obtain ⟨a, _, _, d⟩ := finishTransfer_frame s s' r h1
    simp only [h1]
    refine ⟨_, rfl, ?_⟩
    simp [masterNextPhase, nextPhase, masterAdvance, LOCKSTEP_INCREMENT, a, d.1, d.2.2.1, hid]




/-- One master update that does not abort. -/
theorem masterUpdate_ok (s : Session) (r : NodeRef) (w : Bool)
    (hid : (s.nodes r).id = 0) (hp : SlavesPresent s)
    (hw : masterWaits s.phase = true → w = true) :
    ∃ s', _masterUpdate s r w
        = .ok (if masterWaits s.phase then 0 else (s'.nodes r).nextEvent, s') ∧
      s'.phase = masterNextPhase s.phase ∧
      (s'.nodes r).nextEvent =
        (s.nodes r).nextEvent + masterAdvance s.lockstep.d.transferCycles s.phase ∧
      s'.lockstep.d.transferCycles = s.lockstep.d.transferCycles ∧
      (s'.nodes r).id = 0 ∧ SlavesPresent s' := by
  obtain ⟨s1, h1, hph, hne, hpl, hat, htc, hid1⟩ := masterPhaseStep_master s r hid
  have hp1 : SlavesPresent s1 := by
    intro i hi1 hi2
    rw [hpl]; rw [hat] at hi2
    exact hp i hi1 hi2
  obtain ⟨m, hm⟩ := slaveMask_ok s1 r hp1
  unfold _masterUpdate
  simp only [h1, hm]
  by_cases hwait : masterWaits s.phase = true
  · have hw' := hw hwait
    subst hw'
    by_cases hm0 : m = 0
    · refine ⟨s1.call (.addCycles 0 (s1.nodes r).eventDiff), ?_, ?_⟩
      · simp [hwait, hm0]
      · exact ⟨hph, hne, htc, hid1, hp1⟩
    · refine ⟨(s1.call (.wait m)).call (.addCycles 0 (s1.nodes r).eventDiff), ?_, ?_⟩
      · simp [hwait, hm0]
      · exact ⟨hph, hne, htc, hid1, hp1⟩
  · have hwait' : masterWaits s.phase = false := by simpa using hwait
    by_cases hm0 : m = 0
    · refine ⟨s1.call (.addCycles 0 (s1.nodes r).eventDiff), ?_, ?_⟩
      · simp [hwait', hm0]
      · exact ⟨hph, hne, htc, hid1, hp1⟩
    · refine ⟨(s1.call (.signal m)).call (.addCycles 0 (s1.nodes r).eventDiff), ?_, ?_⟩
      · simp [hwait', hm0]
      · exact ⟨hph, hne, htc, hid1, hp1⟩

/-! ## The multiplayer register-write hook -/

/-- Claim C2: a write of the multiplayer control register by the master
(id 0) with bit 7 set, at IDLE with the master's ready bit set, leaves the
phase STARTING and `transferCycles` equal to the entry of
`GBASIOCyclesPerTransfer` for the master's baud setting and `attached - 1`,
and the value returned has bit 7 set. -/
theorem C2_master_start_accepted (tbl : Nat → Nat → Int) (s : Session) (r : NodeRef) (value : Nat)
    (hid : (s.nodes r).id = 0) (hv : maskSet value 0x0080 = true)
    (hph : s.phase = .TRANSFER_IDLE)
    (hready : multiplayerControl.ready (s.nodes r).d.siocnt = true) :
    (GBASIOLockstepNodeMultiWriteRegister tbl s r REG_SIOCNT value).2.phase = .TRANSFER_STARTING ∧
    (GBASIOLockstepNodeMultiWriteRegister tbl s r REG_SIOCNT value).2.lockstep.d.transferCycles
      = tbl (multiplayerControl.baud (s.nodes r).d.siocnt) (s.lockstep.d.attached - 1) ∧
    maskSet (GBASIOLockstepNodeMultiWriteRegister tbl s r REG_SIOCNT value).1 0x0080 = true := by
  rw [maskSet_0x80] at hv
  rw [Session.phase_def] at hph
  have hv' : maskSet (value % 65536) 0x0080 = true := by rw [maskSet_0x80, testBit7_mod]; exact hv
  simp only [GBASIOLockstepNodeMultiWriteRegister, if_true, hv', hph, hid, hready, and_self]
  refine ⟨?_, ?_, ?_⟩
  · split <;> rfl
  · split <;> simp [Session.modNode_lockstep]
  · rw [maskSet_0x80]
    split <;> simp only [testBit7_masked, testBit7_mod, hv, Bool.true_or]

/-- Claim C9: attach returns false exactly when `attached` is 4 (`MAX_GBAS`),
and then the session is unchanged; otherwise it returns true, gives the node
the old value of `attached` as id, stores the node in that roster slot,
increases `attached` by one and leaves the phase, `multiRecv`,
`attachedMulti`, every other roster slot and every other node unchanged. -/
theorem C9_attach_node (s : Session) (r : NodeRef) :
    ((GBASIOLockstepAttachNode s r).1 = false ↔ s.lockstep.d.attached = 4) ∧
    (s.lockstep.d.attached = 4 → (GBASIOLockstepAttachNode s r).2 = s) ∧
    (s.lockstep.d.attached ≠ 4 →
      (GBASIOLockstepAttachNode s r).1 = true ∧
      ((GBASIOLockstepAttachNode s r).2.nodes r).id = s.lockstep.d.attached ∧
      (GBASIOLockstepAttachNode s r).2.lockstep.players s.lockstep.d.attached = some r ∧
      (GBASIOLockstepAttachNode s r).2.lockstep.d.attached = s.lockstep.d.attached + 1 ∧
      (GBASIOLockstepAttachNode s r).2.phase = s.phase ∧
      (GBASIOLockstepAttachNode s r).2.lockstep.multiRecv = s.lockstep.multiRecv ∧
      (GBASIOLockstepAttachNode s r).2.lockstep.attachedMulti = s.lockstep.attachedMulti ∧
      (∀ i, i ≠ s.lockstep.d.attached →
        (GBASIOLockstepAttachNode s r).2.lockstep.players i = s.lockstep.players i) ∧
      (∀ q, q ≠ r → (GBASIOLockstepAttachNode s r).2.nodes q = s.nodes q)) := by
  unfold GBASIOLockstepAttachNode
  by_cases h : s.lockstep.d.attached = 4
  · simp [h, MAX_GBAS]
  · simp only [h, MAX_GBAS, Session.phase_def, if_false, false_iff, not_false_eq_true, true_and,
      ne_eq, IsEmpty.forall_iff, forall_true_left]
    refine ⟨by simp, by simp, by simp, by simp, by simp, by simp, by simp, ?_, ?_⟩
    · intro i hi; simp [hi]
    · intro q hq
      simp [Session.modNode_nodes, hq]


/-- The value returned by the multiplayer write hook, and the session it
leaves, whenever the transfer is not started: the phase is not IDLE, or the
node is a slave, or the master's ready bit is clear. -/
theorem multiWrite_no_start (tbl : Nat → Nat → Int) (s : Session) (r : NodeRef) (value : Nat)
    (hv : maskSet value 0x0080 = true)
    (h : s.phase ≠ .TRANSFER_IDLE ∨ (s.nodes r).id ≠ 0 ∨
      multiplayerControl.ready (s.nodes r).d.siocnt = false) :
    GBASIOLockstepNodeMultiWriteRegister tbl s r REG_SIOCNT value =
      ((((if s.phase = .TRANSFER_IDLE then (value % 65536) &&& 0xFF7F else value % 65536))
          &&& 0xFF83) ||| ((s.nodes r).d.siocnt &&& 0x00FC), s) := by
  rw [maskSet_0x80] at hv
  have hv' : maskSet (value % 65536) 0x0080 = true := by rw [maskSet_0x80, testBit7_mod]; exact hv
  by_cases hph : s.lockstep.d.transferActive = .TRANSFER_IDLE
  · have hno : ¬ ((s.nodes r).id = 0 ∧ multiplayerControl.ready (s.nodes r).d.siocnt = true) := by
      rintro ⟨h1, h2⟩
      rcases h with h | h | h
      · exact h hph
      · exact h h1
      · rw [h2] at h; cases h
    simp only [GBASIOLockstepNodeMultiWriteRegister, if_true, hv', hph, hno, and_self, if_false,
      Session.phase_def]
  · simp only [GBASIOLockstepNodeMultiWriteRegister, if_true, hv', hph, and_false, if_false,
      Session.phase_def]

/-- Claim C5, amended: a write of the multiplayer control register with bit 7
set while the phase is not IDLE returns a value that has bit 7 set (the start
bit is not cleared), and the phase, with the rest of the session, is
unchanged. -/
theorem C5_start_during_transfer (tbl : Nat → Nat → Int) (s : Session) (r : NodeRef) (value : Nat)
    (hv : maskSet value 0x0080 = true) (hph : s.phase ≠ .TRANSFER_IDLE) :
    maskSet (GBASIOLockstepNodeMultiWriteRegister tbl s r REG_SIOCNT value).1 0x0080 = true ∧
    (GBASIOLockstepNodeMultiWriteRegister tbl s r REG_SIOCNT value).2.phase = s.phase ∧
    (GBASIOLockstepNodeMultiWriteRegister tbl s r REG_SIOCNT value).2 = s := by
  rw [multiWrite_no_start tbl s r value hv (Or.inl hph)]
  rw [maskSet_0x80] at hv
  refine ⟨?_, rfl, rfl⟩
  simp only [if_neg hph]
  rw [maskSet_0x80, testBit7_masked, testBit7_mod, hv, Bool.true_or]

/-- The master update at IDLE: it refreshes the ready bit of the node from
`attachedMulti == attached` and calls neither `wait` nor `abort`. -/
theorem masterUpdate_idle (s : Session) (r : NodeRef) (w : Bool)
    (hph : s.phase = .TRANSFER_IDLE) (hp : SlavesPresent s) :
    ∃ s1, _masterUpdate s r w = .ok ((s1.nodes r).nextEvent, s1) ∧
      s1.lockstep = s.lockstep ∧
      (s1.nodes r).id = (s.nodes r).id ∧
      (s1.nodes r).d.siocnt = multiplayerControl.setReady (s.nodes r).d.siocnt
        (decide (s.lockstep.attachedMulti = (s.lockstep.d.attached : Int))) := by
  have hph' : s.lockstep.d.transferActive = .TRANSFER_IDLE := hph
  have hstep : ∃ s1, masterPhaseStep s r = .ok (false, s1) ∧ s1.lockstep = s.lockstep ∧
      (s1.nodes r).id = (s.nodes r).id ∧
      (s1.nodes r).d.siocnt = multiplayerControl.setReady (s.nodes r).d.siocnt
        (decide (s.lockstep.attachedMulti = (s.lockstep.d.attached : Int))) := by
    simp [masterPhaseStep, hph']
  obtain ⟨s0, hstep, hl0, hid0, hcnt0⟩ := hstep
  have hp1 : SlavesPresent s0 := by
    intro i h1 h2
    rw [hl0] at h2 ⊢
    exact hp i h1 h2
  obtain ⟨m, hm⟩ := slaveMask_ok s0 r hp1
  unfold _masterUpdate
  simp only [hstep, hm]
  by_cases hm0 : m = 0
  · exact ⟨s0.call (.addCycles 0 (s0.nodes r).eventDiff), by simp [hm0], by simp [hl0],
      by simp [hid0], by simp [hcnt0]⟩
  · exact ⟨(s0.call (.signal m)).call (.addCycles 0 (s0.nodes r).eventDiff), by simp [hm0],
      by simp [hl0], by simp [hid0], by simp [hcnt0]⟩

/-- Claim C4, amended: in a session at IDLE in which `attachedMulti` differs
from `attached` and bit 7 of the master's control register is clear, once the
master's update has run (it refreshes the ready bit from
`attachedMulti == attached`), a write of the control register by the master
with bit 7 set returns a value with bit 7 cleared and leaves the phase IDLE. -/
theorem C4_start_rejected_after_refresh (tbl : Nat → Nat → Int) (s : Session) (r : NodeRef)
    (value : Nat) (w : Bool)
    (_hid : (s.nodes r).id = 0) (hph : s.phase = .TRANSFER_IDLE)
    (hne : s.lockstep.attachedMulti ≠ (s.lockstep.d.attached : Int))
    (hp : SlavesPresent s)
    (hb7 : maskSet (s.nodes r).d.siocnt 0x0080 = false)
    (hv : maskSet value 0x0080 = true) :
    ∃ c s1, _masterUpdate s r w = .ok (c, s1) ∧
      s1.phase = .TRANSFER_IDLE ∧
      s1.lockstep.attachedMulti ≠ (s1.lockstep.d.attached : Int) ∧
      maskSet (GBASIOLockstepNodeMultiWriteRegister tbl s1 r REG_SIOCNT value).1 0x0080 = false ∧
      (GBASIOLockstepNodeMultiWriteRegister tbl s1 r REG_SIOCNT value).2.phase = .TRANSFER_IDLE := by
  obtain ⟨s1, h1, hl, hid1, hcnt⟩ := masterUpdate_idle s r w hph hp
  have hph1 : s1.phase = .TRANSFER_IDLE := by rw [Session.phase_def, hl]; exact hph
  have hready : multiplayerControl.ready (s1.nodes r).d.siocnt = false := by
    rw [hcnt]
    simp [multiplayerControl.ready, multiplayerControl.setReady, getBit_setBit, hne]
  have hb7' : (s1.nodes r).d.siocnt.testBit 7 = false := by
    rw [hcnt, multiplayerControl.setReady, testBit_setBit]
    rw [maskSet_0x80] at hb7
    simp [hb7]
  refine ⟨_, s1, h1, hph1, by rw [hl]; exact hne, ?_, ?_⟩
  · rw [multiWrite_no_start tbl s1 r value hv (Or.inr (Or.inr hready))]
    simp only [if_pos hph1]
    rw [maskSet_0x80, testBit7_masked, testBit7_clear, hb7', Bool.false_or]
  · rw [multiWrite_no_start tbl s1 r value hv (Or.inr (Or.inr hready))]
    exact hph1


/-! ## Roster management -/

theorem rosterInv_init (s0 : Session) : RosterInv (GBASIOLockstepInit s0) [] := by
  refine ⟨rfl, by simp, List.nodup_nil, ?_⟩
  intro i r h
  simp at h

theorem rosterInv_attach (s : Session) (l : List NodeRef) (r : NodeRef)
    (h : RosterInv s l) (hr : r ∉ l) :
    RosterInv (GBASIOLockstepAttachNode s r).2 (specRosterOp l (.attach r)) := by
  obtain ⟨hn, h4, hnd, hpl⟩ := h
  unfold GBASIOLockstepAttachNode specRosterOp
  by_cases hfull : l.length = 4
  · simp only [hn, hfull, MAX_GBAS, if_true]
    exact ⟨hn, h4, hnd, hpl⟩
  · simp only [hn, hfull, MAX_GBAS, if_false]
    refine ⟨by simp [hn], by simp; omega, ?_, ?_⟩
    · rw [List.nodup_append]
      refine ⟨hnd, List.nodup_singleton r, ?_⟩
      intro a ha hb
      simp at hb
      subst hb
      exact hr ha
    · intro i q hq
      rw [List.getElem?_append] at hq
      by_cases hi : i < l.length
      · simp only [hi, if_true] at hq
        have hqr : q ≠ r := by
          intro e
          subst e
          exact hr (List.mem_iff_getElem?.mpr ⟨i, hq⟩)
        have hil : i ≠ l.length := by omega
        obtain ⟨a, b⟩ := hpl i q hq
        simp [hil, hqr, a, b]
      · simp only [hi, if_false] at hq
        have hi0 : i - l.length = 0 := by
          by_contra hne
          have : (([r] : List NodeRef))[i - l.length]? = none := by
            apply List.getElem?_eq_none
            simp
            omega
          rw [this] at hq
          cases hq
        have hil : i = l.length := by omega
        rw [hi0] at hq
        simp at hq
        subst hq
        simp [hil, hn]

theorem detach_absent (s : Session) (l : List NodeRef) (r : NodeRef)
    (h : RosterInv s l) (hr : r ∉ l) : GBASIOLockstepDetachNode s r = .ok s := by
  obtain ⟨hn, h4, hnd, hpl⟩ := h
  unfold GBASIOLockstepDetachNode
  split
  · rfl
  · have hnone : (List.range s.lockstep.d.attached).find?
        (fun i => decide (s.lockstep.players i = some r)) = none := by
      rw [List.find?_eq_none]
      intro i hi
      rw [List.mem_range, hn] at hi
      have hq : l[i]? = some l[i] := List.getElem?_eq_getElem hi
      obtain ⟨a, _⟩ := hpl i _ hq
      simp only [a, decide_eq_true_eq, Option.some.injEq]
      intro e
      exact hr (e ▸ List.getElem_mem hi)
    simp only [hnone]




theorem detachShift_step (l : List NodeRef) (k j : Nat) (s : Session)
    (hnd : l.Nodup) (hk : k < j) (hj : j < l.length) (hs : ShiftState l k j s) :
    ∃ s', detachShift s j = .ok s' ∧ ShiftState l k (j + 1) s' ∧
      s'.lockstep.d.attached = s.lockstep.d.attached := by
  obtain ⟨hs1, hs2⟩ := hs
  have hq : l[j]? = some l[j] := List.getElem?_eq_getElem hj
  obtain ⟨hplj, _⟩ := hs2 j _ (Nat.le_refl j) hq
  have herase : (l.eraseIdx k)[j - 1]? = some l[j] := by
    rw [List.getElem?_eraseIdx_of_ge l k (j - 1) (by omega)]
    have : j - 1 + 1 = j := by omega
    rw [this]; exact hq
  have hnd' : (l.eraseIdx k).Nodup := List.Nodup.eraseIdx k hnd
  have hstep : ∃ s', detachShift s j = .ok s' ∧
      s'.lockstep.players = upd s.lockstep.players (j - 1) (some l[j]) ∧
      (∀ q, (s'.nodes q).id = if q = l[j] then j - 1 else (s.nodes q).id) ∧
      s'.lockstep.d.attached = s.lockstep.d.attached := by
    cases hd : detachShift s j with
    | error e => simp [detachShift, hplj] at hd
    | ok s' =>
      simp only [detachShift, upd_apply, if_true, hplj, Except.ok.injEq] at hd
      subst hd
      refine ⟨_, rfl, by simp [hplj], ?_, by simp⟩
      intro q
      by_cases hql : q = l[j]
      · rw [hql]; simp
      · simp [hql]
  obtain ⟨s', hs', hpl', hid', hatt'⟩ := hstep
  refine ⟨s', hs', ?_, hatt'⟩
  constructor
  · intro i q' hi hq'
    rw [hpl', hid']
    by_cases hlt : i + 1 < j
    · obtain ⟨a, b⟩ := hs1 i q' hlt hq'
      have hne : q' ≠ l[j] := by
        intro e
        have hil : i < (l.eraseIdx k).length := by
          by_contra hge
          rw [List.getElem?_eq_none (by omega)] at hq'
          cases hq'
        have := List.getElem?_inj (j := j - 1) hil hnd' (by rw [hq', herase, e])
        omega
      have hij : i ≠ j - 1 := by omega
      simp [hij, a, hne, b]
    · have hij : i = j - 1 := by omega
      subst hij
      rw [herase] at hq'
      cases hq'
      simp
  · intro i q' hi hq'
    rw [hpl', hid']
    obtain ⟨a, b⟩ := hs2 i q' (by omega) hq'
    have hne : q' ≠ l[j] := by
      intro e
      have hil : i < l.length := by
        by_contra hge
        rw [List.getElem?_eq_none (by omega)] at hq'
        cases hq'
      have := List.getElem?_inj (j := j) hil hnd (by rw [hq', hq, e])
      omega
    have hij : i ≠ j - 1 := by omega
    simp [hij, a, hne, b]

theorem detachShiftLoop_spec (l : List NodeRef) (k : Nat) (hnd : l.Nodup) :
    ∀ (m j : Nat) (s : Session), k < j → j + m = l.length → ShiftState l k j s →
      ∃ s', detachShiftLoop s (List.range' j m) = .ok s' ∧ ShiftState l k l.length s' ∧
        s'.lockstep.d.attached = s.lockstep.d.attached := by
  intro m
  induction m with
  | zero =>
    intro j s _ hjm hs
    have : j = l.length := by omega
    subst this
    exact ⟨s, rfl, hs, rfl⟩
  | succ m ih =>
    intro j s hk hjm hs
    obtain ⟨s1, h1, hs1, ha1⟩ := detachShift_step l k j s hnd hk (by omega) hs
    obtain ⟨s', h', hs', ha'⟩ := ih (j + 1) s1 (by omega) (by omega) hs1
    refine ⟨s', ?_, hs', by rw [ha', ha1]⟩
    rw [List.range'_succ]
    simp only [detachShiftLoop, h1]
    exact h'

theorem rosterInv_detach (s : Session) (l : List NodeRef) (r : NodeRef)
    (h : RosterInv s l) (hr : r ∈ l) :
    ∃ s', GBASIOLockstepDetachNode s r = .ok s' ∧ RosterInv s' (l.erase r) := by
  obtain ⟨hn, h4, hnd, hpl⟩ := h
  obtain ⟨k, hk⟩ := List.mem_iff_getElem?.mp hr
  have hkl : k < l.length := by
    by_contra hge
    rw [List.getElem?_eq_none (by omega)] at hk
    cases hk
  have hkr : l[k] = r := by
    rw [List.getElem?_eq_getElem hkl] at hk
    exact Option.some.inj hk
  have hfind : (List.range s.lockstep.d.attached).find?
      (fun i => decide (s.lockstep.players i = some r)) = some k := by
    cases hf : (List.range s.lockstep.d.attached).find?
      (fun i => decide (s.lockstep.players i = some r)) with
    | none =>
      rw [List.find?_eq_none] at hf
      have := hf k (by rw [List.mem_range, hn]; exact hkl)
      simp [(hpl k r hk).1] at this
    | some i =>
      have hp := List.find?_some hf
      have hi := List.mem_of_find?_eq_some hf
      rw [List.mem_range, hn] at hi
      simp only [decide_eq_true_eq] at hp
      have hq : l[i]? = some l[i] := List.getElem?_eq_getElem hi
      rw [(hpl i _ hq).1] at hp
      have hir : l[i]? = l[k]? := by rw [hq, hk, Option.some.inj hp]
      rw [List.getElem?_inj (j := k) hi hnd hir]
  have herase : l.erase r = l.eraseIdx k := by
    rw [← hkr]; exact List.Nodup.erase_getElem hnd k hkl
  have hstart : ShiftState l k (k + 1) s := by
    constructor
    · intro i q hi hq
      rw [List.getElem?_eraseIdx_of_lt l k i (by omega)] at hq
      exact hpl i q hq
    · intro i q _ hq
      exact hpl i q hq
  obtain ⟨s1, h1, hs1, ha1⟩ := detachShiftLoop_spec l k hnd (l.length - (k + 1)) (k + 1) s
    (by omega) (by omega) hstart
  have hatt0 : ¬ l.length = 0 := by omega
  rw [hn] at hfind
  unfold GBASIOLockstepDetachNode
  simp only [hn, hatt0, if_false, hfind, h1]
  refine ⟨_, rfl, ?_, ?_, ?_, ?_⟩
  · simp only [ha1, hn, herase, List.length_eraseIdx_of_lt hkl]
  · rw [herase, List.length_eraseIdx_of_lt hkl]; omega
  · rw [herase]; exact List.Nodup.eraseIdx k hnd
  · intro i q hq
    rw [herase] at hq
    have hil : i < (l.eraseIdx k).length := by
      by_contra hge
      rw [List.getElem?_eq_none (by omega)] at hq
      cases hq
    rw [List.length_eraseIdx_of_lt hkl] at hil
    exact hs1.1 i q (by omega) hq




theorem runRosterOps_inv : ∀ (ops : List RosterOp) (l : List NodeRef) (s : Session),
    RosterInv s l → DistinctOps l ops →
    ∃ s', runRosterOps s ops = .ok s' ∧ RosterInv s' (specRoster l ops) := by
  intro ops
  induction ops with
  | nil => intro l s h _; exact ⟨s, rfl, h⟩
  | cons op ops ih =>
    intro l s h hd
    cases op with
    | attach r =>
      obtain ⟨hr, hd'⟩ := hd
      obtain ⟨s', h', hinv⟩ := ih _ _ (rosterInv_attach s l r h hr) hd'
      exact ⟨s', by simp only [runRosterOps, runRosterOp, h'], hinv⟩
    | detach r =>
      by_cases hr : r ∈ l
      · obtain ⟨s1, h1, hinv1⟩ := rosterInv_detach s l r h hr
        obtain ⟨s', h', hinv⟩ := ih _ _ hinv1 hd
        exact ⟨s', by simp only [runRosterOps, runRosterOp, h1, h'], hinv⟩
      · have h1 := detach_absent s l r h hr
        have hl : specRosterOp l (.detach r) = l := List.erase_of_not_mem hr
        have hd' : DistinctOps l ops := by
          have := hd
          simp only [DistinctOps, hl] at this
          exact this
        obtain ⟨s', h', hinv⟩ := ih l s h hd'
        refine ⟨s', by simp only [runRosterOps, runRosterOp, h1, h'], ?_⟩
        simp only [specRoster, List.foldl_cons, hl]
        exact hinv

theorem rosterOf_eq (s : Session) (l : List NodeRef) (h : RosterInv s l) :
    rosterOf s = l.map some := by
  obtain ⟨hn, _, _, hpl⟩ := h
  apply List.ext_getElem?
  intro i
  unfold rosterOf
  rw [List.getElem?_map, List.getElem?_map, hn]
  by_cases hi : i < l.length
  · rw [List.getElem?_range hi, List.getElem?_eq_getElem hi]
    simp only [Option.map_some']
    exact congrArg some (hpl i _ (List.getElem?_eq_getElem hi)).1
  · rw [List.getElem?_eq_none (by simp; omega), List.getElem?_eq_none (by omega)]
    rfl

/-- Claim C10: from an initialised session, every sequence of attach and
detach operations that never attaches a node already in the roster runs
without fault; afterwards `players[0 .. attached)` is the roster of the
specification (attach appends, detach removes and keeps the order),
`attached` is its length and at most 4, the id of every listed node is its
index, and detaching a node that is not listed changes nothing. -/
theorem C10_roster_refinement (s0 : Session) (ops : List RosterOp) (hd : DistinctOps [] ops) :
    ∃ s', runRosterOps (GBASIOLockstepInit s0) ops = .ok s' ∧
      rosterOf s' = (specRoster [] ops).map some ∧
      s'.lockstep.d.attached = (specRoster [] ops).length ∧
      s'.lockstep.d.attached ≤ 4 ∧
      (∀ i r, (specRoster [] ops)[i]? = some r → (s'.nodes r).id = i) ∧
      (∀ r, r ∉ specRoster [] ops → GBASIOLockstepDetachNode s' r = .ok s') := by
  obtain ⟨s', h', hinv⟩ := runRosterOps_inv ops [] _ (rosterInv_init s0) hd
  refine ⟨s', h', rosterOf_eq s' _ hinv, hinv.1, by rw [hinv.1]; exact hinv.2.1, ?_, ?_⟩
  · intro i r hr
    exact (hinv.2.2.2 i r hr).2
  · intro r hr
    exact detach_absent s' _ r hinv hr

/-! ## A complete multiplayer transfer -/

theorem keepCore_refl (n : GBASIOLockstepNode) : KeepCore n n := ⟨rfl, rfl, rfl, rfl⟩

theorem transferInv_of_keep (n : Nat) (ref : Nat → NodeRef) (d : Nat → Nat) (e : Nat → Int)
    (s s' : Session) (h : TransferInv n ref d e s)
    (hatt : s'.lockstep.d.attached = s.lockstep.d.attached)
    (hpl : s'.lockstep.players = s.lockstep.players)
    (hk : ∀ q, KeepCore (s.nodes q) (s'.nodes q)) : TransferInv n ref d e s' := by
  obtain ⟨⟨ha, hinj, hnodes⟩, he⟩ := h
  refine ⟨⟨by rw [hatt, ha], hinj, ?_⟩, ?_⟩
  · intro i hi
    obtain ⟨a, b, c, dd⟩ := hnodes i hi
    obtain ⟨k1, k2, _, k4⟩ := hk (ref i)
    refine ⟨by rw [hpl, a], by rw [k1, b], by rw [k2, c], ?_⟩
    unfold Session.getIo at dd ⊢
    rw [k4, dd]
  · intro i h1 h2
    rw [(hk (ref i)).2.2.1, he i h1 h2]

theorem masterUpdate_decomp (s : Session) (r : NodeRef) (w : Bool) (c : Int) (s' : Session)
    (h : _masterUpdate s r w = .ok (c, s')) :
    ∃ b s1, masterPhaseStep s r = .ok (b, s1) ∧ s'.lockstep = s1.lockstep ∧
      s'.nodes = s1.nodes := by
  unfold _masterUpdate at h
  cases hstep : masterPhaseStep s r with
  | error e => simp [hstep] at h
  | ok res =>
    obtain ⟨b, s1⟩ := res
    refine ⟨b, s1, rfl, ?_⟩
    simp only [hstep] at h
    cases hm : slaveMask s1 r with
    | error e => simp [hm] at h
    | ok m =>
      simp only [hm] at h
      by_cases hm0 : m = 0
      · simp only [hm0, ne_eq, not_true_eq_false, if_false] at h
        split at h <;> (cases h; simp)
      · simp only [hm0, ne_eq, not_false_eq_true, if_true] at h
        by_cases hb : b = true
        · subst hb
          by_cases hw : w = true
          · subst hw
            simp at h
            obtain ⟨_, h⟩ := h
            subst h
            simp
          · simp [hw] at h
        · have hb' : b = false := by simpa using hb
          subst hb'
          simp at h
          obtain ⟨_, h⟩ := h
          subst h
          simp

theorem slaveUpdate_started (s : Session) (r : NodeRef) (u : Int)
    (hph : s.phase = .TRANSFER_STARTED) (hmode : (s.nodes r).mode = .SIO_MULTI)
    (hu : u ≤ (s.nodes r).eventDiff) :
    ∃ s', _slaveUpdate s r u = .ok (0, s') ∧ s'.phase = .TRANSFER_STARTED ∧
      s'.lockstep.d = s.lockstep.d ∧ s'.lockstep.players = s.lockstep.players ∧
      s'.lockstep.multiRecv = upd s.lockstep.multiRecv (s.nodes r).id (s.getIo r REG_SIOMLT_SEND) ∧
      (∀ q, q ≠ r → s'.nodes q = s.nodes q) ∧ KeepCore (s.nodes r) (s'.nodes r) ∧
      (s'.nodes r).transferFinished = false := by
  have hph' : s.lockstep.d.transferActive = .TRANSFER_STARTED := hph
  have hu' : ¬ u > (s.nodes r).eventDiff := by omega
  cases hd : _slaveUpdate s r u with
  | error e =>
    simp [_slaveUpdate, hph', hu'] at hd
  | ok res =>
    obtain ⟨c, s'⟩ := res
    simp only [_slaveUpdate, hph', Session.call_nodes, Session.modPort_nodes_self, hu', if_false,
      if_true, Except.ok.injEq, Prod.mk.injEq] at hd
    obtain ⟨hc, hs⟩ := hd
    subst hc hs
    refine ⟨_, rfl, ?_, ?_, ?_, ?_, ?_, ?_, ?_⟩
    · simp [slaveContribute, hmode, Session.phase_def, hph']
    · simp [slaveContribute, hmode]
    · simp [slaveContribute, hmode]
    · simp [slaveContribute, hmode, Session.getIo]
    · intro q hq; simp [slaveContribute, hmode, hq]
    · simp [slaveContribute, hmode, KeepCore, REG_SIOMLT_SEND, REG_SIOMULTI0, REG_SIOMULTI1,
        REG_SIOMULTI2, REG_SIOMULTI3]
    · simp [slaveContribute, hmode]




theorem id_setReady (c : Nat) (b : Bool) :
    multiplayerControl.id (multiplayerControl.setReady c b) = multiplayerControl.id c := by
  unfold multiplayerControl.id multiplayerControl.setReady getField2
  rw [testBit_setBit, testBit_setBit]
  simp

theorem slaveUpdate_finished (s : Session) (r : NodeRef) (u : Int)
    (hph : s.phase = .TRANSFER_FINISHED) (hmode : (s.nodes r).mode = .SIO_MULTI)
    (hu : u ≤ (s.nodes r).eventDiff) (hid4 : (s.nodes r).id < 4) :
    ∃ s', _slaveUpdate s r u = .ok (0, s') ∧ s'.phase = .TRANSFER_FINISHED ∧
      s'.lockstep = s.lockstep ∧
      (∀ q, q ≠ r → s'.nodes q = s.nodes q) ∧ KeepCore (s.nodes r) (s'.nodes r) ∧
      (s'.nodes r).transferFinished = true ∧
      ((s.nodes r).transferFinished = false →
        s'.getIo r REG_SIOMULTI0 = s.lockstep.multiRecv 0 ∧
        s'.getIo r REG_SIOMULTI1 = s.lockstep.multiRecv 1 ∧
        s'.getIo r REG_SIOMULTI2 = s.lockstep.multiRecv 2 ∧
        s'.getIo r REG_SIOMULTI3 = s.lockstep.multiRecv 3 ∧
        multiplayerControl.id (s'.nodes r).d.siocnt = (s.nodes r).id) ∧
      ((s.nodes r).transferFinished = true →
        (s'.nodes r).d.io = (s.nodes r).d.io ∧
        multiplayerControl.id (s'.nodes r).d.siocnt = multiplayerControl.id (s.nodes r).d.siocnt) := by
  have hph' : s.lockstep.d.transferActive = .TRANSFER_FINISHED := hph
  have hu' : ¬ u > (s.nodes r).eventDiff := by omega
  have hid4' : (s.nodes r).id % 4 = (s.nodes r).id := Nat.mod_eq_of_lt hid4
  by_cases htf : (s.nodes r).transferFinished = true
  · cases hd : _slaveUpdate s r u with
    | error e =>
      simp only [_slaveUpdate, hph', Session.call_nodes, Session.modPort_nodes_self, hu', if_false] at hd
      rw [finishTransfer_done _ r (by simp [htf])] at hd
      simp at hd
    | ok res =>
      obtain ⟨c, s'⟩ := res
      simp only [_slaveUpdate, hph', Session.call_nodes, Session.modPort_nodes_self, hu', if_false] at hd
      rw [finishTransfer_done _ r (by simp [htf])] at hd
      simp only [if_true, Except.ok.injEq, Prod.mk.injEq] at hd
      obtain ⟨hc, hs⟩ := hd
      subst hc hs
      refine ⟨_, rfl, ?_, ?_, ?_, ?_, ?_, ?_, ?_⟩
      · simp [Session.phase_def, hph']
      · simp
      · intro q hq; simp [hq]
      · simp [KeepCore]
      · simp [htf]
      · intro hf; rw [hf] at htf; cases htf
      · intro _; simp [id_setReady]
  · have htf' : (s.nodes r).transferFinished = false := by simpa using htf
    cases hd : _slaveUpdate s r u with
    | error e =>
      simp only [_slaveUpdate, hph', Session.call_nodes, Session.modPort_nodes_self, hu', if_false] at hd
      rw [finishTransfer_multi_eq _ r (by simp [hmode]) (by simp [htf'])] at hd
      simp at hd
    | ok res =>
      obtain ⟨c, s'⟩ := res
      simp only [_slaveUpdate, hph', Session.call_nodes, Session.modPort_nodes_self, hu', if_false] at hd
      rw [finishTransfer_multi_eq _ r (by simp [hmode]) (by simp [htf'])] at hd
      simp only [if_true, Except.ok.injEq, Prod.mk.injEq] at hd
      obtain ⟨hc, hs⟩ := hd
      subst hc hs
      refine ⟨_, rfl, ?_, ?_, ?_, ?_, ?_, ?_, ?_⟩
      · simp [Session.phase_def, hph', finishMulti_lockstep]
      · simp [finishMulti_lockstep]
      · intro q hq; simp [hq, finishMulti_nodes_ne]
      · simp [KeepCore, finishMulti_node, REG_SIOMLT_SEND, REG_SIOMULTI0, REG_SIOMULTI1,
          REG_SIOMULTI2, REG_SIOMULTI3]
      · simp
      · intro _
        simp [Session.getIo, finishMulti_node, REG_SIOMULTI0, REG_SIOMULTI1, REG_SIOMULTI2,
          REG_SIOMULTI3, multiplayerControl.id, multiplayerControl.setId, getField2_setField2, hid4']
      · intro hf; rw [hf] at htf'; cases htf'




theorem masterUpdate_starting (s : Session) (r : NodeRef)
    (hid : (s.nodes r).id = 0) (hp : SlavesPresent s) (hph : s.phase = .TRANSFER_STARTING) :
    ∃ c s', _masterUpdate s r true = .ok (c, s') ∧ s'.phase = .TRANSFER_STARTED ∧
      s'.lockstep.d.attached = s.lockstep.d.attached ∧
      s'.lockstep.players = s.lockstep.players ∧
      s'.lockstep.multiRecv 0 = s.getIo r REG_SIOMLT_SEND ∧
      s'.lockstep.multiRecv 1 = 0xFFFF ∧ s'.lockstep.multiRecv 2 = 0xFFFF ∧
      s'.lockstep.multiRecv 3 = 0xFFFF ∧
      (∀ q, q ≠ r → s'.nodes q = s.nodes q) ∧ KeepCore (s.nodes r) (s'.nodes r) ∧
      (s'.nodes r).transferFinished = false := by
  obtain ⟨s', h, hph2, _⟩ := masterUpdate_ok s r true hid hp (fun _ => rfl)
  obtain ⟨b, s1, hstep, hl, hn⟩ := masterUpdate_decomp s r true _ s' h
  have hph' : s.lockstep.d.transferActive = .TRANSFER_STARTING := hph
  simp only [masterPhaseStep, hph', Except.ok.injEq, Prod.mk.injEq] at hstep
  obtain ⟨_, hs1⟩ := hstep
  subst hs1
  refine ⟨_, s', h, ?_, ?_, ?_, ?_, ?_, ?_, ?_, ?_, ?_, ?_⟩
  · rw [hph2, hph]; rfl
  · rw [hl]; simp
  · rw [hl]; simp
  · rw [hl]; simp [Session.getIo]
  · rw [hl]; simp
  · rw [hl]; simp
  · rw [hl]; simp
  · intro q hq; rw [hn]; simp [hq]
  · rw [hn]
    simp [KeepCore, REG_SIOMLT_SEND, REG_SIOMULTI0, REG_SIOMULTI1, REG_SIOMULTI2, REG_SIOMULTI3]
  · rw [hn]; simp

theorem masterUpdate_middle (s : Session) (r : NodeRef)
    (hid : (s.nodes r).id = 0) (hp : SlavesPresent s)
    (hph : s.phase = .TRANSFER_STARTED ∨ s.phase = .TRANSFER_FINISHING) :
    ∃ c s', _masterUpdate s r true = .ok (c, s') ∧ s'.phase = nextPhase s.phase ∧
      s'.lockstep.d.attached = s.lockstep.d.attached ∧
      s'.lockstep.players = s.lockstep.players ∧
      s'.lockstep.multiRecv = s.lockstep.multiRecv ∧
      (∀ q, q ≠ r → s'.nodes q = s.nodes q) ∧ KeepCore (s.nodes r) (s'.nodes r) ∧
      (s'.nodes r).transferFinished = (s.nodes r).transferFinished := by
  obtain ⟨s', h, hph2, _⟩ := masterUpdate_ok s r true hid hp (fun _ => rfl)
  obtain ⟨b, s1, hstep, hl, hn⟩ := masterUpdate_decomp s r true _ s' h
  rcases hph with hph | hph
  · have hph' : s.lockstep.d.transferActive = .TRANSFER_STARTED := hph
    simp only [masterPhaseStep, hph', Except.ok.injEq, Prod.mk.injEq] at hstep
    obtain ⟨_, hs1⟩ := hstep
    subst hs1
    refine ⟨_, s', h, ?_, ?_, ?_, ?_, ?_, ?_, ?_⟩
    · rw [hph2, hph]; rfl
    · rw [hl]; simp
    · rw [hl]; simp
    · rw [hl]; simp
    · intro q hq; rw [hn]; simp [hq]
    · rw [hn]; simp [KeepCore]
    · rw [hn]; simp
  · have hph' : s.lockstep.d.transferActive = .TRANSFER_FINISHING := hph
    simp only [masterPhaseStep, hph', Except.ok.injEq, Prod.mk.injEq] at hstep
    obtain ⟨_, hs1⟩ := hstep
    subst hs1
    refine ⟨_, s', h, ?_, ?_, ?_, ?_, ?_, ?_, ?_⟩
    · rw [hph2, hph]; rfl
    · rw [hl]; simp
    · rw [hl]; simp
    · rw [hl]; simp
    · intro q hq; rw [hn]; simp [hq]
    · rw [hn]; simp [KeepCore]
    · rw [hn]; simp

theorem masterUpdate_finished (s : Session) (r : NodeRef)
    (hid : (s.nodes r).id = 0) (hp : SlavesPresent s) (hph : s.phase = .TRANSFER_FINISHED)
    (hmode : (s.nodes r).mode = .SIO_MULTI) (htf : (s.nodes r).transferFinished = false) :
    ∃ c s', _masterUpdate s r true = .ok (c, s') ∧ s'.phase = .TRANSFER_IDLE ∧
      s'.lockstep.d.attached = s.lockstep.d.attached ∧
      s'.lockstep.players = s.lockstep.players ∧
      s'.lockstep.multiRecv = s.lockstep.multiRecv ∧
      (∀ q, q ≠ r → s'.nodes q = s.nodes q) ∧ KeepCore (s.nodes r) (s'.nodes r) ∧
      (s'.nodes r).transferFinished = true ∧
      s'.getIo r REG_SIOMULTI0 = s.lockstep.multiRecv 0 ∧
      s'.getIo r REG_SIOMULTI1 = s.lockstep.multiRecv 1 ∧
      s'.getIo r REG_SIOMULTI2 = s.lockstep.multiRecv 2 ∧
      s'.getIo r REG_SIOMULTI3 = s.lockstep.multiRecv 3 ∧
      multiplayerControl.id (s'.nodes r).d.siocnt = 0 := by
  obtain ⟨s', h, hph2, _⟩ := masterUpdate_ok s r true hid hp (fun _ => rfl)
  obtain ⟨b, s1, hstep, hl, hn⟩ := masterUpdate_decomp s r true _ s' h
  have hph' : s.lockstep.d.transferActive = .TRANSFER_FINISHED := hph
  simp only [masterPhaseStep, hph', finishTransfer_multi_eq s r hmode htf, Except.ok.injEq,
    Prod.mk.injEq] at hstep
  obtain ⟨_, hs1⟩ := hstep
  subst hs1
  refine ⟨_, s', h, ?_, ?_, ?_, ?_, ?_, ?_, ?_, ?_⟩
  · rw [hph2, hph]; rfl
  · rw [hl]; simp [finishMulti_lockstep]
  · rw [hl]; simp [finishMulti_lockstep]
  · rw [hl]; simp [finishMulti_lockstep]
  · intro q hq; rw [hn]; simp [hq, finishMulti_nodes_ne]
  · rw [hn]
    simp [KeepCore, finishMulti_node, REG_SIOMLT_SEND, REG_SIOMULTI0, REG_SIOMULTI1,
      REG_SIOMULTI2, REG_SIOMULTI3]
  · rw [hn]; simp
  · unfold Session.getIo
    rw [hn]
    simp [finishMulti_node, REG_SIOMULTI0, REG_SIOMULTI1, REG_SIOMULTI2,
      REG_SIOMULTI3, multiplayerControl.id, multiplayerControl.setId, getField2_setField2, hid]

theorem writeSIOCNT_start (tbl : Nat → Nat → Int) (s : Session) (r : NodeRef) (value : Nat)
    (hid : (s.nodes r).id = 0) (hv : maskSet value 0x0080 = true)
    (hph : s.phase = .TRANSFER_IDLE)
    (hready : multiplayerControl.ready (s.nodes r).d.siocnt = true) :
    (GBASIOWriteSIOCNT tbl s r value).phase = .TRANSFER_STARTING ∧
    (GBASIOWriteSIOCNT tbl s r value).lockstep.d.attached = s.lockstep.d.attached ∧
    (GBASIOWriteSIOCNT tbl s r value).lockstep.players = s.lockstep.players ∧
    (∀ q, q ≠ r → (GBASIOWriteSIOCNT tbl s r value).nodes q = s.nodes q) ∧
    ((GBASIOWriteSIOCNT tbl s r value).nodes r).id = (s.nodes r).id ∧
    ((GBASIOWriteSIOCNT tbl s r value).nodes r).mode = (s.nodes r).mode ∧
    ((GBASIOWriteSIOCNT tbl s r value).nodes r).d.io = (s.nodes r).d.io := by
  rw [maskSet_0x80] at hv
  rw [Session.phase_def] at hph
  have hv' : maskSet (value % 65536) 0x0080 = true := by rw [maskSet_0x80, testBit7_mod]; exact hv
  unfold GBASIOWriteSIOCNT
  simp only [GBASIOLockstepNodeMultiWriteRegister, if_true, hv', hph, hid, hready, and_self]
  refine ⟨?_, ?_, ?_, ?_, ?_, ?_, ?_⟩
  · split <;> simp [Session.phase_def]
  · split <;> simp
  · split <;> simp
  · intro q hq; split <;> simp [hq]
  · split <;> simp [mTimingSchedule, mTimingDeschedule, hid]
  · split <;> simp [mTimingSchedule, mTimingDeschedule]
  · split <;> simp [mTimingSchedule, mTimingDeschedule]




theorem transferInv_slavesPresent (n : Nat) (ref : Nat → NodeRef) (d : Nat → Nat) (e : Nat → Int)
    (s : Session) (h : TransferInv n ref d e s) : SlavesPresent s := by
  intro i _ hi
  rw [h.1.1] at hi
  rw [(h.1.2.2 i hi).1]
  rfl

theorem transferInv_ne (n : Nat) (ref : Nat → NodeRef) (d : Nat → Nat) (e : Nat → Int)
    (s : Session) (h : TransferInv n ref d e s) (i j : Nat) (hi : i < n) (hj : j < n)
    (hij : i ≠ j) : ref i ≠ ref j :=
  fun heq => hij (h.1.2.1 i j hi hj heq)

theorem transferInv_step (n : Nat) (ref : Nat → NodeRef) (d : Nat → Nat) (e : Nat → Int)
    (s s' : Session) (r : NodeRef) (h : TransferInv n ref d e s)
    (hatt : s'.lockstep.d.attached = s.lockstep.d.attached)
    (hpl : s'.lockstep.players = s.lockstep.players)
    (hne : ∀ q, q ≠ r → s'.nodes q = s.nodes q)
    (hk : KeepCore (s.nodes r) (s'.nodes r)) : TransferInv n ref d e s' := by
  apply transferInv_of_keep n ref d e s s' h hatt hpl
  intro q
  by_cases hq : q = r
  · subst hq; exact hk
  · rw [hne q hq]; exact keepCore_refl _

theorem transferDone_congr (n : Nat) (ref : Nat → NodeRef) (d : Nat → Nat) (s s' : Session)
    (j : Nat) (h : s'.nodes (ref j) = s.nodes (ref j)) (hd : TransferDone n ref d s j) :
    TransferDone n ref d s' j := by
  unfold TransferDone Session.getIo at hd ⊢
  rw [h]
  exact hd

theorem runSlaves_started (n : Nat) (ref : Nat → NodeRef) (d : Nat → Nat) (e : Nat → Int) :
    ∀ (L : List (Nat × Int)) (s : Session),
      TransferInv n ref d e s → s.phase = .TRANSFER_STARTED →
      (∀ x ∈ L, 1 ≤ x.1 ∧ x.1 < n ∧ x.2 ≤ e x.1) →
      ∃ s', runSlaveUpdates s (L.map (fun x => (ref x.1, x.2))) = .ok s' ∧
        TransferInv n ref d e s' ∧ s'.phase = .TRANSFER_STARTED ∧
        (∀ q, (∀ x ∈ L, q ≠ ref x.1) → s'.nodes q = s.nodes q) ∧
        (∀ i, (∀ x ∈ L, i ≠ x.1) → s'.lockstep.multiRecv i = s.lockstep.multiRecv i) ∧
        (∀ i, i < n → (∃ x ∈ L, x.1 = i) →
          s'.lockstep.multiRecv i = d i ∧ (s'.nodes (ref i)).transferFinished = false) := by
  intro L
  induction L with
  | nil =>
    intro s h hph _
    exact ⟨s, rfl, h, hph, fun _ _ => rfl, fun _ _ => rfl, fun i _ hx => by simp at hx⟩
  | cons x L ih =>
    intro s h hph hval
    obtain ⟨hx1, hxn, hxe⟩ := hval x (List.mem_cons_self x L)
    obtain ⟨_, hid, hmode, hsend⟩ := h.1.2.2 x.1 hxn
    have hev : (s.nodes (ref x.1)).eventDiff = e x.1 := h.2 x.1 hx1 hxn
    obtain ⟨s1, h1, hph1, hd1, hpl1, hmr1, hne1, hk1, htf1⟩ :=
      slaveUpdate_started s (ref x.1) x.2 hph hmode (by rw [hev]; exact hxe)
    have hinv1 : TransferInv n ref d e s1 :=
      transferInv_step n ref d e s s1 (ref x.1) h (by rw [hd1]) hpl1 hne1 hk1
    obtain ⟨s', h', hinv', hph', hnodes', hmr', hdone'⟩ :=
      ih s1 hinv1 hph1 (fun y hy => hval y (List.mem_cons_of_mem x hy))
    refine ⟨s', ?_, hinv', hph', ?_, ?_, ?_⟩
    · simp only [List.map_cons, runSlaveUpdates, h1]
      exact h'
    · intro q hq
      rw [hnodes' q (fun y hy => hq y (List.mem_cons_of_mem x hy))]
      exact hne1 q (hq x (List.mem_cons_self x L))
    · intro i hi
      rw [hmr' i (fun y hy => hi y (List.mem_cons_of_mem x hy)), hmr1, hid]
      have : i ≠ x.1 := hi x (List.mem_cons_self x L)
      simp [this]
    · intro i hin hi
      by_cases hL : ∃ y ∈ L, y.1 = i
      · exact hdone' i hin hL
      · have hix : x.1 = i := by
          obtain ⟨y, hy, hyi⟩ := hi
          rcases List.mem_cons.mp hy with hyx | hyL
          · rw [← hyx]; exact hyi
          · exact absurd ⟨y, hyL, hyi⟩ hL
        have hnot : ∀ y ∈ L, i ≠ y.1 := fun y hy heq => hL ⟨y, hy, heq.symm⟩
        constructor
        · rw [hmr' i hnot, hmr1, hid, ← hix, hsend]
          simp
        · have hq : ∀ y ∈ L, ref i ≠ ref y.1 := by
            intro y hy
            exact transferInv_ne n ref d e s h i y.1 hin
              (hval y (List.mem_cons_of_mem x hy)).2.1 (hnot y hy)
          rw [hnodes' (ref i) hq, ← hix]
          exact htf1




theorem slaveFinished_step (n : Nat) (ref : Nat → NodeRef) (d : Nat → Nat) (e : Nat → Int)
    (hn4 : n ≤ 4) (s : Session) (k : Nat) (u : Int)
    (h : TransferInv n ref d e s) (hph : s.phase = .TRANSFER_FINISHED)
    (hrc : RecvComplete n d s) (hk1 : 1 ≤ k) (hkn : k < n) (hu : u ≤ e k)
    (hpre : (s.nodes (ref k)).transferFinished = false ∨ TransferDone n ref d s k) :
    ∃ s', _slaveUpdate s (ref k) u = .ok (0, s') ∧ TransferInv n ref d e s' ∧
      s'.phase = .TRANSFER_FINISHED ∧ s'.lockstep = s.lockstep ∧
      (∀ q, q ≠ ref k → s'.nodes q = s.nodes q) ∧ TransferDone n ref d s' k := by
  obtain ⟨_, hid, hmode, _⟩ := h.1.2.2 k hkn
  have hev : (s.nodes (ref k)).eventDiff = e k := h.2 k hk1 hkn
  obtain ⟨s', h1, hph1, hl1, hne1, hkc1, htf1, hfresh, hrep⟩ :=
    slaveUpdate_finished s (ref k) u hph hmode (by rw [hev]; exact hu) (by rw [hid]; omega)
  refine ⟨s', h1, ?_, hph1, hl1, hne1, ?_⟩
  · exact transferInv_step n ref d e s s' (ref k) h (by rw [hl1]) (by rw [hl1]) hne1 hkc1
  · by_cases htf : (s.nodes (ref k)).transferFinished = false
    · obtain ⟨a0, a1, a2, a3, aid⟩ := hfresh htf
      obtain ⟨r0, r1, r2, r3⟩ := hrc
      exact ⟨htf1, by rw [a0, r0], by rw [a1, r1], by rw [a2, r2], by rw [a3, r3],
        by rw [aid, hid]⟩
    · have htf' : (s.nodes (ref k)).transferFinished = true := by simpa using htf
      have hdone : TransferDone n ref d s k := by
        rcases hpre with hp | hp
        · exact absurd hp htf
        · exact hp
      obtain ⟨hio, hidf⟩ := hrep htf'
      obtain ⟨_, b0, b1, b2, b3, bid⟩ := hdone
      unfold Session.getIo at b0 b1 b2 b3
      refine ⟨htf1, ?_, ?_, ?_, ?_, by rw [hidf, bid]⟩
      · unfold Session.getIo; rw [hio, b0]
      · unfold Session.getIo; rw [hio, b1]
      · unfold Session.getIo; rw [hio, b2]
      · unfold Session.getIo; rw [hio, b3]

theorem runSlaves_finished (n : Nat) (ref : Nat → NodeRef) (d : Nat → Nat) (e : Nat → Int)
    (hn4 : n ≤ 4) :
    ∀ (L : List (Nat × Int)) (s : Session),
      TransferInv n ref d e s → s.phase = .TRANSFER_FINISHED → RecvComplete n d s →
      (∀ x ∈ L, 1 ≤ x.1 ∧ x.1 < n ∧ x.2 ≤ e x.1) →
      (∀ i, 1 ≤ i → i < n →
        (s.nodes (ref i)).transferFinished = false ∨ TransferDone n ref d s i) →
      ∃ s', runSlaveUpdates s (L.map (fun x => (ref x.1, x.2))) = .ok s' ∧
        TransferInv n ref d e s' ∧ s'.phase = .TRANSFER_FINISHED ∧
        s'.lockstep = s.lockstep ∧
        (∀ q, (∀ x ∈ L, q ≠ ref x.1) → s'.nodes q = s.nodes q) ∧
        (∀ i, 1 ≤ i → i < n → (TransferDone n ref d s i ∨ ∃ x ∈ L, x.1 = i) →
          TransferDone n ref d s' i) := by
  intro L
  induction L with
  | nil =>
    intro s h hph _ _ _
    refine ⟨s, rfl, h, hph, rfl, fun _ _ => rfl, ?_⟩
    intro i _ _ hi
    rcases hi with hi | hi
    · exact hi
    · simp at hi
  | cons x L ih =>
    intro s h hph hrc hval hpre
    obtain ⟨hx1, hxn, hxe⟩ := hval x (List.mem_cons_self x L)
    obtain ⟨s1, h1, hinv1, hph1, hl1, hne1, hdone1⟩ :=
      slaveFinished_step n ref d e hn4 s x.1 x.2 h hph hrc hx1 hxn hxe (hpre x.1 hx1 hxn)
    have hsame : ∀ i, i < n → i ≠ x.1 → s1.nodes (ref i) = s.nodes (ref i) := by
      intro i hi hix
      exact hne1 (ref i) (transferInv_ne n ref d e s h i x.1 hi hxn hix)
    have hrc1 : RecvComplete n d s1 := by
      unfold RecvComplete at hrc ⊢
      rw [hl1]; exact hrc
    have hpre1 : ∀ i, 1 ≤ i → i < n →
        (s1.nodes (ref i)).transferFinished = false ∨ TransferDone n ref d s1 i := by
      intro i hi1 hin
      by_cases hix : i = x.1
      · right; rw [hix]; exact hdone1
      · rcases hpre i hi1 hin with hp | hp
        · left; rw [hsame i hin hix]; exact hp
        · right; exact transferDone_congr n ref d s s1 i (hsame i hin hix) hp
    obtain ⟨s', h', hinv', hph', hl', hnodes', hdone'⟩ :=
      ih s1 hinv1 hph1 hrc1 (fun y hy => hval y (List.mem_cons_of_mem x hy)) hpre1
    refine ⟨s', ?_, hinv', hph', by rw [hl', hl1], ?_, ?_⟩
    · simp only [List.map_cons, runSlaveUpdates, h1]
      exact h'
    · intro q hq
      rw [hnodes' q (fun y hy => hq y (List.mem_cons_of_mem x hy))]
      exact hne1 q (hq x (List.mem_cons_self x L))
    · intro i hi1 hin hi
      by_cases hix : i = x.1
      · exact hdone' i hi1 hin (Or.inl (by rw [hix]; exact hdone1))
      · rcases hi with hi | ⟨y, hy, hyi⟩
        · exact hdone' i hi1 hin
            (Or.inl (transferDone_congr n ref d s s1 i (hsame i hin hix) hi))
        · rcases List.mem_cons.mp hy with hyx | hyL
          · exact absurd (by rw [← hyi, hyx]) hix
          · exact hdone' i hi1 hin (Or.inr ⟨y, hyL, hyi⟩)




/-- Claim C1: with `n` attached multiplayer nodes, 2 <= n <= 4, sending the
words `d 0 .. d (n-1)`, from IDLE with the master's ready bit set: after the
master writes the control register with the start bit, its update runs for
STARTING, every slave runs its update in STARTED with
`unusedCycles <= eventDiff`, the master update runs for STARTED and
FINISHING, every slave runs its update in FINISHED with
`unusedCycles <= eventDiff`, and the master update runs for FINISHED (the
slave updates in any order, possibly repeated; no step of the run changes a
slave's `eventDiff`), the run returns normally, the phase is IDLE, and at
every node SIOMULTI`i` holds `d i` for i < n and 0xFFFF for i >= n and the
reported id is the roster index. -/
theorem C1_multi_transfer_complete (tbl : Nat → Nat → Int) (s : Session) (n : Nat)
    (ref : Nat → NodeRef) (d : Nat → Nat) (value : Nat) (started finished : List (Nat × Int))
    (hn2 : 2 ≤ n) (hn4 : n ≤ 4) (hsetup : MultiSetup s n ref d)
    (hph : s.phase = .TRANSFER_IDLE)
    (hready : multiplayerControl.ready (s.nodes (ref 0)).d.siocnt = true)
    (hv : maskSet value 0x0080 = true)
    (hstarted : ∀ x ∈ started, 1 ≤ x.1 ∧ x.1 < n ∧ x.2 ≤ (s.nodes (ref x.1)).eventDiff)
    (hallStarted : ∀ i, 1 ≤ i → i < n → ∃ x ∈ started, x.1 = i)
    (hfinished : ∀ x ∈ finished, 1 ≤ x.1 ∧ x.1 < n ∧ x.2 ≤ (s.nodes (ref x.1)).eventDiff)
    (hallFinished : ∀ i, 1 ≤ i → i < n → ∃ x ∈ finished, x.1 = i) :
    ∃ s', multiTransfer tbl s (ref 0) value (started.map (fun x => (ref x.1, x.2)))
        (finished.map (fun x => (ref x.1, x.2))) = .ok s' ∧
      s'.phase = .TRANSFER_IDLE ∧
      ∀ j, j < n →
        s'.getIo (ref j) REG_SIOMULTI0 = d 0 ∧
        s'.getIo (ref j) REG_SIOMULTI1 = d 1 ∧
        s'.getIo (ref j) REG_SIOMULTI2 = (if 2 < n then d 2 else 0xFFFF) ∧
        s'.getIo (ref j) REG_SIOMULTI3 = (if 3 < n then d 3 else 0xFFFF) ∧
        multiplayerControl.id (s'.nodes (ref j)).d.siocnt = j := by
  obtain ⟨hatt, hinj, hnodes⟩ := hsetup
  have h0n : 0 < n := by omega
  obtain ⟨_, hid0, hmode0, hsend0⟩ := hnodes 0 h0n
  -- the write of the control register
  obtain ⟨w1, w2, w3, w4, w5, w6, w7⟩ := writeSIOCNT_start tbl s (ref 0) value hid0 hv hph hready
  have hinv0 : TransferInv n ref d (fun i => (s.nodes (ref i)).eventDiff)
      (GBASIOWriteSIOCNT tbl s (ref 0) value) := by
    refine ⟨⟨by rw [w2, hatt], hinj, ?_⟩, ?_⟩
    · intro i hi
      obtain ⟨a, b, c, dd⟩ := hnodes i hi
      by_cases hi0 : i = 0
      · subst hi0
        refine ⟨by rw [w3, a], by rw [w5, b], by rw [w6, c], ?_⟩
        unfold Session.getIo at dd ⊢
        rw [w7, dd]
      · have hne : ref i ≠ ref 0 := fun heq => hi0 (hinj i 0 hi h0n heq)
        refine ⟨by rw [w3, a], by rw [w4 _ hne, b], by rw [w4 _ hne, c], ?_⟩
        unfold Session.getIo at dd ⊢
        rw [w4 _ hne, dd]
    · intro i hi1 hin
      have hne : ref i ≠ ref 0 := fun heq => by
        have := hinj i 0 hin h0n heq
        omega
      show ((GBASIOWriteSIOCNT tbl s (ref 0) value).nodes (ref i)).eventDiff = _
      rw [w4 _ hne]
  -- the master update for STARTING
  obtain ⟨_, i0, _, _⟩ := hinv0.1.2.2 0 h0n
  obtain ⟨c1, s1, h1, hph1, hatt1, hpl1, hm0, hm1, hm2, hm3, hne1, hk1, htf1⟩ :=
    masterUpdate_starting _ (ref 0) i0 (transferInv_slavesPresent _ _ _ _ _ hinv0) w1
  have hinv1 := transferInv_step n ref d _ _ s1 (ref 0) hinv0 hatt1 hpl1 hne1 hk1
  -- the slaves in STARTED
  obtain ⟨s2, h2, hinv2, hph2, hnodes2, hmr2, hdone2⟩ :=
    runSlaves_started n ref d _ started s1 hinv1 hph1 hstarted
  have hmaster2 : s2.nodes (ref 0) = s1.nodes (ref 0) := by
    apply hnodes2
    intro x hx
    obtain ⟨a, b, _⟩ := hstarted x hx
    exact transferInv_ne n ref d _ _ hinv1 0 x.1 h0n b (by omega)
  have hrc2 : RecvComplete n d s2 := by
    have hsend1 : (GBASIOWriteSIOCNT tbl s (ref 0) value).getIo (ref 0) REG_SIOMLT_SEND = d 0 :=
      (hinv0.1.2.2 0 h0n).2.2.2
    refine ⟨?_, ?_, ?_, ?_⟩
    · rw [hmr2 0 (fun x hx => by have := (hstarted x hx).1; omega), hm0, hsend1]
    · exact (hdone2 1 (by omega) (hallStarted 1 (by omega) (by omega))).1
    · by_cases h2n : 2 < n
      · rw [if_pos h2n]
        exact (hdone2 2 h2n (hallStarted 2 (by omega) h2n)).1
      · rw [if_neg h2n, hmr2 2 (fun x hx => by have := (hstarted x hx).2.1; omega), hm2]
    · by_cases h3n : 3 < n
      · rw [if_pos h3n]
        exact (hdone2 3 h3n (hallStarted 3 (by omega) h3n)).1
      · rw [if_neg h3n, hmr2 3 (fun x hx => by have := (hstarted x hx).2.1; omega), hm3]
  have htf2 : ∀ i, i < n → (s2.nodes (ref i)).transferFinished = false := by
    intro i hin
    by_cases hi0 : i = 0
    · subst hi0; rw [hmaster2]; exact htf1
    · exact (hdone2 i hin (hallStarted i (by omega) hin)).2
  -- the master updates for STARTED and FINISHING
  obtain ⟨_, j2, _, _⟩ := hinv2.1.2.2 0 h0n
  obtain ⟨c3, s3, h3, hph3, hatt3, hpl3, hmr3, hne3, hk3, htf3⟩ :=
    masterUpdate_middle s2 (ref 0) j2 (transferInv_slavesPresent _ _ _ _ _ hinv2) (Or.inl hph2)
  have hinv3 := transferInv_step n ref d _ s2 s3 (ref 0) hinv2 hatt3 hpl3 hne3 hk3
  rw [hph2] at hph3
  obtain ⟨_, j3, _, _⟩ := hinv3.1.2.2 0 h0n
  obtain ⟨c4, s4, h4, hph4, hatt4, hpl4, hmr4, hne4, hk4, htf4⟩ :=
    masterUpdate_middle s3 (ref 0) j3 (transferInv_slavesPresent _ _ _ _ _ hinv3) (Or.inr hph3)
  have hinv4 := transferInv_step n ref d _ s3 s4 (ref 0) hinv3 hatt4 hpl4 hne4 hk4
  rw [hph3] at hph4
  have hrc4 : RecvComplete n d s4 := by
    unfold RecvComplete at hrc2 ⊢
    rw [hmr4, hmr3]; exact hrc2
  have htf4' : ∀ i, i < n → (s4.nodes (ref i)).transferFinished = false := by
    intro i hin
    by_cases hi0 : i = 0
    · subst hi0; rw [htf4, htf3]; exact htf2 0 hin
    · have hne : ref i ≠ ref 0 := fun heq => hi0 (hinj i 0 hin h0n heq)
      rw [hne4 _ hne, hne3 _ hne]; exact htf2 i hin
  -- the slaves in FINISHED
  obtain ⟨s5, h5, hinv5, hph5, hl5, hnodes5, hdone5⟩ :=
    runSlaves_finished n ref d _ hn4 finished s4 hinv4 hph4 hrc4 hfinished
      (fun i _ hin => Or.inl (htf4' i hin))
  have hmaster5 : s5.nodes (ref 0) = s4.nodes (ref 0) := by
    apply hnodes5
    intro x hx
    obtain ⟨a, b, _⟩ := hfinished x hx
    exact transferInv_ne n ref d _ _ hinv4 0 x.1 h0n b (by omega)
  -- the master update for FINISHED
  obtain ⟨_, j5, m5, _⟩ := hinv5.1.2.2 0 h0n
  obtain ⟨c6, s6, h6, hph6, _, _, _, hne6, _, htf6, a0, a1, a2, a3, aid⟩ :=
    masterUpdate_finished s5 (ref 0) j5 (transferInv_slavesPresent _ _ _ _ _ hinv5) hph5 m5
      (by rw [hmaster5]; exact htf4' 0 h0n)
  have hrc5 : RecvComplete n d s5 := by
    unfold RecvComplete at hrc4 ⊢
    rw [hl5]; exact hrc4
  refine ⟨s6, ?_, hph6, ?_⟩
  · simp only [multiTransfer, h1, h2, h3, h4, h5, h6]
  · intro j hjn
    have hdone : TransferDone n ref d s6 j := by
      by_cases hj0 : j = 0
      · subst hj0
        obtain ⟨r0, r1, r2, r3⟩ := hrc5
        exact ⟨htf6, by rw [a0, r0], by rw [a1, r1], by rw [a2, r2], by rw [a3, r3], aid⟩
      · have hne : ref j ≠ ref 0 := fun heq => hj0 (hinj j 0 hjn h0n heq)
        exact transferDone_congr n ref d s5 s6 j (hne6 _ hne)
          (hdone5 j (by omega) hjn (Or.inr (hallFinished j (by omega) hjn)))
    exact hdone.2

/-! ## The claims on slave writes, and evaluations on concrete sessions -/

/-- Claim C3, amended: a write of the multiplayer control register by a slave
(id > 0) with bit 7 set, at IDLE, changes nothing in the session, so the phase
stays IDLE, and returns a value whose bit 7 is bit 7 of the current control
register: it is cleared exactly when that bit of the register is clear. -/
theorem C3_slave_start_rejected (tbl : Nat → Nat → Int) (s : Session) (r : NodeRef)
    (value : Nat) (hid : (s.nodes r).id > 0) (hv : maskSet value 0x0080 = true)
    (hph : s.phase = .TRANSFER_IDLE) :
    (GBASIOLockstepNodeMultiWriteRegister tbl s r REG_SIOCNT value).2 = s ∧
    (GBASIOLockstepNodeMultiWriteRegister tbl s r REG_SIOCNT value).2.phase = .TRANSFER_IDLE ∧
    maskSet (GBASIOLockstepNodeMultiWriteRegister tbl s r REG_SIOCNT value).1 0x0080
      = maskSet (s.nodes r).d.siocnt 0x0080 := by
  have hid' : (s.nodes r).id ≠ 0 := by omega
  rw [multiWrite_no_start tbl s r value hv (Or.inr (Or.inl hid'))]
  refine ⟨rfl, hph, ?_⟩
  simp only [if_pos hph]
  rw [maskSet_0x80, maskSet_0x80, testBit7_masked, testBit7_clear, Bool.false_or]

/-- Claim C3 as stated fails: the slave (id 1) of `busySlaveSession`, at IDLE,
has bit 7 set in its control register; the value returned for a write of
0x0080 has bit 7 set, not cleared. -/
theorem C3_slave_start_counterexample :
    busySlaveSession.phase = .TRANSFER_IDLE ∧ (busySlaveSession.nodes 1).id > 0 ∧
    (busySlaveSession.nodes 1).d.siocnt = 0x0080 ∧
    maskSet (GBASIOLockstepNodeMultiWriteRegister sampleCyclesPerTransfer busySlaveSession 1
      REG_SIOCNT 0x0080).1 0x0080 = true := by
  decide

/-- Witness for claim C3 (amended): the slave with id 1 of a session at IDLE
writes 0x0080. -/
theorem C3_slave_start_rejected_witness :
    (GBASIOLockstepNodeMultiWriteRegister sampleCyclesPerTransfer idleSlaveSession 1
      REG_SIOCNT 0x0080).2 = idleSlaveSession :=
  (C3_slave_start_rejected sampleCyclesPerTransfer idleSlaveSession 1 0x0080
    (by decide) (by decide) (by decide)).1

/-- Claim C4 as stated fails: `staleReadySession` is reached by initialisation,
attach of node 0, load of node 0 and attach of node 1; its phase is IDLE and
`attachedMulti` (1) differs from `attached` (2), yet the master's ready bit,
set by its load, is still set: a write of 0x0080 by the master returns a value
with bit 7 set and moves the phase to STARTING. -/
theorem C4_stale_ready_counterexample :
    staleReadySession.phase = .TRANSFER_IDLE ∧
    staleReadySession.lockstep.attachedMulti = 1 ∧ staleReadySession.lockstep.d.attached = 2 ∧
    (staleReadySession.nodes 0).id = 0 ∧
    maskSet (GBASIOLockstepNodeMultiWriteRegister sampleCyclesPerTransfer staleReadySession 0
      REG_SIOCNT 0x0080).1 0x0080 = true ∧
    (GBASIOLockstepNodeMultiWriteRegister sampleCyclesPerTransfer staleReadySession 0
      REG_SIOCNT 0x0080).2.phase = .TRANSFER_STARTING := by
  decide

theorem staleReadySession_slaves : SlavesPresent staleReadySession := by
  intro i h1 h2
  have h3 : i < 2 := h2
  have h4 : i = 1 := by omega
  subst h4
  decide

/-- Witness for claim C4 (amended): in `staleReadySession` the master update
followed by a write of 0x0080 leaves the phase IDLE. -/
theorem C4_start_rejected_after_refresh_witness :
    ∃ c s1, _masterUpdate staleReadySession 0 true = .ok (c, s1) ∧
      s1.phase = .TRANSFER_IDLE ∧
      s1.lockstep.attachedMulti ≠ (s1.lockstep.d.attached : Int) ∧
      maskSet (GBASIOLockstepNodeMultiWriteRegister sampleCyclesPerTransfer s1 0
        REG_SIOCNT 0x0080).1 0x0080 = false ∧
      (GBASIOLockstepNodeMultiWriteRegister sampleCyclesPerTransfer s1 0
        REG_SIOCNT 0x0080).2.phase = .TRANSFER_IDLE :=
  C4_start_rejected_after_refresh sampleCyclesPerTransfer staleReadySession 0 0x0080 true
    (by decide) (by decide) (by decide) staleReadySession_slaves (by decide) (by decide)

/-- Claim C5 as stated fails: in phase STARTED a write of 0x0080 returns a
value with bit 7 set, not cleared. -/
theorem C5_start_during_transfer_counterexample :
    startedSession.phase = .TRANSFER_STARTED ∧
    maskSet (GBASIOLockstepNodeMultiWriteRegister sampleCyclesPerTransfer startedSession 0
      REG_SIOCNT 0x0080).1 0x0080 = true := by
  decide

/-- Witness for claim C5 (amended): a write of 0x0080 in phase STARTED. -/
theorem C5_start_during_transfer_witness :
    maskSet (GBASIOLockstepNodeMultiWriteRegister sampleCyclesPerTransfer startedSession 0
      REG_SIOCNT 0x0080).1 0x0080 = true :=
  (C5_start_during_transfer sampleCyclesPerTransfer startedSession 0 0x0080
    (by decide) (by decide)).1

/-- Witness for claim C2: the master of the two-player scenario writes 0x0080;
with the sample table `transferCycles` becomes 73003. -/
theorem C2_master_start_accepted_witness :
    (GBASIOLockstepNodeMultiWriteRegister sampleCyclesPerTransfer twoPlayerSession 0
      REG_SIOCNT 0x0080).2.phase = .TRANSFER_STARTING ∧
    (GBASIOLockstepNodeMultiWriteRegister sampleCyclesPerTransfer twoPlayerSession 0
      REG_SIOCNT 0x0080).2.lockstep.d.transferCycles = 73003 :=
  ⟨(C2_master_start_accepted sampleCyclesPerTransfer twoPlayerSession 0 0x0080
    (by decide) (by decide) (by decide) (by decide)).1,
   (C2_master_start_accepted sampleCyclesPerTransfer twoPlayerSession 0 0x0080
    (by decide) (by decide) (by decide) (by decide)).2.1⟩

theorem twoPlayerSession_slaves : SlavesPresent twoPlayerSession := by
  intro i h1 h2
  have h3 : i < 2 := h2
  have h4 : i = 1 := by omega
  subst h4
  decide

/-- Witness for claim C7: `_finishTransfer` on the slave of the two-player
scenario. -/
theorem C7_finish_transfer_multi_witness :
    ∃ s', _finishTransfer twoPlayerSession 1 = .ok s' ∧
      s'.getIo 1 REG_SIOMULTI0 = twoPlayerSession.lockstep.multiRecv 0 := by
  obtain ⟨s', h, h0, _⟩ := C7_finish_transfer_multi twoPlayerSession 1 (by decide) (by decide)
    (by decide)
  exact ⟨s', h, h0⟩

/-- Witness for claim C8: `_finishTransfer` twice on the slave of the
two-player scenario. -/
theorem C8_finish_transfer_idempotent_witness :
    ∃ s1 s2, _finishTransfer twoPlayerSession 1 = .ok s1 ∧ _finishTransfer s1 1 = .ok s2 ∧
      s2 = s1 ∧ s2.nodes 1 = s1.nodes 1 ∧ (s2.nodes 1).d.io = (s1.nodes 1).d.io ∧
      (s2.nodes 1).d.irqs = (s1.nodes 1).d.irqs :=
  C8_finish_transfer_idempotent twoPlayerSession 1 (by decide)

/-- Witness for claim C10: attach node 0, attach node 1, detach node 0. -/
theorem C10_roster_refinement_witness :
    ∃ s', runRosterOps (GBASIOLockstepInit rawSession)
        [.attach 0, .attach 1, .detach 0] = .ok s' ∧
      rosterOf s' = [some 1] ∧ s'.lockstep.d.attached = 1 := by
  obtain ⟨s', h, h1, h2, _⟩ := C10_roster_refinement rawSession [.attach 0, .attach 1, .detach 0]
    (by simp [DistinctOps, specRosterOp])
  refine ⟨s', h, ?_, ?_⟩
  · rw [h1]; decide
  · rw [h2]; decide

theorem twoPlayerSession_setup : MultiSetup twoPlayerSession 2 (fun i => i) twoPlayerData := by
  refine ⟨rfl, fun i j _ _ h => h, ?_⟩
  intro i hi
  have h : i = 0 ∨ i = 1 := by omega
  rcases h with h | h <;> subst h <;> decide

/-- Witness for claim C1: the two-player scenario, the master sending 0xAAAA
and the slave 0x5555. -/
theorem C1_multi_transfer_complete_witness :
    ∃ s', multiTransfer sampleCyclesPerTransfer twoPlayerSession 0 0x0080 [(1, 0)] [(1, 0)]
        = .ok s' ∧
      s'.phase = .TRANSFER_IDLE ∧
      ∀ j, j < 2 →
        s'.getIo j REG_SIOMULTI0 = 0xAAAA ∧ s'.getIo j REG_SIOMULTI1 = 0x5555 ∧
        s'.getIo j REG_SIOMULTI2 = 0xFFFF ∧ s'.getIo j REG_SIOMULTI3 = 0xFFFF ∧
        multiplayerControl.id (s'.nodes j).d.siocnt = j :=
  C1_multi_transfer_complete sampleCyclesPerTransfer twoPlayerSession 2 (fun i => i)
    twoPlayerData 0x0080 [(1, 0)] [(1, 0)] (by decide) (by decide) twoPlayerSession_setup
    (by decide) (by decide) (by decide)
    (by intro x hx; simp at hx; subst hx; decide)
    (by intro i h1 h2; exact ⟨(1, 0), by simp, by simp; omega⟩)
    (by intro x hx; simp at hx; subst hx; decide)
    (by intro i h1 h2; exact ⟨(1, 0), by simp, by simp; omega⟩)

/-! ## Unload -/

namespace Session
variable (s : Session) (r q : NodeRef)
@[simp] theorem setAttachedMulti_nodes (v : Int) : (s.setAttachedMulti v).nodes = s.nodes := rfl
@[simp] theorem setAttachedMulti_calls (v : Int) : (s.setAttachedMulti v).calls = s.calls := rfl
@[simp] theorem setAttachedMulti_phase (v : Int) : (s.setAttachedMulti v).phase = s.phase := rfl
@[simp] theorem setAttachedMulti_d (v : Int) : (s.setAttachedMulti v).lockstep.d = s.lockstep.d := rfl
@[simp] theorem setAttachedMulti_players (v : Int) :
    (s.setAttachedMulti v).lockstep.players = s.lockstep.players := rfl
@[simp] theorem setAttachedMulti_multiRecv (v : Int) :
    (s.setAttachedMulti v).lockstep.multiRecv = s.lockstep.multiRecv := rfl
@[simp] theorem setAttachedMulti_normalRecv (v : Int) :
    (s.setAttachedMulti v).lockstep.normalRecv = s.lockstep.normalRecv := rfl
@[simp] theorem setAttachedMulti_attachedMulti (v : Int) :
    (s.setAttachedMulti v).lockstep.attachedMulti = v := rfl
end Session

theorem unloadFlush_lockstep (s : Session) (r : NodeRef) : (unloadFlush s r).lockstep = s.lockstep := by
  unfold unloadFlush
  by_cases h : mTimingIsScheduled (s.nodes r) = true <;> simp [h]
theorem unloadFlush_calls (s : Session) (r : NodeRef) : (unloadFlush s r).calls = s.calls := by
  unfold unloadFlush
  by_cases h : mTimingIsScheduled (s.nodes r) = true <;> simp [h]
theorem unloadFlush_nodes_ne (s : Session) (r q : NodeRef) (h : q ≠ r) :
    (unloadFlush s r).nodes q = s.nodes q := by
  unfold unloadFlush
  by_cases hs : mTimingIsScheduled (s.nodes r) = true <;> simp [hs, h]
theorem unloadFlush_node (s : Session) (r : NodeRef) :
    ((unloadFlush s r).nodes r).id = (s.nodes r).id ∧
    ((unloadFlush s r).nodes r).mode = (s.nodes r).mode ∧
    ((unloadFlush s r).nodes r).d = (s.nodes r).d ∧
    ((unloadFlush s r).nodes r).transferFinished = (s.nodes r).transferFinished ∧
    ((unloadFlush s r).nodes r).nextEvent = (s.nodes r).nextEvent ∧
    ((unloadFlush s r).nodes r).writeRegister = (s.nodes r).writeRegister ∧
    ((unloadFlush s r).nodes r).p = (s.nodes r).p ∧
    ((unloadFlush s r).nodes r).event.entries = 0 := by
  unfold unloadFlush
  by_cases h : mTimingIsScheduled (s.nodes r) = true
  · simp [h, mTimingSchedule, mTimingDeschedule]
  · simp only [h]
    simp only [mTimingIsScheduled, decide_eq_true_eq, not_lt, Nat.le_zero] at h
    simp [h]

theorem unloadSwitch_nodes (s : Session) (r : NodeRef) : (unloadSwitch s r).nodes = s.nodes := by
  unfold unloadSwitch; split <;> rfl
theorem unloadSwitch_calls (s : Session) (r : NodeRef) : (unloadSwitch s r).calls = s.calls := by
  unfold unloadSwitch; split <;> rfl
theorem unloadSwitch_d (s : Session) (r : NodeRef) : (unloadSwitch s r).lockstep.d = s.lockstep.d := by
  unfold unloadSwitch; split <;> rfl
theorem unloadSwitch_players (s : Session) (r : NodeRef) :
    (unloadSwitch s r).lockstep.players = s.lockstep.players := by
  unfold unloadSwitch; split <;> rfl
theorem unloadSwitch_multiRecv (s : Session) (r : NodeRef) :
    (unloadSwitch s r).lockstep.multiRecv = s.lockstep.multiRecv := by
  unfold unloadSwitch; split <;> rfl
theorem unloadSwitch_normalRecv (s : Session) (r : NodeRef) :
    (unloadSwitch s r).lockstep.normalRecv = s.lockstep.normalRecv := by
  unfold unloadSwitch; split <;> rfl
theorem unloadSwitch_attachedMulti (s : Session) (r : NodeRef) :
    (unloadSwitch s r).lockstep.attachedMulti =
      if (s.nodes r).mode = .SIO_MULTI then s.lockstep.attachedMulti - 1
      else s.lockstep.attachedMulti := by
  by_cases hm : (s.nodes r).mode = .SIO_MULTI
  · unfold unloadSwitch
    rw [hm]
    simp
  · unfold unloadSwitch
    split
    · rename_i h; exact absurd h hm
    · simp [hm]

/-- What the part of unload that precedes `_finishTransfer` does. -/
theorem unloadPrepare_spec (s : Session) (r : NodeRef) :
    (unloadPrepare s r).lockstep.d = s.lockstep.d ∧
    (unloadPrepare s r).lockstep.players = s.lockstep.players ∧
    (unloadPrepare s r).lockstep.normalRecv = s.lockstep.normalRecv ∧
    (unloadPrepare s r).lockstep.attachedMulti =
      (if (s.nodes r).d.mode = .SIO_MULTI then s.lockstep.attachedMulti - 1
        else s.lockstep.attachedMulti) ∧
    (∀ i, i < 4 → (unloadPrepare s r).lockstep.multiRecv i = 0xFFFF) ∧
    (∀ q, q ≠ r → (unloadPrepare s r).nodes q = s.nodes q) ∧
    ((unloadPrepare s r).nodes r).id = (s.nodes r).id ∧
    ((unloadPrepare s r).nodes r).mode = (s.nodes r).d.mode ∧
    ((unloadPrepare s r).nodes r).d = (s.nodes r).d ∧
    ((unloadPrepare s r).nodes r).transferFinished = (s.nodes r).transferFinished ∧
    ((unloadPrepare s r).nodes r).event.entries = 0 ∧
    (unloadPrepare s r).calls = s.calls ++ [.unload (s.nodes r).id] := by
  unfold unloadPrepare
  obtain ⟨a, b, c, d, e, f, g, h⟩ := unloadFlush_node
      (unloadSwitch (s.modNode r (fun n => { n with mode := n.d.mode })) r) r
  simp only [unloadSwitch_nodes] at a b c d e f g
  simp only [Session.setMultiRecv_d, Session.setMultiRecv_players, Session.setMultiRecv_normalRecv,
    Session.setMultiRecv_attachedMulti, Session.setMultiRecv_nodes, Session.setMultiRecv_calls,
    Session.setMultiRecv_multiRecv, Session.call_nodes, Session.call_lockstep, Session.call_calls,
    unloadFlush_lockstep, unloadFlush_calls, unloadSwitch_d, unloadSwitch_players,
    unloadSwitch_normalRecv, unloadSwitch_attachedMulti, unloadSwitch_calls,
    Session.modNode_lockstep, Session.modNode_calls, Session.modNode_nodes_self]
  refine ⟨trivial, trivial, trivial, trivial, ?_, ?_, ?_, ?_, ?_, ?_, h, ?_⟩
  · intro i hi
    have : i = 0 ∨ i = 1 ∨ i = 2 ∨ i = 3 := by omega
    rcases this with h | h | h | h <;> subst h <;> simp
  · intro q hq
    rw [unloadFlush_nodes_ne _ r q hq, unloadSwitch_nodes]
    simp [hq]
  · rw [a]; simp
  · rw [b]; simp
  · rw [c]; simp
  · rw [d]; simp
  · rw [a]; simp




/-- The effect of unload on a node whose upstream roster slot, read by the
normal modes of `_finishTransfer`, is not null. -/
theorem unload_ok (s : Session) (r : NodeRef)
    (hup : (s.nodes r).id ≠ 0 → (s.lockstep.players ((s.nodes r).id - 1)).isSome = true) :
    ∃ s', GBASIOLockstepNodeUnload s r = .ok (true, s') ∧
      s'.lockstep.d.attached = s.lockstep.d.attached ∧
      s'.lockstep.d.transferCycles = s.lockstep.d.transferCycles ∧
      s'.lockstep.players = s.lockstep.players ∧
      s'.lockstep.normalRecv = s.lockstep.normalRecv ∧
      s'.lockstep.attachedMulti =
        (if (s.nodes r).d.mode = .SIO_MULTI then s.lockstep.attachedMulti - 1
          else s.lockstep.attachedMulti) ∧
      (∀ i, i < 4 → s'.lockstep.multiRecv i = 0xFFFF) ∧
      s'.phase = (if (s.nodes r).id = 0 then .TRANSFER_IDLE else s.phase) ∧
      (∀ q, q ≠ r → s'.nodes q = s.nodes q) ∧
      (s'.nodes r).id = (s.nodes r).id ∧
      (s'.nodes r).mode = (s.nodes r).d.mode ∧
      (s'.nodes r).d.mode = (s.nodes r).d.mode ∧
      (s'.nodes r).transferFinished = true ∧
      (s'.nodes r).event.entries = 0 := by
  obtain ⟨p1, p2, p3, p4, p5, p6, p7, p8, p9, p10, p11, _⟩ := unloadPrepare_spec s r
  have hup' : ((unloadPrepare s r).nodes r).id ≠ 0 →
      ((unloadPrepare s r).lockstep.players (((unloadPrepare s r).nodes r).id - 1)).isSome = true := by
    rw [p7, p2]; exact hup
  obtain ⟨s1, h1, _⟩ := finishTransfer_twice (unloadPrepare s r) r hup'
  obtain ⟨f1, _, f3, f4⟩ := finishTransfer_frame _ s1 r h1
  have ftf := finishTransfer_sets_flag _ s1 r h1
  obtain ⟨g1, g2, _, _, g5, _, _, g8, _, _⟩ := f4
  unfold GBASIOLockstepNodeUnload
  simp only [h1]
  by_cases hid : (s.nodes r).id = 0
  · have hid1 : (s1.nodes r).id = 0 := by rw [g1, p7, hid]
    simp only [hid1, if_true, hid]
    refine ⟨_, rfl, ?_, ?_, ?_, ?_, ?_, ?_, ?_, ?_, ?_, ?_, ?_, ?_, ?_⟩
    · simp [f1, p1]
    · simp [f1, p1]
    · simp [f1, p2]
    · simp [f1, p3]
    · simp [f1, p4]
    · intro i hi; simp [f1, p5 i hi]
    · simp
    · intro q hq; simp [f3 q hq, p6 q hq]
    · simp [hid1]
    · simp [g2, p8]
    · simp [g8, p9]
    · simp [ftf]
    · simp [g5, p11]
  · have hid1 : ¬ (s1.nodes r).id = 0 := by rw [g1, p7]; exact hid
    simp only [hid1, if_false, hid]
    refine ⟨_, rfl, ?_, ?_, ?_, ?_, ?_, ?_, ?_, ?_, ?_, ?_, ?_, ?_, ?_⟩
    · simp [f1, p1]
    · simp [f1, p1]
    · simp [f1, p2]
    · simp [f1, p3]
    · simp [f1, p4]
    · intro i hi; simp [f1, p5 i hi]
    · simp [Session.phase_def, f1, p1]
    · intro q hq; simp [f3 q hq, p6 q hq]
    · simp [g1, p7]
    · simp [g2, p8]
    · simp [g8, p9]
    · simp [ftf]
    · simp [g5, p11]

/-- Claim C11: after unload of a node (whose upstream roster slot, read
through by the normal modes of `_finishTransfer`, is not null), which returns
true: the node's event is not scheduled, the four `multiRecv` slots are
0xFFFF, the node's `transferFinished` flag is set, the phase is IDLE if the
node's id is 0 and unchanged otherwise, and `attachedMulti` has decreased by
exactly 1 if the serial mode of the node's console, which unload reads into
the node's mode, is multiplayer and is unchanged otherwise. -/
theorem C11_unload (s : Session) (r : NodeRef)
    (hup : (s.nodes r).id ≠ 0 → (s.lockstep.players ((s.nodes r).id - 1)).isSome = true) :
    ∃ s', GBASIOLockstepNodeUnload s r = .ok (true, s') ∧
      mTimingIsScheduled (s'.nodes r) = false ∧
      s'.lockstep.multiRecv 0 = 0xFFFF ∧ s'.lockstep.multiRecv 1 = 0xFFFF ∧
      s'.lockstep.multiRecv 2 = 0xFFFF ∧ s'.lockstep.multiRecv 3 = 0xFFFF ∧
      (s'.nodes r).transferFinished = true ∧
      ((s.nodes r).id = 0 → s'.phase = .TRANSFER_IDLE) ∧
      ((s.nodes r).id ≠ 0 → s'.phase = s.phase) ∧
      (s'.nodes r).mode = (s.nodes r).d.mode ∧
      ((s.nodes r).d.mode = .SIO_MULTI →
        s'.lockstep.attachedMulti = s.lockstep.attachedMulti - 1) ∧
      ((s.nodes r).d.mode ≠ .SIO_MULTI →
        s'.lockstep.attachedMulti = s.lockstep.attachedMulti) := by
  obtain ⟨s', h, _, _, _, _, ham, hmr, hph, _, _, hmode, _, htf, hsch⟩ := unload_ok s r hup
  refine ⟨s', h, by simp [mTimingIsScheduled, hsch], hmr 0 (by omega), hmr 1 (by omega),
    hmr 2 (by omega), hmr 3 (by omega), htf, ?_, ?_, hmode, ?_, ?_⟩
  · intro hid; rw [hph, if_pos hid]
  · intro hid; rw [hph, if_neg hid]
  · intro hm; rw [ham, if_pos hm]
  · intro hm; rw [ham, if_neg hm]

/-! ## Effects of the operations on the shared state -/

theorem rosterFrame_refl (s : Session) : RosterFrame s s := ⟨rfl, rfl, rfl, fun _ => rfl⟩

theorem rosterFrame_trans (s1 s2 s3 : Session) (h12 : RosterFrame s1 s2) (h23 : RosterFrame s2 s3) :
    RosterFrame s1 s3 :=
  ⟨h23.1.trans h12.1, h23.2.1.trans h12.2.1, h23.2.2.1.trans h12.2.2.1,
    fun q => (h23.2.2.2 q).trans (h12.2.2.2 q)⟩

/-- A change of one node that keeps the serial mode of its console. -/
theorem rosterFrame_modNode (s : Session) (r : NodeRef)
    (f : GBASIOLockstepNode → GBASIOLockstepNode) (hf : (f (s.nodes r)).d.mode = (s.nodes r).d.mode) :
    RosterFrame s (s.modNode r f) := by
  refine ⟨rfl, rfl, rfl, ?_⟩
  intro q
  by_cases hq : q = r
  · subst hq; simp [hf]
  · simp [hq]

theorem maskSet_two_pow (x k : Nat) : maskSet x (2 ^ k) = x.testBit k := by
  unfold maskSet
  rw [and_two_pow_ite]
  by_cases h : x.testBit k = true
  · simp [h]
  · simp [h]

theorem maskSet_1 (x : Nat) : maskSet x 1 = x.testBit 0 := maskSet_two_pow x 0
theorem maskSet_2 (x : Nat) : maskSet x 2 = x.testBit 1 := maskSet_two_pow x 1

theorem and_mod_65536 (x m : Nat) (hm : m < 65536) : (x % 65536) &&& m = x &&& m := by
  apply Nat.eq_of_testBit_eq
  intro i
  have h : (65536 : Nat) = 2 ^ 16 := by norm_num
  rw [Nat.testBit_and, Nat.testBit_and, h, Nat.testBit_mod_two_pow]
  by_cases hi : i < 16
  · simp [hi]
  · have : m.testBit i = false := by
      apply Nat.testBit_lt_two_pow
      calc m < 2 ^ 16 := by rw [← h]; exact hm
        _ ≤ 2 ^ i := Nat.pow_le_pow_right (by norm_num) (by omega)
    simp [this]

/-- The value returned by the normal-mode write hook for the control register
and the session it leaves. -/
theorem normalWrite_siocnt (freq : Nat) (s : Session) (r : NodeRef) (value : Nat) :
    (GBASIOLockstepNodeNormalWriteRegister freq s r REG_SIOCNT value).1 = value &&& 0xFF8B ∧
    (GBASIOLockstepNodeNormalWriteRegister freq s r REG_SIOCNT value).2.phase =
      (if (s.nodes r).id = 0 ∧ maskSet value 0x0080 = true ∧ maskSet value 1 = true
        then .TRANSFER_STARTING else s.phase) ∧
    (GBASIOLockstepNodeNormalWriteRegister freq s r REG_SIOCNT value).2.lockstep.d.transferCycles =
      (if (s.nodes r).id = 0 ∧ maskSet value 0x0080 = true then
        (if maskSet value 2 = true then ((freq / 1024 : Nat) : Int) else ((freq / 8192 : Nat) : Int))
        else s.lockstep.d.transferCycles) := by
  have hmask : (value % 65536) &&& 0xFF8B = value &&& 0xFF8B := and_mod_65536 value 0xFF8B (by norm_num)
  have h80 : maskSet (value &&& 0xFF8B) 0x0080 = maskSet value 0x0080 := by
    rw [maskSet_0x80, maskSet_0x80, Nat.testBit_and]
    have : (0xFF8B : Nat).testBit 7 = true := by decide
    simp [this]
  have h1 : maskSet (value &&& 0xFF8B) 1 = maskSet value 1 := by
    rw [maskSet_1, maskSet_1, Nat.testBit_and]
    have : (0xFF8B : Nat).testBit 0 = true := by decide
    simp [this]
  have h2 : maskSet (value &&& 0xFF8B) 2 = maskSet value 2 := by
    rw [maskSet_2, maskSet_2, Nat.testBit_and]
    have : (0xFF8B : Nat).testBit 1 = true := by decide
    simp [this]
  unfold GBASIOLockstepNodeNormalWriteRegister
  simp only [if_true, hmask, h80, h1, h2]
  by_cases hid : (s.nodes r).id = 0
  · by_cases hv : maskSet value 0x0080 = true
    · by_cases hc : maskSet value 1 = true <;> by_cases hf : maskSet value 2 = true <;>
        simp [hid, hv, hc, hf, Session.phase_def]
    · simp [hid, hv, Session.phase_def]
  · simp [hid, Session.phase_def]


/-- What the normal-mode write hook leaves alone, whatever the address. -/
theorem normalWrite_frame (freq : Nat) (s : Session) (r : NodeRef) (address value : Nat) :
    RosterFrame s (GBASIOLockstepNodeNormalWriteRegister freq s r address value).2 ∧
    (GBASIOLockstepNodeNormalWriteRegister freq s r address value).2.lockstep.multiRecv
      = s.lockstep.multiRecv ∧
    ((GBASIOLockstepNodeNormalWriteRegister freq s r address value).2.phase = s.phase ∨
      ((s.nodes r).id = 0 ∧
        (GBASIOLockstepNodeNormalWriteRegister freq s r address value).2.phase
          = .TRANSFER_STARTING)) ∧
    ((s.nodes r).id ≠ 0 →
      (GBASIOLockstepNodeNormalWriteRegister freq s r address value).2.lockstep.d
        = s.lockstep.d) := by
  unfold GBASIOLockstepNodeNormalWriteRegister
  by_cases ha : address = REG_SIOCNT
  · simp only [ha, if_true]
    by_cases hid : (s.nodes r).id = 0
    · by_cases hv : maskSet ((value % 65536) &&& 0xFF8B) 0x0080 = true
      · by_cases hc : maskSet ((value % 65536) &&& 0xFF8B) 1 = true <;>
          by_cases hf : maskSet ((value % 65536) &&& 0xFF8B) 2 = true <;>
          simp [hid, hv, hc, hf, Session.phase_def, RosterFrame, Session.modPort, Session.modNode_nodes] <;>
          (intro q; split <;> simp_all)
      · simp [hid, hv, Session.phase_def, RosterFrame, Session.modPort, Session.modNode_nodes]
        intro q; split <;> simp_all
    · simp [hid, rosterFrame_refl]
  · simp [ha, rosterFrame_refl]

/-- What the multiplayer write hook leaves alone, whatever the address. -/
theorem multiWrite_frame (tbl : Nat → Nat → Int) (s : Session) (r : NodeRef) (address value : Nat) :
    RosterFrame s (GBASIOLockstepNodeMultiWriteRegister tbl s r address value).2 ∧
    (GBASIOLockstepNodeMultiWriteRegister tbl s r address value).2.lockstep.multiRecv
      = s.lockstep.multiRecv ∧
    ((GBASIOLockstepNodeMultiWriteRegister tbl s r address value).2.phase = s.phase ∨
      ((s.nodes r).id = 0 ∧ s.phase = .TRANSFER_IDLE ∧
        (GBASIOLockstepNodeMultiWriteRegister tbl s r address value).2.phase
          = .TRANSFER_STARTING)) ∧
    ((s.nodes r).id ≠ 0 →
      (GBASIOLockstepNodeMultiWriteRegister tbl s r address value).2.lockstep.d
        = s.lockstep.d) := by
  unfold GBASIOLockstepNodeMultiWriteRegister
  by_cases ha : address = REG_SIOCNT
  · simp only [ha, if_true]
    by_cases hstart : maskSet (value % 65536) 0x0080 = true ∧
        s.lockstep.d.transferActive = .TRANSFER_IDLE
    · by_cases hgo : (s.nodes r).id = 0 ∧ multiplayerControl.ready (s.nodes r).d.siocnt = true
      · simp only [hstart, hgo, and_self, if_true]
        have hph : s.phase = .TRANSFER_IDLE := hstart.2
        by_cases hs : mTimingIsScheduled (s.nodes r) = true
        · simp [hs, hph, RosterFrame, Session.modNode_nodes, mTimingSchedule, mTimingDeschedule]
          intro q; split <;> simp_all
        · simp [hs, hph, RosterFrame, Session.modNode_nodes, mTimingSchedule, mTimingDeschedule]
          intro q; split <;> simp_all
      · simp only [hstart, hgo, and_self, if_true, if_false]
        exact ⟨rosterFrame_refl s, trivial, Or.inl trivial, fun _ => trivial⟩
    · simp only [hstart, if_false]
      exact ⟨rosterFrame_refl s, trivial, Or.inl trivial, fun _ => trivial⟩
  · simp only [ha, if_false]
    exact ⟨rosterFrame_refl s, trivial, Or.inl trivial, fun _ => trivial⟩


theorem rosterFrame_of_eq (s s1 s' : Session) (h : RosterFrame s s1)
    (hl : s'.lockstep = s1.lockstep) (hn : s'.nodes = s1.nodes) : RosterFrame s s' := by
  obtain ⟨a, b, c, d⟩ := h
  exact ⟨by rw [hl, a], by rw [hl, b], by rw [hl, c], fun q => by rw [hn, d q]⟩

theorem rosterFrame_of_finish (s s' : Session) (r : NodeRef) (h : _finishTransfer s r = .ok s') :
    RosterFrame s s' := by
  obtain ⟨a, _, c, d⟩ := finishTransfer_frame s s' r h
  refine ⟨by rw [a], by rw [a], by rw [a], ?_⟩
  intro q
  by_cases hq : q = r
  · subst hq; exact d.2.2.2.2.2.2.2.1
  · rw [c q hq]

/-- The effect of the `switch` of the master update, whenever it returns. -/
theorem masterPhaseStep_effect (s s1 : Session) (r : NodeRef) (b : Bool)
    (h : masterPhaseStep s r = .ok (b, s1)) :
    b = masterWaits s.phase ∧ s1.phase = masterNextPhase s.phase ∧ RosterFrame s s1 ∧
    s1.calls = s.calls ∧ s1.lockstep.d.transferCycles = s.lockstep.d.transferCycles ∧
    (s.phase ≠ .TRANSFER_STARTING → s1.lockstep.multiRecv = s.lockstep.multiRecv) ∧
    (s.phase = .TRANSFER_STARTING →
      s1.lockstep.multiRecv 0 = s.getIo r REG_SIOMLT_SEND ∧ s1.lockstep.multiRecv 1 = 0xFFFF ∧
      s1.lockstep.multiRecv 2 = 0xFFFF ∧ s1.lockstep.multiRecv 3 = 0xFFFF) ∧
    (∀ q, (s1.nodes q).mode = (s.nodes q).mode ∧ (s1.nodes q).id = (s.nodes q).id) := by
  unfold masterPhaseStep at h
  cases hph : s.lockstep.d.transferActive
  · simp only [hph, Except.ok.injEq, Prod.mk.injEq] at h
    obtain ⟨hb, hs⟩ := h
    subst hb hs
    refine ⟨by simp [Session.phase_def, hph, masterWaits], by simp [Session.phase_def, hph, masterNextPhase],
      ?_, by simp, by simp, by simp, by simp [Session.phase_def, hph], ?_⟩
    · refine ⟨by simp, by simp, by simp, ?_⟩
      intro q; by_cases hq : q = r
      · subst hq; simp
      · simp [hq]
    · intro q; by_cases hq : q = r
      · subst hq; simp
      · simp [hq]
  · simp only [hph, Except.ok.injEq, Prod.mk.injEq] at h
    obtain ⟨hb, hs⟩ := h
    subst hb hs
    refine ⟨by simp [Session.phase_def, hph, masterWaits],
      by simp [Session.phase_def, hph, masterNextPhase, nextPhase],
      ?_, by simp, by simp, by simp [Session.phase_def, hph], by simp [Session.getIo], ?_⟩
    · refine ⟨by simp, by simp, by simp, ?_⟩
      intro q; by_cases hq : q = r
      · subst hq; simp
      · simp [hq]
    · intro q; by_cases hq : q = r
      · subst hq; simp
      · simp [hq]
  · simp only [hph, Except.ok.injEq, Prod.mk.injEq] at h
    obtain ⟨hb, hs⟩ := h
    subst hb hs
    refine ⟨by simp [Session.phase_def, hph, masterWaits],
      by simp [Session.phase_def, hph, masterNextPhase, nextPhase],
      ?_, by simp, by simp, by simp, by simp [Session.phase_def, hph], ?_⟩
    · refine ⟨by simp, by simp, by simp, ?_⟩
      intro q; by_cases hq : q = r
      · subst hq; simp
      · simp [hq]
    · intro q; by_cases hq : q = r
      · subst hq; simp
      · simp [hq]
  · simp only [hph, Except.ok.injEq, Prod.mk.injEq] at h
    obtain ⟨hb, hs⟩ := h
    subst hb hs
    refine ⟨by simp [Session.phase_def, hph, masterWaits],
      by simp [Session.phase_def, hph, masterNextPhase, nextPhase],
      ?_, by simp, by simp, by simp, by simp [Session.phase_def, hph], ?_⟩
    · refine ⟨by simp, by simp, by simp, ?_⟩
      intro q; by_cases hq : q = r
      · subst hq; simp
      · simp [hq]
    · intro q; by_cases hq : q = r
      · subst hq; simp
      · simp [hq]
  · simp only [hph] at h
    cases hf : _finishTransfer s r with
    | error e => simp [hf] at h
    | ok s2 =>
      simp only [hf, Except.ok.injEq, Prod.mk.injEq] at h
      obtain ⟨hb, hs⟩ := h
      subst hb hs
      obtain ⟨a, c, d, e⟩ := finishTransfer_frame s s2 r hf
      have hrf := rosterFrame_of_finish s s2 r hf
      refine ⟨by simp [Session.phase_def, hph, masterWaits],
        by simp [Session.phase_def, hph, masterNextPhase, nextPhase],
        ?_, by simp [c], by simp [a], by simp [a], by simp [Session.phase_def, hph], ?_⟩
      · refine ⟨by simp [hrf.1], by simp [hrf.2.1], by simp [hrf.2.2.1], ?_⟩
        intro q; by_cases hq : q = r
        · subst hq; simp [hrf.2.2.2 q]
        · simp [hq, hrf.2.2.2 q]
      · intro q; by_cases hq : q = r
        · subst hq; simp [e.1, e.2.1]
        · simp [hq, d q hq]

/-- The effect of a master update, whenever it returns. -/
theorem masterUpdate_effect (s s' : Session) (r : NodeRef) (w : Bool) (c : Int)
    (h : _masterUpdate s r w = .ok (c, s')) :
    s'.phase = masterNextPhase s.phase ∧ RosterFrame s s' ∧
    s'.lockstep.d.transferCycles = s.lockstep.d.transferCycles ∧
    (s.phase ≠ .TRANSFER_STARTING → s'.lockstep.multiRecv = s.lockstep.multiRecv) ∧
    (s.phase = .TRANSFER_STARTING →
      s'.lockstep.multiRecv 0 = s.getIo r REG_SIOMLT_SEND ∧ s'.lockstep.multiRecv 1 = 0xFFFF ∧
      s'.lockstep.multiRecv 2 = 0xFFFF ∧ s'.lockstep.multiRecv 3 = 0xFFFF) ∧
    (∀ q, (s'.nodes q).mode = (s.nodes q).mode ∧ (s'.nodes q).id = (s.nodes q).id) := by
  obtain ⟨b, s1, hstep, hl, hn⟩ := masterUpdate_decomp s r w c s' h
  obtain ⟨_, e2, e3, _, e5, e6, e7, e8⟩ := masterPhaseStep_effect s s1 r b hstep
  refine ⟨?_, rosterFrame_of_eq s s1 s' e3 hl hn, by rw [hl, e5], ?_, ?_, ?_⟩
  · rw [Session.phase_def, hl, ← Session.phase_def, e2]
  · intro hp; rw [hl, e6 hp]
  · intro hp; rw [hl]; exact e7 hp
  · intro q; rw [hn]; exact e8 q


/-- The contribution of a slave in phase STARTED: what it stores and what it
leaves alone. -/
theorem slaveContribute_effect (s : Session) (r : NodeRef) :
    (slaveContribute s r).phase = s.phase ∧
    (slaveContribute s r).lockstep.d = s.lockstep.d ∧
    RosterFrame s (slaveContribute s r) ∧
    (slaveContribute s r).lockstep.multiRecv =
      upd s.lockstep.multiRecv (s.nodes r).id (slaveStored s r) ∧
    (slaveContribute s r).calls = s.calls ∧
    (∀ q, ((slaveContribute s r).nodes q).mode = (s.nodes q).mode ∧
      ((slaveContribute s r).nodes q).id = (s.nodes q).id) := by
  unfold slaveContribute slaveStored
  cases hm : (s.nodes r).mode <;>
    simp [hm, Session.phase_def, RosterFrame, Session.getIo, Session.setIo]
  refine ⟨?_, ?_⟩ <;> intro q <;> by_cases hq : q = r <;> first | (subst hq; simp) | simp [hq]


/-- The session in which `_slaveUpdate` has refreshed the ready bit. -/
theorem slaveReady_frame (s : Session) (r : NodeRef) (b : Bool) :
    RosterFrame s (s.modPort r (fun g => { g with siocnt := multiplayerControl.setReady g.siocnt b })) ∧
    (∀ q, ((s.modPort r (fun g => { g with siocnt := multiplayerControl.setReady g.siocnt b })).nodes q).mode = (s.nodes q).mode ∧ ((s.modPort r (fun g => { g with siocnt := multiplayerControl.setReady g.siocnt b })).nodes q).id = (s.nodes q).id) := by
  refine ⟨⟨rfl, rfl, rfl, ?_⟩, ?_⟩ <;> intro q <;> by_cases hq : q = r <;>
    first | (subst hq; simp) | simp [hq]

/-- The effect of a slave update, whenever it returns: it returns 0, keeps
the phase, and changes `multiRecv` only by a contribution in phase STARTED. -/
theorem slaveUpdate_effect (s s' : Session) (r : NodeRef) (u c : Int)
    (h : _slaveUpdate s r u = .ok (c, s')) :
    c = 0 ∧ s'.phase = s.phase ∧ s'.lockstep.d = s.lockstep.d ∧ RosterFrame s s' ∧
    s'.lockstep.multiRecv =
      (if s.phase = .TRANSFER_STARTED ∧ ¬ u > (s.nodes r).eventDiff
        then upd s.lockstep.multiRecv (s.nodes r).id (slaveStored s r)
        else s.lockstep.multiRecv) ∧
    (∀ q, (s'.nodes q).mode = (s.nodes q).mode ∧ (s'.nodes q).id = (s.nodes q).id) := by
  obtain ⟨hrf, hmi⟩ := slaveReady_frame s r (decide (s.lockstep.attachedMulti = (s.lockstep.d.attached : Int)))
  generalize hs1 : s.modPort r (fun g => { g with siocnt := multiplayerControl.setReady g.siocnt (decide (s.lockstep.attachedMulti = (s.lockstep.d.attached : Int))) }) = s1 at hrf hmi
  have hl1 : s1.lockstep = s.lockstep := by rw [← hs1]; rfl
  have hio1 : (s1.nodes r).d.io = (s.nodes r).d.io := by rw [← hs1]; simp
  have hed1 : (s1.nodes r).eventDiff = (s.nodes r).eventDiff := by rw [← hs1]; simp
  have hst1 : slaveStored s1 r = slaveStored s r := by
    simp [slaveStored, Session.getIo, hio1, (hmi r).1]
  have key : ∀ (b : Bool) (s2 : Session), RosterFrame s s2 → s2.lockstep.d = s.lockstep.d →
      (∀ q, (s2.nodes q).mode = (s.nodes q).mode ∧ (s2.nodes q).id = (s.nodes q).id) →
      (if b = true then (Except.ok (0, s2.call (.signal (1 <<< (s2.nodes r).id))) : Except Fault (Int × Session))
        else .ok (0, s2)) = .ok (c, s') →
      c = 0 ∧ s'.phase = s.phase ∧ s'.lockstep.d = s.lockstep.d ∧ RosterFrame s s' ∧
        s'.lockstep.multiRecv = s2.lockstep.multiRecv ∧
        (∀ q, (s'.nodes q).mode = (s.nodes q).mode ∧ (s'.nodes q).id = (s.nodes q).id) := by
    intro b s2 hf hd hq hh
    cases b
    · simp only [Bool.false_eq_true, if_false, Except.ok.injEq, Prod.mk.injEq] at hh
      obtain ⟨hc, hs⟩ := hh
      subst hs
      exact ⟨hc.symm, by simp [Session.phase_def, hd], hd, hf, rfl, hq⟩
    · simp only [if_true, Except.ok.injEq, Prod.mk.injEq] at hh
      obtain ⟨hc, hs⟩ := hh
      subst hs
      exact ⟨hc.symm, by simp [Session.phase_def, hd], by simpa using hd, hf, rfl, hq⟩
  have hd1 : s1.lockstep.d = s.lockstep.d := by rw [hl1]
  unfold _slaveUpdate at h
  simp only [hs1] at h
  cases hph : s.lockstep.d.transferActive
  · simp only [hph] at h
    by_cases hr : multiplayerControl.ready (s1.nodes r).d.siocnt = true
    · simp only [hr, not_true_eq_false, if_false] at h
      obtain ⟨a1, a2, a3, a4, a5, a6⟩ := key false s1 hrf hd1 hmi h
      refine ⟨a1, a2, a3, a4, ?_, a6⟩
      simp [a5, hl1, Session.phase_def, hph]
    · simp only [hr, not_false_eq_true, if_true] at h
      obtain ⟨a1, a2, a3, a4, a5, a6⟩ := key false (s1.call (.addCycles (s1.nodes r).id LOCKSTEP_INCREMENT)) hrf hd1 hmi h
      refine ⟨a1, a2, a3, a4, ?_, a6⟩
      simp [a5, hl1, Session.phase_def, hph]
  · simp only [hph] at h
    obtain ⟨a1, a2, a3, a4, a5, a6⟩ := key false s1 hrf hd1 hmi h
    refine ⟨a1, a2, a3, a4, ?_, a6⟩
    simp [a5, hl1, Session.phase_def, hph]
  · simp only [hph, Session.call_nodes] at h
    by_cases hu : u > (s.nodes r).eventDiff
    · simp only [hed1, hu, if_true] at h
      obtain ⟨a1, a2, a3, a4, a5, a6⟩ := key false (s1.call (.unusedCycles (s1.nodes r).id)) hrf hd1 hmi h
      refine ⟨a1, a2, a3, a4, ?_, a6⟩
      simp [a5, hl1, Session.phase_def, hph, hu]
    · simp only [hed1, hu, if_false] at h
      generalize hs2 : (s1.call (.unusedCycles (s1.nodes r).id)).modNode r (fun n => { n with transferFinished := false }) = s2 at h
      have hf2 : RosterFrame s1 s2 ∧ s2.lockstep = s1.lockstep ∧
          (∀ q, (s2.nodes q).mode = (s1.nodes q).mode ∧ (s2.nodes q).id = (s1.nodes q).id) ∧
          (s2.nodes r).d.io = (s1.nodes r).d.io := by
        rw [← hs2]
        refine ⟨⟨rfl, rfl, rfl, ?_⟩, rfl, ?_, by simp⟩ <;> intro q <;> by_cases hq : q = r <;>
          first | (subst hq; simp) | simp [hq]
      obtain ⟨f1, f2, f3, f4⟩ := hf2
      obtain ⟨e1, e2, e3, e4, _, e6⟩ := slaveContribute_effect s2 r
      have hst2 : slaveStored s2 r = slaveStored s r := by
        rw [← hst1]; simp [slaveStored, Session.getIo, f4, (f3 r).1]
      obtain ⟨a1, a2, a3, a4, a5, a6⟩ := key true (slaveContribute s2 r)
        (rosterFrame_trans _ _ _ hrf (rosterFrame_trans _ _ _ f1 e3)) (by rw [e2, f2, hl1])
        (fun q => ⟨by rw [(e6 q).1, (f3 q).1, (hmi q).1], by rw [(e6 q).2, (f3 q).2, (hmi q).2]⟩) h
      refine ⟨a1, a2, a3, a4, ?_, a6⟩
      rw [a5, e4, hst2, f2, hl1, (f3 r).2, (hmi r).2]
      simp [Session.phase_def, hph, hu]
  · simp only [hph] at h
    obtain ⟨a1, a2, a3, a4, a5, a6⟩ := key false s1 hrf hd1 hmi h
    refine ⟨a1, a2, a3, a4, ?_, a6⟩
    simp [a5, hl1, Session.phase_def, hph]
  · simp only [hph, Session.call_nodes] at h
    by_cases hu : u > (s.nodes r).eventDiff
    · simp only [hed1, hu, if_true] at h
      obtain ⟨a1, a2, a3, a4, a5, a6⟩ := key false (s1.call (.unusedCycles (s1.nodes r).id)) hrf hd1 hmi h
      refine ⟨a1, a2, a3, a4, ?_, a6⟩
      simp [a5, hl1, Session.phase_def, hph]
    · simp only [hed1, hu, if_false] at h
      cases hfin : _finishTransfer (s1.call (.unusedCycles (s1.nodes r).id)) r with
      | error e => simp [hfin] at h
      | ok s2 =>
        simp only [hfin] at h
        obtain ⟨b1, _, b3, b4⟩ := finishTransfer_frame _ s2 r hfin
        have hrf2 := rosterFrame_of_finish _ s2 r hfin
        have hq2 : ∀ q, (s2.nodes q).mode = (s1.nodes q).mode ∧ (s2.nodes q).id = (s1.nodes q).id := by
          intro q
          by_cases hq : q = r
          · subst hq
            have h1 := b4.1
            have h2 := b4.2.1
            simp only [Session.call_nodes] at h1 h2
            exact ⟨h2, h1⟩
          · have := b3 q hq
            simp only [Session.call_nodes] at this
            rw [this]; exact ⟨rfl, rfl⟩
        have hrf12 : RosterFrame s1 s2 := by
          obtain ⟨x1, x2, x3, x4⟩ := hrf2
          exact ⟨x1, x2, x3, x4⟩
        obtain ⟨a1, a2, a3, a4, a5, a6⟩ := key true s2 (rosterFrame_trans _ _ _ hrf hrf12)
          (by rw [b1]; simpa using hd1)
          (fun q => ⟨by rw [(hq2 q).1, (hmi q).1], by rw [(hq2 q).2, (hmi q).2]⟩) h
        refine ⟨a1, a2, a3, a4, ?_, a6⟩
        rw [a5, b1]
        simp [hl1, Session.phase_def, hph]

/-! ## Unload of a node, the early return of the callback, and the normal-mode write -/

/-- Witness for claim C11: unload of the slave of the two-player scenario. -/
theorem C11_unload_witness :
    ∃ s', GBASIOLockstepNodeUnload twoPlayerSession 1 = .ok (true, s') ∧
      mTimingIsScheduled (s'.nodes 1) = false ∧ s'.lockstep.multiRecv 1 = 0xFFFF ∧
      (s'.nodes 1).transferFinished = true ∧ s'.phase = twoPlayerSession.phase ∧
      s'.lockstep.attachedMulti = 1 := by
  obtain ⟨s', h, h1, _, h3, _, _, h6, _, h8, _, h10, _⟩ :=
    C11_unload twoPlayerSession 1 (by decide)
  refine ⟨s', h, h1, h3, h6, h8 (by decide), ?_⟩
  rw [h10 (by decide)]; decide

/-- The event callback returns at once, leaving the session as it is, when
fewer than two nodes are attached. -/
theorem processEvents_alone (s : Session) (r : NodeRef) (late : Nat) (w : Bool) (u used : Int)
    (h : s.lockstep.d.attached < 2) :
    _GBASIOLockstepNodeProcessEvents s r late w u used = .ok s := by
  unfold _GBASIOLockstepNodeProcessEvents
  rw [if_pos h]

theorem runCallbacks_alone (s : Session) (r : NodeRef) (h : s.lockstep.d.attached < 2) :
    ∀ cbs, runCallbacks s r cbs = .ok s := by
  intro cbs
  induction cbs with
  | nil => rfl
  | cons x rest ih =>
    unfold runCallbacks
    rw [processEvents_alone s r _ _ _ _ h]
    exact ih

/-- Detach of the node in roster slot 1 of a session with two attached nodes. -/
theorem detach_second (s : Session) (m sl : NodeRef) (hat : s.lockstep.d.attached = 2)
    (hne : m ≠ sl) (h0 : s.lockstep.players 0 = some m) (h1 : s.lockstep.players 1 = some sl) :
    ∃ s', GBASIOLockstepDetachNode s sl = .ok s' ∧ s'.lockstep.d.attached = 1 ∧
      s'.lockstep.players = s.lockstep.players ∧ s'.phase = s.phase ∧ s'.nodes = s.nodes ∧
      s'.lockstep.multiRecv = s.lockstep.multiRecv ∧
      s'.lockstep.attachedMulti = s.lockstep.attachedMulti := by
  have hfind : (List.range 2).find? (fun i => decide (s.lockstep.players i = some sl)) = some 1 := by
    have : List.range 2 = [0, 1] := by decide
    rw [this]
    simp [List.find?, h0, h1, hne]
  unfold GBASIOLockstepDetachNode
  rw [hat, if_neg (by decide), hfind]
  simp [detachShiftLoop, Session.phase_def, hat]

/-- What happens when the slave of a two-node multiplayer session leaves in
phase FINISHING. -/
theorem slaveLeaves_spec (s : Session) (m sl : NodeRef) (h : TwoNodeMulti s m sl)
    (hph : s.phase = .TRANSFER_FINISHING) :
    ∃ s2, unloadDetach s sl = .ok s2 ∧ s2.lockstep.d.attached = 1 ∧
      s2.lockstep.players 0 = some m ∧ s2.phase = .TRANSFER_FINISHING ∧
      (s2.nodes m).d.io = (s.nodes m).d.io ∧
      (∀ cbs, runCallbacks s2 m cbs = .ok s2) ∧
      (∀ r, (GBASIOLockstepAttachNode s2 r).1 = true ∧
        ((GBASIOLockstepAttachNode s2 r).2.nodes r).id = 1 ∧
        (GBASIOLockstepAttachNode s2 r).2.lockstep.players 1 = some r) := by
  obtain ⟨hat, hne, h0, h1, hid0, hid1, _, _, _, _⟩ := h
  obtain ⟨s1, hu, a1, _, a3, _, _, _, a7, a8, _⟩ := unload_ok s sl (by rw [hid1]; simp [h0])
  obtain ⟨s2, hd, b1, b2, b3, b4, _⟩ := detach_second s1 m sl (by rw [a1, hat]) hne
    (by rw [a3, h0]) (by rw [a3, h1])
  refine ⟨s2, ?_, b1, by rw [b2, a3, h0], ?_, ?_, ?_, ?_⟩
  · unfold unloadDetach; rw [hu]; exact hd
  · rw [b3, a7, if_neg (by rw [hid1]; decide), hph]
  · rw [b4, a8 m hne]
  · exact runCallbacks_alone s2 m (by omega)
  · intro r
    unfold GBASIOLockstepAttachNode
    rw [if_neg (by rw [b1]; decide)]
    simp [b1]

/-- Claim C12, amended: in a two-node multiplayer session whose phase is
FINISHING, after the slave is unloaded and detached one node is attached, the
phase is still FINISHING and every further event callback of the master
returns at once leaving the session as it is (fewer than two nodes are
attached), so the phase stays FINISHING and the master's registers keep their
contents; a node attached afterwards is put in roster slot 1 and receives
id 1. -/
theorem C12_slave_leaves_in_finishing (s : Session) (m sl : NodeRef) (h : TwoNodeMulti s m sl)
    (hph : s.phase = .TRANSFER_FINISHING) :
    ∃ s2, unloadDetach s sl = .ok s2 ∧ s2.lockstep.d.attached = 1 ∧
      s2.lockstep.players 0 = some m ∧ s2.phase = .TRANSFER_FINISHING ∧
      (s2.nodes m).d.io = (s.nodes m).d.io ∧
      (∀ cbs, runCallbacks s2 m cbs = .ok s2) ∧
      (∀ r, (GBASIOLockstepAttachNode s2 r).1 = true ∧
        ((GBASIOLockstepAttachNode s2 r).2.nodes r).id = 1 ∧
        (GBASIOLockstepAttachNode s2 r).2.lockstep.players 1 = some r) :=
  slaveLeaves_spec s m sl h hph

theorem finishingSession_two : TwoNodeMulti finishingSession 0 1 := by
  refine ⟨rfl, by decide, rfl, rfl, rfl, rfl, rfl, rfl, rfl, rfl⟩

/-- Witness for claim C12: the two-player scenario in phase FINISHING. -/
theorem C12_slave_leaves_in_finishing_witness :
    ∃ s2, unloadDetach finishingSession 1 = .ok s2 ∧ s2.lockstep.d.attached = 1 ∧
      s2.phase = .TRANSFER_FINISHING ∧
      (∀ r, ((GBASIOLockstepAttachNode s2 r).2.nodes r).id = 1) := by
  obtain ⟨s2, h1, h2, _, h4, _, _, h7⟩ :=
    C12_slave_leaves_in_finishing finishingSession 0 1 finishingSession_two rfl
  exact ⟨s2, h1, h2, h4, fun r => (h7 r).2.1⟩

/-- Counterexample to claim C12 as stated: in the two-player scenario in phase
FINISHING, after the slave (node 1) is unloaded and detached, no sequence of
event callbacks of the master (node 0), whatever the host bridge returns,
brings the phase to FINISHED or to IDLE: every such sequence returns with the
phase still FINISHING. -/
theorem C12_callbacks_counterexample :
    ∃ s2, unloadDetach finishingSession 1 = .ok s2 ∧
      ∀ cbs, ∃ s3, runCallbacks s2 0 cbs = .ok s3 ∧ s3.phase = .TRANSFER_FINISHING := by
  obtain ⟨s2, h1, _, _, h4, _, h6, _⟩ := slaveLeaves_spec finishingSession 0 1 finishingSession_two rfl
  exact ⟨s2, h1, fun cbs => ⟨s2, h6 cbs, h4⟩⟩

/-- Claim C13, amended: a normal-mode control-register write by the master
(id 0) whose value has the start bit (bit 7) set returns the written value
masked with 0xFF8B and sets `transferCycles` to the CPU clock rate divided by
1024 when the frequency bit (bit 1) is set and by 8192 when it is clear; the
phase becomes STARTING when the internal-clock bit (bit 0) of the value is
set, and is unchanged when that bit is clear. -/
theorem C13_normal_write_start (freq : Nat) (s : Session) (r : NodeRef) (value : Nat)
    (hid : (s.nodes r).id = 0) (hstart : value.testBit 7 = true) :
    (GBASIOLockstepNodeNormalWriteRegister freq s r REG_SIOCNT value).1 = value &&& 0xFF8B ∧
    (value.testBit 0 = true →
      (GBASIOLockstepNodeNormalWriteRegister freq s r REG_SIOCNT value).2.phase
        = .TRANSFER_STARTING) ∧
    (value.testBit 0 = false →
      (GBASIOLockstepNodeNormalWriteRegister freq s r REG_SIOCNT value).2.phase = s.phase) ∧
    (value.testBit 1 = true →
      (GBASIOLockstepNodeNormalWriteRegister freq s r REG_SIOCNT value).2.lockstep.d.transferCycles
        = ((freq / 1024 : Nat) : Int)) ∧
    (value.testBit 1 = false →
      (GBASIOLockstepNodeNormalWriteRegister freq s r REG_SIOCNT value).2.lockstep.d.transferCycles
        = ((freq / 8192 : Nat) : Int)) := by
  obtain ⟨h1, h2, h3⟩ := normalWrite_siocnt freq s r value
  rw [maskSet_0x80, maskSet_1] at h2
  rw [maskSet_0x80, maskSet_2] at h3
  refine ⟨h1, ?_, ?_, ?_, ?_⟩
  · intro hb; rw [h2]; simp [hid, hstart, hb]
  · intro hb; rw [h2]; simp [hb]
  · intro hb; rw [h3]; simp [hid, hstart, hb]
  · intro hb; rw [h3]; simp [hid, hstart, hb]

/-- Witness for claim C13: the master of the initialised session writes
0x0083 (start, internal clock, high frequency). -/
theorem C13_normal_write_start_witness :
    (GBASIOLockstepNodeNormalWriteRegister sampleFrequency session0 0 REG_SIOCNT 0x0083).1 = 0x0083 ∧
    (GBASIOLockstepNodeNormalWriteRegister sampleFrequency session0 0 REG_SIOCNT 0x0083).2.phase
      = .TRANSFER_STARTING ∧
    (GBASIOLockstepNodeNormalWriteRegister sampleFrequency session0 0 REG_SIOCNT
      0x0083).2.lockstep.d.transferCycles = 16384 := by
  obtain ⟨h1, h2, _, h4, _⟩ :=
    C13_normal_write_start sampleFrequency session0 0 0x0083 (by decide) (by decide)
  exact ⟨h1, h2 (by decide), h4 (by decide)⟩

/-- Counterexample to claim C13 as stated: the master of the initialised
session (phase IDLE) writes 0x0080, start bit set and external clock; the
phase stays IDLE. -/
theorem C13_external_clock_counterexample :
    (session0.nodes 0).id = 0 ∧ (0x0080 : Nat).testBit 7 = true ∧
    (GBASIOLockstepNodeNormalWriteRegister sampleFrequency session0 0 REG_SIOCNT 0x0080).2.phase
      = .TRANSFER_IDLE := by
  decide

/-! ## A transfer in 32-bit normal mode -/

/-- Claim C14, evaluation of the code at the input of the claim: in the
scenario "32-bit normal transfer" with the master's data register holding
L = 0xDEAD and H = 0xBEEF, after the master writes 0x0083 (start, internal
clock, high frequency) and the transfer runs through the four phases with the
slave caught up, the phase is IDLE, `transferCycles` is the clock rate divided
by 1024, the master's data register reads 0xFFFFFFFF and the start bit is
clear on both nodes, but the slave's data register reads 0 and not
0xBEEFDEAD: the master's data never reaches `normalRecv[0]`, which the slave
reads. -/
theorem C14_normal32_transfer :
    ∃ s', normalTransfer sampleFrequency (normal32Session 0xDEAD 0xBEEF) 0 1 0x0083 = .ok s' ∧
      s'.phase = .TRANSFER_IDLE ∧ s'.lockstep.d.transferCycles = 16384 ∧
      readSIODATA32 s' 1 = 0 ∧ s'.lockstep.normalRecv 0 = 0 ∧
      readSIODATA32 s' 0 = 0xFFFFFFFF ∧
      normalControl.start (s'.nodes 0).d.siocnt = false ∧
      normalControl.start (s'.nodes 1).d.siocnt = false := by
  have h1 : (normalTransfer sampleFrequency (normal32Session 0xDEAD 0xBEEF) 0 1 0x0083).toOption.map
      (fun s => s.phase) = some .TRANSFER_IDLE := by decide
  have h2 : (normalTransfer sampleFrequency (normal32Session 0xDEAD 0xBEEF) 0 1 0x0083).toOption.map
      (fun s => s.lockstep.d.transferCycles) = some 16384 := by decide
  have h3 : (normalTransfer sampleFrequency (normal32Session 0xDEAD 0xBEEF) 0 1 0x0083).toOption.map
      (fun s => [readSIODATA32 s 1, s.lockstep.normalRecv 0, readSIODATA32 s 0])
      = some [0, 0, 0xFFFFFFFF] := by decide
  have h4 : (normalTransfer sampleFrequency (normal32Session 0xDEAD 0xBEEF) 0 1 0x0083).toOption.map
      (fun s => [normalControl.start (s.nodes 0).d.siocnt, normalControl.start (s.nodes 1).d.siocnt])
      = some [false, false] := by decide
  cases hx : normalTransfer sampleFrequency (normal32Session 0xDEAD 0xBEEF) 0 1 0x0083 with
  | error e => rw [hx] at h1; cases h1
  | ok s' =>
    rw [hx] at h1 h2 h3 h4
    simp only [Except.toOption, Option.map_some', Option.some.injEq, List.cons.injEq, and_true] at h1 h2 h3 h4
    exact ⟨s', rfl, h1, h2, h3.1, h3.2.1, h3.2.2, h4.1, h4.2⟩

/-! ## The operations invoked on a slave -/

theorem finishTransfer_ok (s : Session) (r : NodeRef)
    (hup : (s.nodes r).id ≠ 0 → (s.lockstep.players ((s.nodes r).id - 1)).isSome = true) :
    ∃ s', _finishTransfer s r = .ok s' := by
  obtain ⟨s', h, _⟩ := finishTransfer_twice s r hup
  exact ⟨s', h⟩

/-- The slave update returns when the roster slot read by `_finishTransfer`
holds a node. -/
theorem slaveUpdate_ok (s : Session) (r : NodeRef) (u : Int)
    (hup : (s.nodes r).id ≠ 0 → (s.lockstep.players ((s.nodes r).id - 1)).isSome = true) :
    ∃ s', _slaveUpdate s r u = .ok (0, s') := by
  cases hd : _slaveUpdate s r u with
  | ok res =>
    obtain ⟨c, s'⟩ := res
    obtain ⟨hc, _⟩ := slaveUpdate_effect s s' r u c hd
    subst hc
    exact ⟨s', rfl⟩
  | error e =>
    exfalso
    have hup1 : ∀ (c : HostCall), (((s.modPort r (fun g => { g with siocnt := multiplayerControl.setReady g.siocnt (decide (s.lockstep.attachedMulti = (s.lockstep.d.attached : Int))) })).call c).nodes r).id ≠ 0 →
        (((s.modPort r (fun g => { g with siocnt := multiplayerControl.setReady g.siocnt (decide (s.lockstep.attachedMulti = (s.lockstep.d.attached : Int))) })).call c).lockstep.players ((((s.modPort r (fun g => { g with siocnt := multiplayerControl.setReady g.siocnt (decide (s.lockstep.attachedMulti = (s.lockstep.d.attached : Int))) })).call c).nodes r).id - 1)).isSome = true := by
      intro c
      simpa using hup
    unfold _slaveUpdate at hd
    generalize hs1 : s.modPort r (fun g => { g with siocnt := multiplayerControl.setReady g.siocnt (decide (s.lockstep.attachedMulti = (s.lockstep.d.attached : Int))) }) = s1 at hup1
    simp only [hs1] at hd
    cases hph : s.lockstep.d.transferActive
    · simp only [hph] at hd
      by_cases hr : multiplayerControl.ready (s1.nodes r).d.siocnt = true <;> simp [hr] at hd
    · simp [hph] at hd
    · simp only [hph] at hd
      by_cases hu : (s1.nodes r).eventDiff < u <;> simp [hu] at hd
    · simp [hph] at hd
    · simp only [hph] at hd
      by_cases hu : (s1.nodes r).eventDiff < u
      · simp [hu] at hd
      · obtain ⟨s2, h2⟩ := finishTransfer_ok (s1.call (.unusedCycles (s1.nodes r).id)) r (hup1 _)
        simp [hu, h2] at hd

/-- The effect of load on the shared object and on the nodes. -/
theorem load_effect (s : Session) (r : NodeRef) :
    (GBASIOLockstepNodeLoad s r).2.lockstep.d = s.lockstep.d ∧
    (GBASIOLockstepNodeLoad s r).2.lockstep.players = s.lockstep.players ∧
    (GBASIOLockstepNodeLoad s r).2.lockstep.multiRecv = s.lockstep.multiRecv ∧
    (GBASIOLockstepNodeLoad s r).2.lockstep.attachedMulti =
      (if (s.nodes r).d.mode = .SIO_MULTI then s.lockstep.attachedMulti + 1
        else s.lockstep.attachedMulti) ∧
    (∀ q, ((GBASIOLockstepNodeLoad s r).2.nodes q).d.mode = (s.nodes q).d.mode ∧
      ((GBASIOLockstepNodeLoad s r).2.nodes q).id = (s.nodes q).id) := by
  have hmode : ((((((s.modNode r (fun n => { n with nextEvent := 0 })).modNode r (fun n => { n with eventDiff := 0 })).modNode r (fun n => mTimingSchedule n 0)).modNode r (fun n => { n with mode := n.d.mode })).nodes r).mode) = (s.nodes r).d.mode := by
    simp [mTimingSchedule]
  have hnodes : ∀ q, (((((s.modNode r (fun n => { n with nextEvent := 0 })).modNode r (fun n => { n with eventDiff := 0 })).modNode r (fun n => mTimingSchedule n 0)).modNode r (fun n => { n with mode := n.d.mode })).nodes q).d.mode = (s.nodes q).d.mode ∧ (((((s.modNode r (fun n => { n with nextEvent := 0 })).modNode r (fun n => { n with eventDiff := 0 })).modNode r (fun n => mTimingSchedule n 0)).modNode r (fun n => { n with mode := n.d.mode })).nodes q).id = (s.nodes q).id := by
    intro q
    by_cases hq : q = r
    · subst hq; simp [mTimingSchedule]
    · simp [hq]
  have hlock : ((((s.modNode r (fun n => { n with nextEvent := 0 })).modNode r (fun n => { n with eventDiff := 0 })).modNode r (fun n => mTimingSchedule n 0)).modNode r (fun n => { n with mode := n.d.mode })).lockstep = s.lockstep := rfl
  unfold GBASIOLockstepNodeLoad
  generalize hs1 : (((s.modNode r (fun n => { n with nextEvent := 0 })).modNode r (fun n => { n with eventDiff := 0 })).modNode r (fun n => mTimingSchedule n 0)).modNode r (fun n => { n with mode := n.d.mode }) = s1 at hmode hnodes hlock
  simp only [hs1]
  have hn1 : ∀ q, (s1.nodes q).d.mode = (s.nodes q).d.mode := fun q => (hnodes q).1
  have hn2 : ∀ q, (s1.nodes q).id = (s.nodes q).id := fun q => (hnodes q).2
  cases hm : (s.nodes r).d.mode
  case SIO_MULTI =>
    rw [hm] at hmode
    simp only [hmode, if_true]
    by_cases hid : (s1.nodes r).id = 0
    · simp only [Session.modPort_nodes_self, Session.modNode_nodes_self, hid, ne_eq, not_true_eq_false, if_false]
      refine ⟨by simp [hlock], by simp [hlock], by simp [hlock], by simp [hlock], ?_⟩
      intro q
      by_cases hq : q = r
      · subst hq; simp [hn1, hn2]
      · simp [hq, hn1, hn2]
    · simp only [Session.modPort_nodes_self, Session.modNode_nodes_self, hid, ne_eq, not_false_eq_true, if_true]
      refine ⟨by simp [hlock], by simp [hlock], by simp [hlock], by simp [hlock], ?_⟩
      intro q
      by_cases hq : q = r
      · subst hq; simp [hn1, hn2]
      · simp [hq, hn1, hn2]
  case SIO_NORMAL_32 =>
    rw [hm] at hmode
    simp only [hmode]
    refine ⟨by simp [hlock], by simp [hlock], by simp [hlock], by simp [hlock], ?_⟩
    intro q
    by_cases hq : q = r
    · subst hq; simp [hn1, hn2]
    · simp [hq, hn1, hn2]
  all_goals
    rw [hm] at hmode
    simp only [hmode]
    exact ⟨by simp [hlock], by simp [hlock], by simp [hlock], by simp [hlock], hnodes⟩

/-- Claim C16: for every node with id > 0 (whose upstream roster slot, read
through by the normal modes of `_finishTransfer`, is not null) and every
state, each of the operations invoked on that node (slave update, multiplayer
register write, normal register write, load, unload, `_finishTransfer`)
returns and leaves the phase and `transferCycles` as they were. -/
theorem C16_slave_ops_keep_phase (tbl : Nat → Nat → Int) (freq : Nat) (s : Session) (r : NodeRef)
    (op : CoordinatorOp) (hid : (s.nodes r).id ≠ 0)
    (hup : (s.lockstep.players ((s.nodes r).id - 1)).isSome = true) (hop : IsSlaveOp r op) :
    ∃ s', runOp tbl freq s op = .ok s' ∧ s'.phase = s.phase ∧
      s'.lockstep.d.transferCycles = s.lockstep.d.transferCycles := by
  cases op with
  | attach q => exact absurd hop (by simp [IsSlaveOp])
  | detach q => exact absurd hop (by simp [IsSlaveOp])
  | masterUpdate q w => exact absurd hop (by simp [IsSlaveOp])
  | processEvents q late w u used => exact absurd hop (by simp [IsSlaveOp])
  | load q =>
    have hq : q = r := hop
    subst hq
    obtain ⟨h1, _⟩ := load_effect s q
    exact ⟨_, rfl, by rw [Session.phase_def, h1]; rfl, by rw [h1]⟩
  | unload q =>
    have hq : q = r := hop
    subst hq
    obtain ⟨s', h, _, h2, _, _, _, _, h7, _⟩ := unload_ok s q (fun _ => hup)
    refine ⟨s', by simp [runOp, h], ?_, h2⟩
    rw [h7, if_neg hid]
  | multiWrite q a v =>
    have hq : q = r := hop
    subst hq
    obtain ⟨_, _, _, h4⟩ := multiWrite_frame tbl s q a v
    exact ⟨_, rfl, by rw [Session.phase_def, h4 hid]; rfl, by rw [h4 hid]⟩
  | normalWrite q a v =>
    have hq : q = r := hop
    subst hq
    obtain ⟨_, _, _, h4⟩ := normalWrite_frame freq s q a v
    exact ⟨_, rfl, by rw [Session.phase_def, h4 hid]; rfl, by rw [h4 hid]⟩
  | slaveUpdate q u =>
    have hq : q = r := hop
    subst hq
    obtain ⟨s', h⟩ := slaveUpdate_ok s q u (fun _ => hup)
    obtain ⟨_, h2, h3, _⟩ := slaveUpdate_effect s s' q u 0 h
    exact ⟨s', by simp [runOp, h], h2, by rw [h3]⟩
  | finishTransfer q =>
    have hq : q = r := hop
    subst hq
    obtain ⟨s', h⟩ := finishTransfer_ok s q (fun _ => hup)
    obtain ⟨h1, _⟩ := finishTransfer_frame s s' q h
    exact ⟨s', h, by rw [Session.phase_def, h1]; rfl, by rw [h1]⟩

/-- Witness for claim C16: the update of the slave of the two-player scenario. -/
theorem C16_slave_ops_keep_phase_witness :
    ∃ s', runOp sampleCyclesPerTransfer sampleFrequency twoPlayerSession (.slaveUpdate 1 0) = .ok s' ∧
      s'.phase = twoPlayerSession.phase ∧
      s'.lockstep.d.transferCycles = twoPlayerSession.lockstep.d.transferCycles :=
  C16_slave_ops_keep_phase sampleCyclesPerTransfer sampleFrequency twoPlayerSession 1
    (.slaveUpdate 1 0) (by decide) (by decide) rfl

/-! ## The counters and the event of a node across an update -/

/-- The `switch` of the master update leaves `eventDiff` and the event of the
node as they are. -/
theorem masterPhaseStep_counters (s s1 : Session) (r : NodeRef) (b : Bool)
    (h : masterPhaseStep s r = .ok (b, s1)) :
    (s1.nodes r).eventDiff = (s.nodes r).eventDiff ∧ (s1.nodes r).event = (s.nodes r).event := by
  unfold masterPhaseStep at h
  cases hph : s.lockstep.d.transferActive
  · simp only [hph, Except.ok.injEq, Prod.mk.injEq] at h
    obtain ⟨_, hs⟩ := h
    subst hs
    simp
  · simp only [hph, Except.ok.injEq, Prod.mk.injEq] at h
    obtain ⟨_, hs⟩ := h
    subst hs
    simp
  · simp only [hph, Except.ok.injEq, Prod.mk.injEq] at h
    obtain ⟨_, hs⟩ := h
    subst hs
    simp
  · simp only [hph, Except.ok.injEq, Prod.mk.injEq] at h
    obtain ⟨_, hs⟩ := h
    subst hs
    simp
  · simp only [hph] at h
    cases hf : _finishTransfer s r with
    | error e => simp [hf] at h
    | ok s2 =>
      simp only [hf, Except.ok.injEq, Prod.mk.injEq] at h
      obtain ⟨_, hs⟩ := h
      subst hs
      obtain ⟨_, _, _, e⟩ := finishTransfer_frame s s2 r hf
      simp [e.2.2.2.1, e.2.2.2.2.1]

/-- The master update leaves `eventDiff` and the event of the node as they
are. -/
theorem masterUpdate_counters (s s' : Session) (r : NodeRef) (w : Bool) (c : Int)
    (h : _masterUpdate s r w = .ok (c, s')) :
    (s'.nodes r).eventDiff = (s.nodes r).eventDiff ∧ (s'.nodes r).event = (s.nodes r).event := by
  obtain ⟨b, s1, hstep, _, hn⟩ := masterUpdate_decomp s r w c s' h
  rw [hn]
  exact masterPhaseStep_counters s s1 r b hstep

theorem or_shift_ne_zero (mask i : Nat) : mask ||| (1 <<< i) ≠ 0 := by
  intro h
  have h1 : (mask ||| (1 <<< i)).testBit i = true := by
    rw [Nat.testBit_or, Nat.one_shiftLeft, Nat.testBit_two_pow_self]
    simp
  rw [h] at h1
  simp at h1

/-- The mask collected by the loop of `_masterUpdate` is not empty exactly
when it was not empty before or one of the visited roster slots holds a node
of the given mode. -/
theorem slaveMaskLoop_ne_zero (s : Session) (mode : GBASIOMode) :
    ∀ (l : List Nat) (mask m : Nat), slaveMaskLoop s mode l mask = .ok m →
      (m ≠ 0 ↔ mask ≠ 0 ∨ ∃ i q, i ∈ l ∧ s.lockstep.players i = some q ∧ (s.nodes q).mode = mode) := by
  intro l
  induction l with
  | nil =>
    intro mask m h
    simp only [slaveMaskLoop, Except.ok.injEq] at h
    subst h
    simp
  | cons i is ih =>
    intro mask m h
    unfold slaveMaskLoop at h
    cases hp : s.lockstep.players i with
    | none => simp [hp] at h
    | some q =>
      simp only [hp] at h
      rw [ih _ m h]
      by_cases hm : (s.nodes q).mode = mode
      · simp only [hm, if_true]
        constructor
        · intro _
          exact Or.inr ⟨i, q, List.mem_cons_self i is, hp, hm⟩
        · intro _
          exact Or.inl (or_shift_ne_zero mask i)
      · simp only [hm, if_false]
        constructor
        · rintro (h1 | ⟨j, q2, hj, hp2, hm2⟩)
          · exact Or.inl h1
          · exact Or.inr ⟨j, q2, List.mem_cons_of_mem i hj, hp2, hm2⟩
        · rintro (h1 | ⟨j, q2, hj, hp2, hm2⟩)
          · exact Or.inl h1
          · rcases List.mem_cons.mp hj with hji | hji
            · subst hji
              rw [hp] at hp2
              cases hp2
              exact absurd hm2 hm
            · exact Or.inr ⟨j, q2, hji, hp2, hm2⟩

theorem slaveMask_ne_zero (s : Session) (r : NodeRef) (m : Nat) (h : slaveMask s r = .ok m) :
    m ≠ 0 ↔ SlaveInMode s r := by
  unfold slaveMask at h
  rw [slaveMaskLoop_ne_zero s _ _ 0 m h]
  unfold SlaveInMode
  constructor
  · rintro (h0 | ⟨i, q, hi, hp, hm⟩)
    · exact absurd rfl h0
    · rw [List.mem_range'_1] at hi
      exact ⟨i, q, hi.1, by omega, hp, hm⟩
  · rintro ⟨i, q, h1, h2, hp, hm⟩
    exact Or.inr ⟨i, q, by rw [List.mem_range'_1]; omega, hp, hm⟩

/-- The outcome of the master update in terms of the mask found after the
`switch`. -/
theorem masterUpdate_outcome (s : Session) (r : NodeRef) (w : Bool)
    (hid : (s.nodes r).id = 0) (hp : SlavesPresent s) :
    ∃ s1 m, masterPhaseStep s r = .ok (masterWaits s.phase, s1) ∧ slaveMask s1 r = .ok m ∧
      (m ≠ 0 ↔ SlaveInMode s r) ∧ s1.calls = s.calls ∧
      _masterUpdate s r w =
        (if m ≠ 0 then
          (if masterWaits s.phase = true then
            (if w = true then
              .ok (0, (s1.call (.wait m)).call (.addCycles 0 (s1.nodes r).eventDiff))
            else .error .abort)
          else .ok ((s1.nodes r).nextEvent,
            (s1.call (.signal m)).call (.addCycles 0 (s1.nodes r).eventDiff)))
        else
          .ok (if masterWaits s.phase = true then 0 else (s1.nodes r).nextEvent,
            s1.call (.addCycles 0 (s1.nodes r).eventDiff))) := by
  obtain ⟨s1, h1, _, _, hpl, hat, _, _⟩ := masterPhaseStep_master s r hid
  obtain ⟨_, _, _, hcalls, _, _, _, hmodes⟩ := masterPhaseStep_effect s s1 r _ h1
  have hp1 : SlavesPresent s1 := by
    intro i hi1 hi2
    rw [hpl]; rw [hat] at hi2
    exact hp i hi1 hi2
  obtain ⟨m, hm⟩ := slaveMask_ok s1 r hp1
  have hiff : m ≠ 0 ↔ SlaveInMode s r := by
    rw [slaveMask_ne_zero s1 r m hm]
    unfold SlaveInMode
    simp only [hpl, hat, (hmodes _).1]
  refine ⟨s1, m, h1, hm, hiff, hcalls, ?_⟩
  unfold _masterUpdate
  simp only [h1, hm]
  by_cases hm0 : m = 0
  · by_cases hwait : masterWaits s.phase = true <;> simp [hm0, hwait]
  · by_cases hwait : masterWaits s.phase = true
    · by_cases hw : w = true <;> simp [hm0, hwait, hw]
    · simp [hm0, hwait]

theorem waitCalls_append (a b : List HostCall) : waitCalls (a ++ b) = waitCalls a ++ waitCalls b := by
  unfold waitCalls
  rw [List.filter_append]

theorem masterWaits_iff (ph : mLockstepPhase) :
    masterWaits ph = true ↔ (ph = .TRANSFER_STARTING ∨ ph = .TRANSFER_FINISHING) := by
  cases ph <;> simp [masterWaits]

/-- Claim C19: with the host bridge's `wait` result as the input `w`, the
update of the master (id 0, the slaves' roster slots holding nodes, `eventDiff`
not negative on entry) aborts if and only if the phase on entry is STARTING or
FINISHING, at least one attached slave has the serial mode of the master (the
mask is not empty) and `wait` returns false; in every other case it returns
normally; when the phase on entry is IDLE, STARTED or FINISHED the log of the
host bridge gains no call of `wait`, and when the phase on entry is STARTING
or FINISHING and the mask is not empty it gains exactly one.  An update that
returns ends with the call `addCycles(0, eventDiff)`, `eventDiff` being the
value on entry: the hypothesis on `eventDiff` says that this amount is not
negative, the host bridge of the Qt front end aborting on a negative amount
(`addCycles`), which the update, recording the call, does not follow. -/
theorem C19_master_update_abort (s : Session) (r : NodeRef) (w : Bool)
    (hid : (s.nodes r).id = 0) (hp : SlavesPresent s) (hed : 0 ≤ (s.nodes r).eventDiff) :
    (_masterUpdate s r w = .error .abort ↔
      ((s.phase = .TRANSFER_STARTING ∨ s.phase = .TRANSFER_FINISHING) ∧ SlaveInMode s r ∧
        w = false)) ∧
    (¬ ((s.phase = .TRANSFER_STARTING ∨ s.phase = .TRANSFER_FINISHING) ∧ SlaveInMode s r ∧
        w = false) →
      ∃ c s', _masterUpdate s r w = .ok (c, s') ∧
        (¬ (s.phase = .TRANSFER_STARTING ∨ s.phase = .TRANSFER_FINISHING) →
          waitCalls s'.calls = waitCalls s.calls) ∧
        ((s.phase = .TRANSFER_STARTING ∨ s.phase = .TRANSFER_FINISHING) → SlaveInMode s r →
          ∃ m, m ≠ 0 ∧ waitCalls s'.calls = waitCalls s.calls ++ [.wait m]) ∧
        (∃ pre d, s'.calls = pre ++ [.addCycles 0 d] ∧ d = (s.nodes r).eventDiff ∧ 0 ≤ d)) := by
  obtain ⟨s1, m, hstep, _, hiff, hcalls, hmu⟩ := masterUpdate_outcome s r w hid hp
  have hed1 : (s1.nodes r).eventDiff = (s.nodes r).eventDiff :=
    (masterPhaseStep_counters s s1 r _ hstep).1
  have hed2 : 0 ≤ (s1.nodes r).eventDiff := by rw [hed1]; exact hed
  rw [← masterWaits_iff, ← hiff, hmu]
  by_cases hm0 : m = 0
  · simp only [hm0, ne_eq, not_true_eq_false, if_false, false_and, and_false, iff_false,
      not_false_eq_true, true_implies]
    refine ⟨by simp, _, _, rfl, ?_, ?_, ⟨_, _, rfl, hed1, hed2⟩⟩
    · intro _
      simp [waitCalls_append, hcalls, waitCalls]
    · intro _ h; exact absurd h (by simp)
  · by_cases hwait : masterWaits s.phase = true
    · by_cases hw : w = true
      · simp only [hm0, hwait, hw, ne_eq, not_false_eq_true, if_true]
        refine ⟨by simp, fun _ => ⟨_, _, rfl, ?_, ?_, ⟨_, _, rfl, hed1, hed2⟩⟩⟩
        · intro h; exact absurd trivial h
        · intro _ _
          exact ⟨m, hm0, by simp [waitCalls_append, hcalls, waitCalls]⟩
      · have hw' : w = false := by simpa using hw
        simp only [hm0, hwait, hw', ne_eq, not_false_eq_true, if_true, Bool.false_eq_true, if_false]
        exact ⟨by simp, fun h => absurd ⟨trivial, trivial, trivial⟩ h⟩
    · simp only [hm0, hwait, ne_eq, not_false_eq_true, if_true, if_false]
      refine ⟨by simp, fun _ => ⟨_, _, rfl, ?_, ?_, ⟨_, _, rfl, hed1, hed2⟩⟩⟩
      · intro _
        simp [waitCalls_append, hcalls, waitCalls]
      · intro h; exact absurd h (by simp)

/-- Witness for claim C19: the master of the two-player scenario in phase
FINISHING, with a `wait` that fails. -/
theorem C19_master_update_abort_witness :
    _masterUpdate finishingSession 0 false = .error .abort :=
  (C19_master_update_abort finishingSession 0 false (by decide)
    (by intro i h1 h2
        have hi : i = 1 := by
          have : finishingSession.lockstep.d.attached = 2 := rfl
          omega
        subst hi; rfl)
    (by decide)).1.mpr
    ⟨Or.inr rfl, ⟨1, 1, by decide, by decide, rfl, rfl⟩, rfl⟩

/-! ## The table of the master update -/

/-- A master update that returns ends with the call `addCycles(0, eventDiff)`
of the host bridge, `eventDiff` being the value on entry. -/
theorem masterUpdate_lastCall (s s' : Session) (r : NodeRef) (w : Bool) (c : Int)
    (hid : (s.nodes r).id = 0) (hp : SlavesPresent s) (h : _masterUpdate s r w = .ok (c, s')) :
    ∃ pre, s'.calls = pre ++ [.addCycles 0 (s.nodes r).eventDiff] := by
  obtain ⟨s1, m, hstep, _, _, _, hmu⟩ := masterUpdate_outcome s r w hid hp
  have hed1 : (s1.nodes r).eventDiff = (s.nodes r).eventDiff :=
    (masterPhaseStep_counters s s1 r _ hstep).1
  rw [hmu] at h
  rw [← hed1]
  by_cases hm0 : m = 0
  · simp only [hm0, ne_eq, not_true_eq_false, if_false, Except.ok.injEq, Prod.mk.injEq] at h
    obtain ⟨_, h⟩ := h
    subst h
    exact ⟨_, rfl⟩
  · by_cases hwait : masterWaits s.phase = true
    · by_cases hw : w = true
      · simp only [hm0, hwait, hw, ne_eq, not_false_eq_true, if_true, Except.ok.injEq,
          Prod.mk.injEq] at h
        obtain ⟨_, h⟩ := h
        subst h
        exact ⟨_, rfl⟩
      · simp [hm0, hwait, hw] at h
    · simp only [hm0, hwait, ne_eq, not_false_eq_true, if_true, if_false, Bool.false_eq_true,
        Except.ok.injEq, Prod.mk.injEq] at h
      obtain ⟨_, h⟩ := h
      subst h
      exact ⟨_, rfl⟩

/-- Claim C6: one update of the master (id 0, the slaves' roster slots
holding nodes, `eventDiff` not negative on entry, a `wait` that is invoked
returning true) returns normally; it maps the phase IDLE to IDLE, STARTING to
STARTED, STARTED to FINISHING, FINISHING to FINISHED and FINISHED to IDLE, adds
2000, 512, 512, transferCycles - 1024 and 2000 to `nextEvent`, and returns 0
when the phase on entry was STARTING or FINISHING and the updated `nextEvent`
otherwise.  Consequently three updates from STARTING reach FINISHED and add
exactly `transferCycles` to `nextEvent`.  The update ends with the call
`addCycles(0, eventDiff)` and leaves `eventDiff` as it is: the hypothesis on
`eventDiff` says that the amount of that call is not negative in each of the
updates, the host bridge of the Qt front end aborting on a negative amount
(`addCycles`), which the update, recording the call, does not follow. -/
theorem C6_master_update_table (s : Session) (r : NodeRef) (w : Bool)
    (hid : (s.nodes r).id = 0) (hp : SlavesPresent s) (hed : 0 ≤ (s.nodes r).eventDiff)
    (hw : masterWaits s.phase = true → w = true) :
    (∃ s', _masterUpdate s r w
        = .ok (if masterWaits s.phase then 0 else (s'.nodes r).nextEvent, s') ∧
      s'.phase = masterNextPhase s.phase ∧
      (s'.nodes r).nextEvent =
        (s.nodes r).nextEvent + masterAdvance s.lockstep.d.transferCycles s.phase ∧
      (∃ pre d, s'.calls = pre ++ [.addCycles 0 d] ∧ d = (s.nodes r).eventDiff ∧ 0 ≤ d)) ∧
    (s.phase = .TRANSFER_STARTING →
      ∃ c1 s1 c2 s2 c3 s3, _masterUpdate s r true = .ok (c1, s1) ∧
        _masterUpdate s1 r true = .ok (c2, s2) ∧ _masterUpdate s2 r true = .ok (c3, s3) ∧
        s3.phase = .TRANSFER_FINISHED ∧
        (s3.nodes r).nextEvent = (s.nodes r).nextEvent + s.lockstep.d.transferCycles ∧
        0 ≤ (s1.nodes r).eventDiff ∧ 0 ≤ (s2.nodes r).eventDiff) := by
  constructor
  · obtain ⟨s', h, a, b, _⟩ := masterUpdate_ok s r w hid hp hw
    obtain ⟨pre, hpre⟩ := masterUpdate_lastCall s s' r w _ hid hp h
    exact ⟨s', h, a, b, pre, _, hpre, rfl, hed⟩
  · intro hst
    obtain ⟨s1, h1, a1, b1, c1, d1, e1⟩ := masterUpdate_ok s r true hid hp (fun _ => rfl)
    obtain ⟨s2, h2, a2, b2, c2, d2, e2⟩ := masterUpdate_ok s1 r true d1 e1 (fun _ => rfl)
    obtain ⟨s3, h3, a3, b3, c3, d3, e3⟩ := masterUpdate_ok s2 r true d2 e2 (fun _ => rfl)
    have k1 := (masterUpdate_counters s s1 r true _ h1).1
    have k2 := (masterUpdate_counters s1 s2 r true _ h2).1
    refine ⟨_, s1, _, s2, _, s3, h1, h2, h3, ?_, ?_, by rw [k1]; exact hed,
      by rw [k2, k1]; exact hed⟩
    · rw [a3, a2, a1, hst]; rfl
    · rw [b3, b2, b1, a2, a1, hst, c2, c1]
      simp only [masterAdvance, masterNextPhase, nextPhase]
      ring

/-- Witness for claim C6: the master update of the two-player scenario at
IDLE. -/
theorem C6_master_update_table_witness :
    ∃ s', _masterUpdate twoPlayerSession 0 true
        = .ok (if masterWaits twoPlayerSession.phase then 0 else (s'.nodes 0).nextEvent, s') ∧
      s'.phase = masterNextPhase twoPlayerSession.phase ∧
      (s'.nodes 0).nextEvent = (twoPlayerSession.nodes 0).nextEvent
        + masterAdvance twoPlayerSession.lockstep.d.transferCycles twoPlayerSession.phase ∧
      (∃ pre d, s'.calls = pre ++ [.addCycles 0 d] ∧ d = (twoPlayerSession.nodes 0).eventDiff ∧
        0 ≤ d) :=
  (C6_master_update_table twoPlayerSession 0 true (by decide) twoPlayerSession_slaves
    (by decide) (by decide)).1

/-! ## Effects of attach, detach, unload and the event callback -/

/-- The effect of attach. -/
theorem attach_effect (s : Session) (r : NodeRef) :
    (GBASIOLockstepAttachNode s r).2.phase = s.phase ∧
    (GBASIOLockstepAttachNode s r).2.lockstep.d.transferCycles = s.lockstep.d.transferCycles ∧
    (GBASIOLockstepAttachNode s r).2.lockstep.multiRecv = s.lockstep.multiRecv ∧
    (GBASIOLockstepAttachNode s r).2.lockstep.attachedMulti = s.lockstep.attachedMulti ∧
    (∀ q, ((GBASIOLockstepAttachNode s r).2.nodes q).d.mode = (s.nodes q).d.mode) ∧
    s.lockstep.d.attached ≤ (GBASIOLockstepAttachNode s r).2.lockstep.d.attached ∧
    (∀ i, i < s.lockstep.d.attached →
      (GBASIOLockstepAttachNode s r).2.lockstep.players i = s.lockstep.players i) := by
  unfold GBASIOLockstepAttachNode
  by_cases h : s.lockstep.d.attached = MAX_GBAS
  · simp [h]
  · simp only [h, if_false]
    refine ⟨rfl, rfl, rfl, rfl, ?_, by simp, ?_⟩
    · intro q
      by_cases hq : q = r
      · subst hq; simp
      · simp [hq]
    · intro i hi
      have : i ≠ s.lockstep.d.attached := by omega
      simp [this]

/-- The effect of one iteration of the inner loop of detach on the shared
object. -/
theorem detachShift_effect (s s' : Session) (i : Nat) (h : detachShift s i = .ok s') :
    s'.lockstep.d = s.lockstep.d ∧
    s'.lockstep.players = upd s.lockstep.players (i - 1) (s.lockstep.players i) ∧
    s'.lockstep.multiRecv = s.lockstep.multiRecv ∧
    s'.lockstep.attachedMulti = s.lockstep.attachedMulti ∧
    (∀ q, (s'.nodes q).d.mode = (s.nodes q).d.mode) := by
  unfold detachShift at h
  simp only at h
  split at h
  · cases h
  · rename_i q hq
    cases h
    refine ⟨rfl, rfl, rfl, rfl, ?_⟩
    intro p
    by_cases hp : p = q
    · subst hp; simp
    · simp [hp]

/-- The effect of the inner loop of detach on the shared object: the slots
`j - 1 .. j + n - 2` receive the contents of their right neighbours. -/
theorem detachShiftLoop_effect : ∀ (n j : Nat) (s s' : Session), 1 ≤ j →
    detachShiftLoop s (List.range' j n) = .ok s' →
    s'.lockstep.d = s.lockstep.d ∧
    (∀ i, s'.lockstep.players i =
      if j ≤ i + 1 ∧ i + 1 < j + n then s.lockstep.players (i + 1) else s.lockstep.players i) ∧
    s'.lockstep.multiRecv = s.lockstep.multiRecv ∧
    s'.lockstep.attachedMulti = s.lockstep.attachedMulti ∧
    (∀ q, (s'.nodes q).d.mode = (s.nodes q).d.mode) := by
  intro n
  induction n with
  | zero =>
    intro j s s' _ h
    simp only [List.range'_zero, detachShiftLoop, Except.ok.injEq] at h
    subst h
    refine ⟨rfl, ?_, rfl, rfl, fun _ => rfl⟩
    intro i
    rw [if_neg (by omega)]
  | succ n ih =>
    intro j s s' hj h
    rw [List.range'_succ] at h
    unfold detachShiftLoop at h
    cases h1 : detachShift s j with
    | error e => simp [h1] at h
    | ok s1 =>
      simp only [h1] at h
      obtain ⟨a1, a2, a3, a4, a5⟩ := detachShift_effect s s1 j h1
      obtain ⟨b1, b2, b3, b4, b5⟩ := ih (j + 1) s1 s' (by omega) h
      refine ⟨b1.trans a1, ?_, b3.trans a3, b4.trans a4, fun q => (b5 q).trans (a5 q)⟩
      intro i
      rw [b2 i, a2]
      by_cases hc : j + 1 ≤ i + 1 ∧ i + 1 < j + 1 + n
      · rw [if_pos hc, if_pos (by omega)]
        simp only [upd_apply]
        rw [if_neg (by omega)]
      · rw [if_neg hc]
        simp only [upd_apply]
        by_cases hi : i = j - 1
        · rw [if_pos hi, if_pos (by omega)]
          congr 1
          omega
        · rw [if_neg hi, if_neg (by omega)]

/-- The effect of detach, whenever it returns: either nothing changes, or
the first roster slot `k` that holds the node is removed and the slots to its
right move down by one. -/
theorem detach_effect (s s' : Session) (r : NodeRef) (h : GBASIOLockstepDetachNode s r = .ok s') :
    s'.phase = s.phase ∧
    s'.lockstep.d.transferCycles = s.lockstep.d.transferCycles ∧
    s'.lockstep.multiRecv = s.lockstep.multiRecv ∧
    s'.lockstep.attachedMulti = s.lockstep.attachedMulti ∧
    (∀ q, (s'.nodes q).d.mode = (s.nodes q).d.mode) ∧
    ((s'.lockstep.d.attached = s.lockstep.d.attached ∧ s'.lockstep.players = s.lockstep.players) ∨
      (∃ k, k < s.lockstep.d.attached ∧ s.lockstep.players k = some r ∧
        s'.lockstep.d.attached = s.lockstep.d.attached - 1 ∧
        ∀ i, s'.lockstep.players i =
          if k ≤ i ∧ i + 1 < s.lockstep.d.attached then s.lockstep.players (i + 1)
          else s.lockstep.players i)) := by
  unfold GBASIOLockstepDetachNode at h
  by_cases h0 : s.lockstep.d.attached = 0
  · rw [if_pos h0] at h
    cases h
    exact ⟨rfl, rfl, rfl, rfl, fun _ => rfl, Or.inl ⟨rfl, rfl⟩⟩
  · rw [if_neg h0] at h
    cases hf : (List.range s.lockstep.d.attached).find? (fun i => decide (s.lockstep.players i = some r)) with
    | none =>
      simp only [hf] at h
      cases h
      exact ⟨rfl, rfl, rfl, rfl, fun _ => rfl, Or.inl ⟨rfl, rfl⟩⟩
    | some k =>
      simp only [hf] at h
      have hk1 : k ∈ List.range s.lockstep.d.attached := List.mem_of_find?_eq_some hf
      have hk2 := List.find?_some hf
      rw [List.mem_range] at hk1
      simp only [decide_eq_true_eq] at hk2
      cases hl : detachShiftLoop s (List.range' (k + 1) (s.lockstep.d.attached - (k + 1))) with
      | error e => simp [hl] at h
      | ok s1 =>
        simp only [hl, Except.ok.injEq] at h
        subst h
        obtain ⟨b1, b2, b3, b4, b5⟩ := detachShiftLoop_effect _ _ s s1 (by omega) hl
        refine ⟨?_, ?_, b3, b4, b5, Or.inr ⟨k, hk1, hk2, ?_, ?_⟩⟩
        · simp [Session.phase_def, b1]
        · simp [b1]
        · simp [b1]
        · intro i
          simp only [b2 i]
          by_cases hc : k ≤ i ∧ i + 1 < s.lockstep.d.attached
          · rw [if_pos hc, if_pos (by omega)]
          · rw [if_neg hc, if_neg (by omega)]

/-- The effect of unload on the shared object, whenever it returns. -/
theorem unload_effect (s s' : Session) (r : NodeRef) (b : Bool)
    (h : GBASIOLockstepNodeUnload s r = .ok (b, s')) :
    s'.lockstep.d.attached = s.lockstep.d.attached ∧
    s'.lockstep.d.transferCycles = s.lockstep.d.transferCycles ∧
    s'.lockstep.players = s.lockstep.players ∧
    s'.lockstep.attachedMulti =
      (if (s.nodes r).d.mode = .SIO_MULTI then s.lockstep.attachedMulti - 1
        else s.lockstep.attachedMulti) ∧
    s'.phase = (if (s.nodes r).id = 0 then .TRANSFER_IDLE else s.phase) ∧
    (∀ q, (s'.nodes q).d.mode = (s.nodes q).d.mode) := by
  obtain ⟨p1, p2, _, p4, _, p6, p7, _, p9, _⟩ := unloadPrepare_spec s r
  unfold GBASIOLockstepNodeUnload at h
  cases h1 : _finishTransfer (unloadPrepare s r) r with
  | error e => simp [h1] at h
  | ok s1 =>
    simp only [h1, Except.ok.injEq, Prod.mk.injEq] at h
    obtain ⟨_, hs⟩ := h
    obtain ⟨f1, _, f3, f4⟩ := finishTransfer_frame _ s1 r h1
    obtain ⟨g1, _, _, _, _, _, _, g8, _, _⟩ := f4
    have hmodes : ∀ q, (s1.nodes q).d.mode = (s.nodes q).d.mode := by
      intro q
      by_cases hq : q = r
      · subst hq; rw [g8, p9]
      · rw [f3 q hq, p6 q hq]
    have hid1 : (s1.nodes r).id = (s.nodes r).id := by rw [g1, p7]
    rw [hid1] at hs
    by_cases hid : (s.nodes r).id = 0
    · rw [if_pos hid] at hs
      subst hs
      refine ⟨by simp [f1, p1], by simp [f1, p1], by simp [f1, p2], by simp [f1, p4], by simp [hid], ?_⟩
      simpa using hmodes
    · rw [if_neg hid] at hs
      subst hs
      exact ⟨by simp [f1, p1], by simp [f1, p1], by simp [f1, p2], by simp [f1, p4],
        by simp [hid, Session.phase_def, f1, p1], hmodes⟩

theorem processReschedule_frame (s : Session) (r : NodeRef) (c : Int) :
    (processReschedule s r c).lockstep = s.lockstep ∧
    ∀ q, ((processReschedule s r c).nodes q).d.mode = (s.nodes q).d.mode := by
  unfold processReschedule
  by_cases hc : c > 0
  · simp only [hc, if_true]
    refine ⟨rfl, ?_⟩
    intro q
    by_cases hq : q = r
    · subst hq; simp [mTimingSchedule, mTimingDeschedule]
    · simp [hq]
  · simp only [hc, if_false]
    refine ⟨rfl, ?_⟩
    intro q
    by_cases hq : q = r
    · subst hq; simp [mTimingSchedule]
    · simp [hq]

/-- A change of the session that keeps the shared object and the serial mode
of every console. -/
theorem rosterFrame_of_lockstep (s s' : Session) (hl : s'.lockstep = s.lockstep)
    (hm : ∀ q, (s'.nodes q).d.mode = (s.nodes q).d.mode) : RosterFrame s s' :=
  ⟨by rw [hl], by rw [hl], by rw [hl], hm⟩

/-- The two assignments that open the event callback, seen at the node: the
counters wrap around, everything else is as it was. -/
theorem callbackEntry_node (s : Session) (r : NodeRef) (late : Nat) :
    ((callbackEntry s r late).nodes r).nextEvent =
      wrapInt32 ((s.nodes r).nextEvent - ((late % 4294967296 : Nat) : Int)) ∧
    ((callbackEntry s r late).nodes r).eventDiff =
      wrapInt32 ((s.nodes r).eventDiff + ((late % 4294967296 : Nat) : Int)) ∧
    ((callbackEntry s r late).nodes r).id = (s.nodes r).id ∧
    (callbackEntry s r late).lockstep = s.lockstep ∧
    (callbackEntry s r late).calls = s.calls ∧
    (∀ q, ((callbackEntry s r late).nodes q).mode = (s.nodes q).mode) ∧
    (∀ q, ((callbackEntry s r late).nodes q).d = (s.nodes q).d) ∧
    ((callbackEntry s r late).nodes r).event = (s.nodes r).event := by
  unfold callbackEntry
  refine ⟨by simp, by simp, by simp, rfl, rfl, ?_, ?_, by simp⟩
  · intro q
    by_cases hq : q = r
    · subst hq; simp
    · simp [hq]
  · intro q
    by_cases hq : q = r
    · subst hq; simp
    · simp [hq]

/-- The effect of the event callback, whenever it returns. -/
theorem processEvents_effect (s s' : Session) (r : NodeRef) (late : Nat) (w : Bool)
    (u used : Int) (h : _GBASIOLockstepNodeProcessEvents s r late w u used = .ok s') :
    RosterFrame s s' ∧
    s'.lockstep.d.transferCycles = s.lockstep.d.transferCycles ∧
    s'.phase =
      (if 2 ≤ s.lockstep.d.attached ∧ ((callbackEntry s r late).nodes r).nextEvent ≤ 0 ∧
          (s.nodes r).id = 0
        then masterNextPhase s.phase else s.phase) ∧
    (¬ (2 ≤ s.lockstep.d.attached ∧ ((callbackEntry s r late).nodes r).nextEvent ≤ 0 ∧
        (s.nodes r).id = 0 ∧ s.phase = .TRANSFER_STARTING) →
      s'.lockstep.multiRecv =
        (if 2 ≤ s.lockstep.d.attached ∧ ((callbackEntry s r late).nodes r).nextEvent ≤ 0 ∧
            (s.nodes r).id ≠ 0 ∧ s.phase = .TRANSFER_STARTED ∧
            ¬ u > ((callbackEntry s r late).nodes r).eventDiff
          then upd s.lockstep.multiRecv (s.nodes r).id (slaveStored s r)
          else s.lockstep.multiRecv)) := by
  unfold _GBASIOLockstepNodeProcessEvents at h
  by_cases hat : s.lockstep.d.attached < 2
  · rw [if_pos hat] at h
    cases h
    have hat' : ¬ 2 ≤ s.lockstep.d.attached := by omega
    exact ⟨rosterFrame_refl s, rfl, by simp [hat'], fun _ => by simp [hat']⟩
  · rw [if_neg hat] at h
    have hat' : 2 ≤ s.lockstep.d.attached := by omega
    obtain ⟨_, _, hid1, hl1, _, hmo1, hd1, _⟩ := callbackEntry_node s r late
    have hst1 : slaveStored (callbackEntry s r late) r = slaveStored s r := by
      simp [slaveStored, Session.getIo, hd1 r, hmo1 r]
    generalize callbackEntry s r late = s1 at h hid1 hl1 hmo1 hd1 hst1 ⊢
    simp only [] at h
    have hm1 : ∀ q, (s1.nodes q).d.mode = (s.nodes q).d.mode := fun q => by rw [hd1 q]
    have hph1 : s1.phase = s.phase := by rw [Session.phase_def, hl1]; rfl
    have hrf1 : RosterFrame s s1 := rosterFrame_of_lockstep s s1 hl1 hm1
    by_cases hne : (s1.nodes r).nextEvent ≤ 0
    · rw [if_pos hne] at h
      unfold processUpdate at h
      by_cases hid : (s1.nodes r).id = 0
      · have hid' : (s.nodes r).id = 0 := by rw [← hid1]; exact hid
        simp only [hid, if_true] at h
        cases hmu : _masterUpdate s1 r w with
        | error e => simp [hmu] at h
        | ok res =>
          obtain ⟨c, s2⟩ := res
          simp only [hmu, Except.ok.injEq] at h
          subst h
          obtain ⟨a1, a2, a3, a4, _, _⟩ := masterUpdate_effect s1 s2 r w c hmu
          obtain ⟨p1, p2⟩ := processReschedule_frame (s2.modNode r (fun n => { n with eventDiff := 0 })) r c
          have hm2 : ∀ q, ((s2.modNode r (fun n => { n with eventDiff := 0 })).nodes q).d.mode = (s2.nodes q).d.mode := by
            intro q
            by_cases hq : q = r
            · subst hq; simp
            · simp [hq]
          have hrf : RosterFrame s2 (processReschedule (s2.modNode r (fun n => { n with eventDiff := 0 })) r c) :=
            rosterFrame_of_lockstep _ _ (by rw [p1]; rfl) (fun q => (p2 q).trans (hm2 q))
          refine ⟨rosterFrame_trans _ _ _ hrf1 (rosterFrame_trans _ _ _ a2 hrf), ?_, ?_, ?_⟩
          · rw [p1]; simp only [Session.modNode_lockstep]; rw [a3, hl1]
          · rw [Session.phase_def, p1]
            simp only [Session.modNode_lockstep]
            rw [← Session.phase_def, a1, hph1]
            simp [hat', hne, hid']
          · intro hnr
            have hns : s1.phase ≠ .TRANSFER_STARTING := by
              rw [hph1]; intro hc; exact hnr ⟨hat', hne, hid', hc⟩
            rw [p1]; simp only [Session.modNode_lockstep]
            rw [a4 hns, hl1]
            simp [hid']
      · have hid' : (s.nodes r).id ≠ 0 := by rw [← hid1]; exact hid
        simp only [hid, if_false] at h
        cases hsu : _slaveUpdate s1 r u with
        | error e => simp [hsu] at h
        | ok res =>
          obtain ⟨c, s2⟩ := res
          simp only [hsu, Except.ok.injEq] at h
          subst h
          obtain ⟨_, a2, a3, a4, a5, _⟩ := slaveUpdate_effect s1 s2 r u c hsu
          obtain ⟨p1, p2⟩ := processReschedule_frame ((s2.call (.useCycles (s2.nodes r).id (s2.nodes r).eventDiff)).modNode r (fun n => { n with eventDiff := 0 })) r (c + used)
          have hm2 : ∀ q, (((s2.call (.useCycles (s2.nodes r).id (s2.nodes r).eventDiff)).modNode r (fun n => { n with eventDiff := 0 })).nodes q).d.mode = (s2.nodes q).d.mode := by
            intro q
            by_cases hq : q = r
            · subst hq; simp
            · simp [hq]
          have hrf : RosterFrame s2 (processReschedule ((s2.call (.useCycles (s2.nodes r).id (s2.nodes r).eventDiff)).modNode r (fun n => { n with eventDiff := 0 })) r (c + used)) :=
            rosterFrame_of_lockstep _ _ (by rw [p1]; rfl) (fun q => (p2 q).trans (hm2 q))
          refine ⟨rosterFrame_trans _ _ _ hrf1 (rosterFrame_trans _ _ _ a4 hrf), ?_, ?_, ?_⟩
          · rw [p1]; simp only [Session.modNode_lockstep, Session.call_lockstep]; rw [a3, hl1]
          · rw [Session.phase_def, p1]
            simp only [Session.modNode_lockstep, Session.call_lockstep]
            rw [← Session.phase_def, a2, hph1]
            simp [hid']
          · intro _
            rw [p1]; simp only [Session.modNode_lockstep, Session.call_lockstep]
            rw [a5, hph1, hl1, hid1, hst1]
            simp [hat', hne, hid']
    · rw [if_neg hne] at h
      simp only [Except.ok.injEq] at h
      subst h
      obtain ⟨p1, p2⟩ := processReschedule_frame s1 r (s1.nodes r).nextEvent
      refine ⟨rosterFrame_trans _ _ _ hrf1 (rosterFrame_of_lockstep _ _ p1 p2), ?_, ?_, ?_⟩
      · rw [p1, hl1]
      · rw [Session.phase_def, p1, hl1]; simp [hne, Session.phase_def]
      · intro _
        rw [p1, hl1]; simp [hne]

/-! ## The order of the phases -/

/-- The phase after a write through the normal-mode hook. -/
theorem normalWrite_phase (freq : Nat) (s : Session) (r : NodeRef) (address value : Nat) :
    (GBASIOLockstepNodeNormalWriteRegister freq s r address value).2.phase =
      (if address = REG_SIOCNT ∧ (s.nodes r).id = 0 ∧ value.testBit 7 = true ∧
          value.testBit 0 = true
        then .TRANSFER_STARTING else s.phase) := by
  by_cases ha : address = REG_SIOCNT
  · subst ha
    obtain ⟨_, h2, _⟩ := normalWrite_siocnt freq s r value
    rw [h2, maskSet_0x80, maskSet_1]
    simp
  · unfold GBASIOLockstepNodeNormalWriteRegister
    simp [ha]

theorem masterNextPhase_cases (ph : mLockstepPhase) :
    masterNextPhase ph = ph ∨ masterNextPhase ph = nextPhase ph := by
  cases ph <;> simp [masterNextPhase]

/-- The order of the phases over the operations of the coordinator (register
writes, master update, slave update, `_finishTransfer`, the event callback,
load, unload, attach, detach): in every state in which the operation returns,
if it changes the phase then the new phase is the cyclic successor of the old
one in the order IDLE, STARTING, STARTED, FINISHING, FINISHED, IDLE, with two
exceptions: unload of the master (id 0), which sets IDLE, and a normal-mode
control-register write by the master whose value has the start bit (bit 7)
and the internal-clock bit (bit 0) set, which sets STARTING whatever the phase
was. -/
theorem phase_order_of_operations (tbl : Nat → Nat → Int) (freq : Nat) (s s' : Session)
    (op : CoordinatorOp) (h : runOp tbl freq s op = .ok s') :
    s'.phase = s.phase ∨ s'.phase = nextPhase s.phase ∨
    (∃ r, op = .unload r ∧ (s.nodes r).id = 0 ∧ s'.phase = .TRANSFER_IDLE) ∨
    (∃ r v, op = .normalWrite r REG_SIOCNT v ∧ (s.nodes r).id = 0 ∧ v.testBit 7 = true ∧
      v.testBit 0 = true ∧ s'.phase = .TRANSFER_STARTING) := by
  cases op with
  | attach r =>
    simp only [runOp, Except.ok.injEq] at h
    subst h
    exact Or.inl (attach_effect s r).1
  | detach r =>
    exact Or.inl (detach_effect s s' r h).1
  | load r =>
    simp only [runOp, Except.ok.injEq] at h
    subst h
    left
    rw [Session.phase_def, (load_effect s r).1]; rfl
  | unload r =>
    simp only [runOp] at h
    cases hu : GBASIOLockstepNodeUnload s r with
    | error e => simp [hu] at h
    | ok res =>
      obtain ⟨b, s1⟩ := res
      simp only [hu, Except.ok.injEq] at h
      subst h
      obtain ⟨_, _, _, _, h5, _⟩ := unload_effect s s1 r b hu
      by_cases hid : (s.nodes r).id = 0
      · rw [if_pos hid] at h5
        exact Or.inr (Or.inr (Or.inl ⟨r, rfl, hid, h5⟩))
      · rw [if_neg hid] at h5
        exact Or.inl h5
  | multiWrite r a v =>
    simp only [runOp, Except.ok.injEq] at h
    subst h
    obtain ⟨_, _, h3, _⟩ := multiWrite_frame tbl s r a v
    rcases h3 with h3 | ⟨_, hidle, h3⟩
    · exact Or.inl h3
    · right; left
      rw [h3, hidle]; rfl
  | normalWrite r a v =>
    simp only [runOp, Except.ok.injEq] at h
    subst h
    rw [normalWrite_phase]
    by_cases hc : a = REG_SIOCNT ∧ (s.nodes r).id = 0 ∧ v.testBit 7 = true ∧ v.testBit 0 = true
    · obtain ⟨ha, hid, h7, h0⟩ := hc
      subst ha
      refine Or.inr (Or.inr (Or.inr ⟨r, v, rfl, hid, h7, h0, ?_⟩))
      simp [hid, h7, h0]
    · rw [if_neg hc]
      exact Or.inl rfl
  | masterUpdate r w =>
    simp only [runOp] at h
    cases hu : _masterUpdate s r w with
    | error e => simp [hu] at h
    | ok res =>
      obtain ⟨c, s1⟩ := res
      simp only [hu, Except.ok.injEq] at h
      subst h
      obtain ⟨h1, _⟩ := masterUpdate_effect s s1 r w c hu
      rw [h1]
      rcases masterNextPhase_cases s.phase with hc | hc
      · exact Or.inl hc
      · exact Or.inr (Or.inl hc)
  | slaveUpdate r u =>
    simp only [runOp] at h
    cases hu : _slaveUpdate s r u with
    | error e => simp [hu] at h
    | ok res =>
      obtain ⟨c, s1⟩ := res
      simp only [hu, Except.ok.injEq] at h
      subst h
      exact Or.inl (slaveUpdate_effect s s1 r u c hu).2.1
  | finishTransfer r =>
    simp only [runOp] at h
    left
    rw [Session.phase_def, (finishTransfer_frame s s' r h).1]; rfl
  | processEvents r late w u used =>
    simp only [runOp] at h
    obtain ⟨_, _, h3, _⟩ := processEvents_effect s s' r late w u used h
    rw [h3]
    split
    · rcases masterNextPhase_cases s.phase with hc | hc
      · exact Or.inl hc
      · exact Or.inr (Or.inl hc)
    · exact Or.inl rfl

/-- Claim C15, the input on which the code departs from it: in a session in
phase STARTED the master (node 0, id 0) writes 0x0081 (start, internal clock)
to the control register through the normal-mode hook; the operation returns
and the phase becomes STARTING, which is neither STARTED nor its successor
FINISHING, and the operation is not an unload.  The same write through the
multiplayer hook, which starts a transfer only when the phase is IDLE, leaves
the phase STARTED. -/
theorem C15_normal_write_restarts :
    (∃ s', runOp sampleCyclesPerTransfer sampleFrequency startedSession
        (.normalWrite 0 REG_SIOCNT 0x0081) = .ok s' ∧
      (startedSession.nodes 0).id = 0 ∧
      startedSession.phase = .TRANSFER_STARTED ∧ s'.phase = .TRANSFER_STARTING ∧
      nextPhase startedSession.phase = .TRANSFER_FINISHING) ∧
    (∃ s', runOp sampleCyclesPerTransfer sampleFrequency startedSession
        (.multiWrite 0 REG_SIOCNT 0x0081) = .ok s' ∧ s'.phase = .TRANSFER_STARTED) :=
  ⟨⟨_, rfl, by decide, by decide, by decide, by decide⟩, ⟨_, rfl, by decide⟩⟩

/-! ## The shared receive words -/

/-- The receive words after an operation that is neither an unload nor a
STARTING step of the master: they change only by the operation's STARTED
contribution. -/
theorem runOp_multiRecv (tbl : Nat → Nat → Int) (freq : Nat) (s s' : Session)
    (op : CoordinatorOp) (h : runOp tbl freq s op = .ok s') (hn : ¬ ResetsRecv s op) :
    s'.lockstep.multiRecv =
      (match contribution s op with
        | some (j, v) => upd s.lockstep.multiRecv j v
        | none => s.lockstep.multiRecv) := by
  cases op with
  | attach r =>
    simp only [runOp, Except.ok.injEq] at h
    subst h
    exact (attach_effect s r).2.2.1
  | detach r =>
    exact (detach_effect s s' r h).2.2.1
  | load r =>
    simp only [runOp, Except.ok.injEq] at h
    subst h
    exact (load_effect s r).2.2.1
  | unload r => exact absurd trivial hn
  | multiWrite r a v =>
    simp only [runOp, Except.ok.injEq] at h
    subst h
    exact (multiWrite_frame tbl s r a v).2.1
  | normalWrite r a v =>
    simp only [runOp, Except.ok.injEq] at h
    subst h
    exact (normalWrite_frame freq s r a v).2.1
  | masterUpdate r w =>
    simp only [runOp] at h
    cases hu : _masterUpdate s r w with
    | error e => simp [hu] at h
    | ok res =>
      obtain ⟨c, s1⟩ := res
      simp only [hu, Except.ok.injEq] at h
      subst h
      exact (masterUpdate_effect s s1 r w c hu).2.2.2.1 hn
  | slaveUpdate r u =>
    simp only [runOp] at h
    cases hu : _slaveUpdate s r u with
    | error e => simp [hu] at h
    | ok res =>
      obtain ⟨c, s1⟩ := res
      simp only [hu, Except.ok.injEq] at h
      subst h
      rw [(slaveUpdate_effect s s1 r u c hu).2.2.2.2.1]
      simp only [contribution]
      split <;> rfl
  | finishTransfer r =>
    simp only [runOp] at h
    rw [(finishTransfer_frame s s' r h).1]
    rfl
  | processEvents r late w u used =>
    simp only [runOp] at h
    rw [(processEvents_effect s s' r late w u used h).2.2.2 hn]
    simp only [contribution]
    split <;> rfl

/-- Slot `i` of the receive words after a run without unload and without
STARTING step: the word most recently contributed to it, or its old content
if there was no contribution. -/
theorem runOps_multiRecv (tbl : Nat → Nat → Int) (freq : Nat) (i base : Nat) :
    ∀ (ops : List CoordinatorOp) (s s2 : Session) (acc : Option Nat),
      NoReset tbl freq s ops → runOps tbl freq s ops = .ok s2 →
      s.lockstep.multiRecv i = acc.getD base →
      s2.lockstep.multiRecv i = (lastContribution tbl freq i s ops acc).getD base := by
  intro ops
  induction ops with
  | nil =>
    intro s s2 acc _ h hb
    simp only [runOps, Except.ok.injEq] at h
    subst h
    simpa [lastContribution] using hb
  | cons op ops ih =>
    intro s s2 acc hn h hb
    unfold runOps at h
    unfold NoReset at hn
    unfold lastContribution
    cases h1 : runOp tbl freq s op with
    | error e => simp [h1] at h
    | ok s1 =>
      simp only [h1] at h hn ⊢
      apply ih s1 s2 _ hn.2 h
      rw [runOp_multiRecv tbl freq s s1 op h1 hn.1]
      cases hc : contribution s op with
      | none => simpa using hb
      | some jv =>
        obtain ⟨j, v⟩ := jv
        simp only [upd_apply]
        by_cases hj : j = i
        · subst hj; simp
        · have hj' : ¬ i = j := fun e => hj e.symm
          simp [hj, hj', hb]

/-- Claim C17: immediately after initialisation the four `multiRecv` slots
are 0xFFFF; immediately after a STARTING step of the master slot 0 holds the
master's send register and slots 1..3 are 0xFFFF; and after any run of
operations from there that contains no unload and no further STARTING step,
each slot i in 1..3 is 0xFFFF if no slave with id i has made a STARTED
contribution in the run, and otherwise holds the word stored by the most
recent such contribution, which is the contributing slave's send register
when it is in multiplayer mode (and 0xFFFF in the other modes). -/
theorem C17_multiRecv_slots (tbl : Nat → Nat → Int) (freq : Nat) :
    (∀ s0 i, i < 4 → (GBASIOLockstepInit s0).lockstep.multiRecv i = 0xFFFF) ∧
    (∀ s r w c s1, s.phase = .TRANSFER_STARTING → _masterUpdate s r w = .ok (c, s1) →
      (s1.lockstep.multiRecv 0 = s.getIo r REG_SIOMLT_SEND ∧ s1.lockstep.multiRecv 1 = 0xFFFF ∧
        s1.lockstep.multiRecv 2 = 0xFFFF ∧ s1.lockstep.multiRecv 3 = 0xFFFF) ∧
      ∀ ops s2, NoReset tbl freq s1 ops → runOps tbl freq s1 ops = .ok s2 →
        ∀ i, 1 ≤ i → i < 4 →
          s2.lockstep.multiRecv i = (lastContribution tbl freq i s1 ops none).getD 0xFFFF) ∧
    (∀ s r u, s.phase = .TRANSFER_STARTED → ¬ u > (s.nodes r).eventDiff →
      contribution s (.slaveUpdate r u) =
        some ((s.nodes r).id,
          if (s.nodes r).mode = .SIO_MULTI then s.getIo r REG_SIOMLT_SEND else 0xFFFF)) := by
  refine ⟨?_, ?_, ?_⟩
  · intro s0 i hi
    have : i = 0 ∨ i = 1 ∨ i = 2 ∨ i = 3 := by omega
    rcases this with h | h | h | h <;> subst h <;>
      simp [GBASIOLockstepInit, GBASIOLockstepInit2]
  · intro s r w c s1 hph hmu
    have h5 := (masterUpdate_effect s s1 r w c hmu).2.2.2.2.1 hph
    refine ⟨h5, ?_⟩
    intro ops s2 hn hrun i hi1 hi4
    apply runOps_multiRecv tbl freq i 0xFFFF ops s1 s2 none hn hrun
    have : i = 1 ∨ i = 2 ∨ i = 3 := by omega
    rcases this with h | h | h <;> subst h <;> simp [h5]
  · intro s r u hph hu
    simp [contribution, hph, hu, slaveStored]


/-- Witness for claim C17: in the two-player scenario the master's STARTING
step is followed by the update of the slave, which contributes its send
register 0x5555 to slot 1. -/
theorem C17_multiRecv_slots_witness :
    afterStartingStep.lockstep.multiRecv 0 = 0xAAAA ∧
    afterStartingStep.lockstep.multiRecv 1 = 0xFFFF ∧
    ∃ s2, runOps sampleCyclesPerTransfer sampleFrequency afterStartingStep [.slaveUpdate 1 0]
        = .ok s2 ∧
      s2.lockstep.multiRecv 1 = 0x5555 ∧ s2.lockstep.multiRecv 2 = 0xFFFF := by
  obtain ⟨h1, h2⟩ := (C17_multiRecv_slots sampleCyclesPerTransfer sampleFrequency).2.1
    startingSession 0 true 0 afterStartingStep rfl rfl
  refine ⟨h1.1, h1.2.1, _, rfl, ?_, ?_⟩
  · rw [h2 [.slaveUpdate 1 0] _ ⟨fun h => h, trivial⟩ rfl 1 (by decide) (by decide)]
    decide
  · rw [h2 [.slaveUpdate 1 0] _ ⟨fun h => h, trivial⟩ rfl 2 (by decide) (by decide)]
    decide

/-! ## The count of the nodes loaded in multiplayer mode -/

theorem rosterNodes_mem (s : Session) (q : NodeRef) :
    q ∈ rosterNodes s ↔ ∃ i, i < s.lockstep.d.attached ∧ s.lockstep.players i = some q := by
  unfold rosterNodes
  simp [List.mem_filterMap]

theorem rosterNodes_length (s : Session) : (rosterNodes s).length ≤ s.lockstep.d.attached := by
  unfold rosterNodes
  calc ((List.range s.lockstep.d.attached).filterMap s.lockstep.players).length
      ≤ (List.range s.lockstep.d.attached).length := List.length_filterMap_le _ _
    _ = s.lockstep.d.attached := List.length_range _

/-- The invariant bounds `attachedMulti` by the number of attached nodes. -/
theorem loadedInv_le (s : Session) (loaded : List NodeRef) (h : LoadedInv s loaded) :
    s.lockstep.attachedMulti ≤ (s.lockstep.d.attached : Int) := by
  obtain ⟨hnd, hsub, hcount⟩ := h
  rw [hcount]
  have h1 : (loaded.filter (fun q => decide ((s.nodes q).d.mode = .SIO_MULTI))).length ≤ loaded.length :=
    List.length_filter_le _ _
  have h2 : loaded.length ≤ (rosterNodes s).length :=
    (List.subperm_of_subset hnd hsub).length_le
  have h3 := rosterNodes_length s
  omega

theorem filter_mode_congr (s s' : Session) (l : List NodeRef)
    (hm : ∀ q, (s'.nodes q).d.mode = (s.nodes q).d.mode) :
    l.filter (fun q => decide ((s'.nodes q).d.mode = .SIO_MULTI)) =
      l.filter (fun q => decide ((s.nodes q).d.mode = .SIO_MULTI)) := by
  congr 1
  funext q
  rw [hm q]

theorem loadedInv_frame (s s' : Session) (loaded : List NodeRef) (h : LoadedInv s loaded)
    (hf : RosterFrame s s') : LoadedInv s' loaded := by
  obtain ⟨hnd, hsub, hcount⟩ := h
  obtain ⟨f1, f2, f3, f4⟩ := hf
  refine ⟨hnd, ?_, ?_⟩
  · intro q hq
    rw [rosterNodes_mem, f1, f2, ← rosterNodes_mem]
    exact hsub q hq
  · rw [f3, hcount, filter_mode_congr s s' loaded f4]

theorem loadedInv_init (s0 : Session) : LoadedInv (GBASIOLockstepInit s0) [] := by
  refine ⟨List.nodup_nil, ?_, ?_⟩
  · intro q hq; cases hq
  · simp [GBASIOLockstepInit, GBASIOLockstepInit2]

theorem loadedInv_attach (s : Session) (loaded : List NodeRef) (r : NodeRef)
    (h : LoadedInv s loaded) : LoadedInv (GBASIOLockstepAttachNode s r).2 loaded := by
  obtain ⟨hnd, hsub, hcount⟩ := h
  obtain ⟨_, _, _, a4, a5, a6, a7⟩ := attach_effect s r
  refine ⟨hnd, ?_, ?_⟩
  · intro q hq
    obtain ⟨i, hi, hp⟩ := (rosterNodes_mem s q).mp (hsub q hq)
    exact (rosterNodes_mem _ q).mpr ⟨i, by omega, by rw [a7 i hi, hp]⟩
  · rw [a4, hcount, filter_mode_congr s _ loaded a5]

theorem loadedInv_detach (s s' : Session) (loaded : List NodeRef) (r : NodeRef)
    (h : LoadedInv s loaded) (hr : r ∉ loaded) (hd : GBASIOLockstepDetachNode s r = .ok s') :
    LoadedInv s' loaded := by
  obtain ⟨hnd, hsub, hcount⟩ := h
  obtain ⟨_, _, _, d4, d5, d6⟩ := detach_effect s s' r hd
  refine ⟨hnd, ?_, ?_⟩
  · intro q hq
    obtain ⟨i, hi, hp⟩ := (rosterNodes_mem s q).mp (hsub q hq)
    rw [rosterNodes_mem]
    rcases d6 with ⟨e1, e2⟩ | ⟨k, hk, hpk, e1, e2⟩
    · exact ⟨i, by rw [e1]; exact hi, by rw [e2]; exact hp⟩
    · have hne : i ≠ k := by
        intro e
        subst e
        rw [hp] at hpk
        cases hpk
        exact hr hq
      by_cases hlt : i < k
      · refine ⟨i, by omega, ?_⟩
        rw [e2 i, if_neg (by omega)]
        exact hp
      · refine ⟨i - 1, by omega, ?_⟩
        rw [e2 (i - 1), if_pos (by omega)]
        have : i - 1 + 1 = i := by omega
        rw [this]
        exact hp
  · rw [d4, hcount, filter_mode_congr s s' loaded d5]

theorem loadedInv_load (s : Session) (loaded : List NodeRef) (r : NodeRef)
    (h : LoadedInv s loaded) (hin : r ∈ rosterNodes s) (hr : r ∉ loaded) :
    LoadedInv (GBASIOLockstepNodeLoad s r).2 (r :: loaded) := by
  obtain ⟨hnd, hsub, hcount⟩ := h
  obtain ⟨l1, l2, _, l4, l5⟩ := load_effect s r
  have hm : ∀ q, ((GBASIOLockstepNodeLoad s r).2.nodes q).d.mode = (s.nodes q).d.mode :=
    fun q => (l5 q).1
  refine ⟨List.nodup_cons.mpr ⟨hr, hnd⟩, ?_, ?_⟩
  · intro q hq
    rw [rosterNodes_mem, l1, l2, ← rosterNodes_mem]
    rcases List.mem_cons.mp hq with e | e
    · subst e; exact hin
    · exact hsub q e
  · rw [l4, filter_mode_congr s _ (r :: loaded) hm, List.filter_cons]
    by_cases hmode : (s.nodes r).d.mode = .SIO_MULTI
    · simp [hmode, hcount]
    · simp [hmode, hcount]

theorem filter_erase_length (p : NodeRef → Bool) (l : List NodeRef) (r : NodeRef) (hr : r ∈ l) :
    (l.filter p).length = ((l.erase r).filter p).length + (if p r = true then 1 else 0) := by
  have hperm : (l.filter p).Perm ((r :: l.erase r).filter p) :=
    (List.perm_cons_erase hr).filter p
  rw [hperm.length_eq, List.filter_cons]
  by_cases hp : p r = true
  · simp [hp]
  · simp [hp]

theorem loadedInv_unload (s s' : Session) (loaded : List NodeRef) (r : NodeRef) (b : Bool)
    (h : LoadedInv s loaded) (hr : r ∈ loaded)
    (hu : GBASIOLockstepNodeUnload s r = .ok (b, s')) :
    LoadedInv s' (loaded.erase r) := by
  obtain ⟨hnd, hsub, hcount⟩ := h
  obtain ⟨u1, _, u3, u4, _, u6⟩ := unload_effect s s' r b hu
  refine ⟨hnd.erase r, ?_, ?_⟩
  · intro q hq
    rw [rosterNodes_mem, u1, u3, ← rosterNodes_mem]
    exact hsub q (List.mem_of_mem_erase hq)
  · rw [u4, filter_mode_congr s s' _ u6, hcount,
      filter_erase_length (fun q => decide ((s.nodes q).d.mode = .SIO_MULTI)) loaded r hr]
    by_cases hmode : (s.nodes r).d.mode = .SIO_MULTI
    · simp [hmode]
    · simp [hmode]

/-- Every operation other than attach, detach, load and unload leaves the
roster, `attachedMulti` and the serial modes of the consoles alone. -/
theorem runOp_rosterFrame (tbl : Nat → Nat → Int) (freq : Nat) (s s' : Session)
    (op : CoordinatorOp) (h : runOp tbl freq s op = .ok s')
    (h1 : ∀ r, op ≠ .attach r) (h2 : ∀ r, op ≠ .detach r) (h3 : ∀ r, op ≠ .load r)
    (h4 : ∀ r, op ≠ .unload r) : RosterFrame s s' := by
  cases op with
  | attach r => exact absurd rfl (h1 r)
  | detach r => exact absurd rfl (h2 r)
  | load r => exact absurd rfl (h3 r)
  | unload r => exact absurd rfl (h4 r)
  | multiWrite r a v =>
    simp only [runOp, Except.ok.injEq] at h
    subst h
    exact (multiWrite_frame tbl s r a v).1
  | normalWrite r a v =>
    simp only [runOp, Except.ok.injEq] at h
    subst h
    exact (normalWrite_frame freq s r a v).1
  | masterUpdate r w =>
    simp only [runOp] at h
    cases hu : _masterUpdate s r w with
    | error e => simp [hu] at h
    | ok res =>
      obtain ⟨c, s1⟩ := res
      simp only [hu, Except.ok.injEq] at h
      subst h
      exact (masterUpdate_effect s s1 r w c hu).2.1
  | slaveUpdate r u =>
    simp only [runOp] at h
    cases hu : _slaveUpdate s r u with
    | error e => simp [hu] at h
    | ok res =>
      obtain ⟨c, s1⟩ := res
      simp only [hu, Except.ok.injEq] at h
      subst h
      exact (slaveUpdate_effect s s1 r u c hu).2.2.2.1
  | finishTransfer r =>
    simp only [runOp] at h
    exact rosterFrame_of_finish s s' r h
  | processEvents r late w u used =>
    simp only [runOp] at h
    exact (processEvents_effect s s' r late w u used h).1

/-- The invariant holds in every reachable state. -/
theorem reachable_inv (tbl : Nat → Nat → Int) (freq : Nat) (s : Session) (loaded : List NodeRef)
    (h : Reachable tbl freq s loaded) : LoadedInv s loaded := by
  induction h with
  | init s0 => exact loadedInv_init s0
  | step s s' loaded op _ hal hrun ih =>
    cases op with
    | attach r =>
      simp only [runOp, Except.ok.injEq] at hrun
      subst hrun
      exact loadedInv_attach s loaded r ih
    | detach r => exact loadedInv_detach s s' loaded r ih hal hrun
    | load r =>
      simp only [runOp, Except.ok.injEq] at hrun
      subst hrun
      exact loadedInv_load s loaded r ih hal.1 hal.2
    | unload r =>
      simp only [runOp] at hrun
      cases hu : GBASIOLockstepNodeUnload s r with
      | error e => simp [hu] at hrun
      | ok res =>
        obtain ⟨b, s1⟩ := res
        simp only [hu, Except.ok.injEq] at hrun
        subst hrun
        exact loadedInv_unload s s1 loaded r b ih hal hu
    | multiWrite r a v =>
      exact loadedInv_frame s s' loaded ih (runOp_rosterFrame tbl freq s s' _ hrun
        (by simp) (by simp) (by simp) (by simp))
    | normalWrite r a v =>
      exact loadedInv_frame s s' loaded ih (runOp_rosterFrame tbl freq s s' _ hrun
        (by simp) (by simp) (by simp) (by simp))
    | masterUpdate r w =>
      exact loadedInv_frame s s' loaded ih (runOp_rosterFrame tbl freq s s' _ hrun
        (by simp) (by simp) (by simp) (by simp))
    | slaveUpdate r u =>
      exact loadedInv_frame s s' loaded ih (runOp_rosterFrame tbl freq s s' _ hrun
        (by simp) (by simp) (by simp) (by simp))
    | finishTransfer r =>
      exact loadedInv_frame s s' loaded ih (runOp_rosterFrame tbl freq s s' _ hrun
        (by simp) (by simp) (by simp) (by simp))
    | processEvents r late w u used =>
      exact loadedInv_frame s s' loaded ih (runOp_rosterFrame tbl freq s s' _ hrun
        (by simp) (by simp) (by simp) (by simp))

/-- Claim C18, amended: `attachedMulti <= attached` holds in every state
reachable from an initialised session by attach, load of an attached node
that is not loaded, unload of a loaded node, detach of a node that is not
loaded, register writes and event callbacks (and the updates the callbacks
run); moreover `attachedMulti` is the number of loaded nodes whose console is
in multiplayer mode. -/
theorem C18_attachedMulti_bound (tbl : Nat → Nat → Int) (freq : Nat) (s : Session)
    (loaded : List NodeRef) (h : Reachable tbl freq s loaded) :
    s.lockstep.attachedMulti ≤ (s.lockstep.d.attached : Int) ∧
    s.lockstep.attachedMulti =
      ((loaded.filter (fun q => decide ((s.nodes q).d.mode = .SIO_MULTI))).length : Int) :=
  ⟨loadedInv_le s loaded (reachable_inv tbl freq s loaded h),
    (reachable_inv tbl freq s loaded h).2.2⟩

/-- Witness for claim C18: node 0 is attached to the initialised session and
loaded. -/
theorem C18_attachedMulti_bound_witness :
    (GBASIOLockstepNodeLoad (GBASIOLockstepAttachNode session0 0).2 0).2.lockstep.attachedMulti
      ≤ ((GBASIOLockstepNodeLoad (GBASIOLockstepAttachNode session0 0).2 0).2.lockstep.d.attached : Int) :=
  (C18_attachedMulti_bound sampleCyclesPerTransfer sampleFrequency _ _
    (Reachable.step _ _ _ (.load 0)
      (Reachable.step _ _ _ (.attach 0) (Reachable.init rawSession) trivial rfl)
      ⟨by decide, by decide⟩ rfl)).1

/-- Counterexample to claim C18 as stated: node 0 is attached to the
initialised session and loaded twice (a load of an attached node each time);
then `attachedMulti` is 2 and `attached` is 1. -/
theorem C18_double_load_counterexample :
    ∃ s', runOps sampleCyclesPerTransfer sampleFrequency session0 [.attach 0, .load 0, .load 0]
        = .ok s' ∧
      s'.lockstep.attachedMulti = 2 ∧ s'.lockstep.d.attached = 1 ∧
      s'.lockstep.players 0 = some 0 :=
  ⟨_, rfl, by decide, by decide, by decide⟩

/-! ## The host bridge: crediting cycles -/

theorem modeDiffers_congr (c c1 : MultiplayerController) (s s1 : Session) (p : Player)
    (h0 : c1.m_players[0]? = c.m_players[0]?)
    (hm : ∀ q, (s1.nodes q).d.mode = (s.nodes q).d.mode) :
    modeDiffers c1 s1 p = modeDiffers c s p := by
  unfold modeDiffers
  simp only [h0, hm]

/-- Under `PlayersSet` the test of the loop returns. -/
theorem modeDiffers_ok (c : MultiplayerController) (s : Session) (p : Player) (hw : PlayersSet c)
    (hp : p ∈ c.m_players) : ∃ b, modeDiffers c s p = .ok b := by
  unfold modeDiffers
  by_cases hpl : p.controller.platform = .PLATFORM_GBA
  · rw [if_pos hpl]
    obtain ⟨q, hq⟩ := Option.isSome_iff_exists.mp ((hw.2 p hp).1 hpl)
    have hlen : 0 < c.m_players.length := List.length_pos_of_mem hp
    have h0 : c.m_players[0]? = some (c.m_players[0]) := List.getElem?_eq_getElem hlen
    obtain ⟨q0, hq0⟩ := Option.isSome_iff_exists.mp (hw.1 _ h0)
    simp only [hq, h0, hq0]
    exact ⟨_, rfl⟩
  · rw [if_neg hpl]
    exact ⟨_, rfl⟩

/-- The wake-up block returns when the player's node pointer is set; it
keeps the bank and the synchronisation switch, sets `awake` and keeps the
serial modes of the consoles. -/
theorem wakePlayer_ok (s : Session) (p : Player)
    (h1 : p.controller.platform = .PLATFORM_GBA → p.gbaNode.isSome = true)
    (h2 : p.controller.platform = .PLATFORM_GB → p.gbNode.isSome = true) :
    ∃ p' s', wakePlayer s p = .ok (p', s') ∧ p'.cyclesPosted = p.cyclesPosted ∧
      p'.controller.sync = p.controller.sync ∧ p'.awake = 1 ∧
      (∀ q, (s'.nodes q).d.mode = (s.nodes q).d.mode) := by
  unfold wakePlayer
  cases hpl : p.controller.platform with
  | PLATFORM_NONE =>
    exact ⟨_, _, rfl, rfl, rfl, rfl, fun _ => rfl⟩
  | PLATFORM_GBA =>
    obtain ⟨q, hq⟩ := Option.isSome_iff_exists.mp (h1 hpl)
    simp only [hq]
    refine ⟨_, _, rfl, rfl, rfl, rfl, ?_⟩
    intro q'
    by_cases e : q' = q
    · subst e; simp
    · simp [e]
  | PLATFORM_GB =>
    obtain ⟨g, hg⟩ := Option.isSome_iff_exists.mp (h2 hpl)
    simp only [hg]
    exact ⟨_, _, rfl, rfl, rfl, rfl, fun _ => rfl⟩

/-- One iteration of the loop of `addCycles`. -/
theorem addCyclesStep_spec (c c1 : MultiplayerController) (s s1 : Session) (cycles : Int)
    (i : Nat) (p : Player) (hw : PlayersSet c)
    (hp : c.m_players[i]? = some p) (hp1 : c1.m_players[i]? = some p)
    (h0 : c1.m_players[0]? = c.m_players[0]?)
    (hm : ∀ q, (s1.nodes q).d.mode = (s.nodes q).d.mode) :
    ∃ c2 s2 p', addCyclesStep cycles (c1, s1) i = .ok (c2, s2) ∧
      c2.m_players = c1.m_players.set i p' ∧ Credited c s cycles p p' ∧
      (∀ q, (s2.nodes q).d.mode = (s.nodes q).d.mode) := by
  have hmem : p ∈ c.m_players := List.getElem?_mem hp
  obtain ⟨b, hb⟩ := modeDiffers_ok c s p hw hmem
  have hb1 : modeDiffers c1 s1 p = .ok b := by rw [modeDiffers_congr c c1 s s1 p h0 hm, hb]
  unfold addCyclesStep
  simp only [hp1, hb1]
  cases b with
  | true =>
    refine ⟨_, _, _, rfl, rfl, ⟨fun _ => ⟨rfl, rfl, rfl⟩, ?_⟩, hm⟩
    intro hc
    rw [hb] at hc
    cases hc
  | false =>
    simp only
    by_cases haw : p.awake < 1
    · rw [if_pos haw]
      obtain ⟨p', s', hwk, w1, w2, w3, w4⟩ := wakePlayer_ok s1
        { controller := p.controller.setSync false, gbNode := p.gbNode, gbaNode := p.gbaNode, awake := p.awake, cyclesPosted := wrapInt32 (p.cyclesPosted + cycles), waitMask := p.waitMask }
        (hw.2 p hmem).1 (hw.2 p hmem).2
      simp only [hwk]
      refine ⟨_, _, p', rfl, rfl, ⟨?_, fun _ => ⟨w1, w2, by omega⟩⟩, fun q => (w4 q).trans (hm q)⟩
      intro hc
      rw [hb] at hc
      cases hc
    · rw [if_neg haw]
      refine ⟨_, _, _, rfl, rfl, ⟨?_, fun _ => ⟨rfl, rfl, by simpa using haw⟩⟩, hm⟩
      intro hc
      rw [hb] at hc
      cases hc

/-- The loop of `addCycles` over the indices `j .. j + n - 1`: the visited
players are credited or skipped, the others are as before. -/
theorem addCyclesLoop_spec (c : MultiplayerController) (s : Session) (cycles : Int)
    (hw : PlayersSet c) :
    ∀ (n j : Nat) (c1 : MultiplayerController) (s1 : Session), 1 ≤ j →
      j + n ≤ c.m_players.length →
      c1.m_players.length = c.m_players.length →
      (∀ i, (i < 1 ∨ j ≤ i) → c1.m_players[i]? = c.m_players[i]?) →
      (∀ q, (s1.nodes q).d.mode = (s.nodes q).d.mode) →
      (∀ i p, 1 ≤ i → i < j → c.m_players[i]? = some p →
        ∃ p', c1.m_players[i]? = some p' ∧ Credited c s cycles p p') →
      ∃ c2 s2, addCyclesLoop cycles (c1, s1) (List.range' j n) = .ok (c2, s2) ∧
        c2.m_players.length = c.m_players.length ∧
        (∀ i, (i < 1 ∨ j + n ≤ i) → c2.m_players[i]? = c.m_players[i]?) ∧
        (∀ q, (s2.nodes q).d.mode = (s.nodes q).d.mode) ∧
        (∀ i p, 1 ≤ i → i < j + n → c.m_players[i]? = some p →
          ∃ p', c2.m_players[i]? = some p' ∧ Credited c s cycles p p') := by
  intro n
  induction n with
  | zero =>
    intro j c1 s1 _ _ hlen hrest hm hdone
    exact ⟨c1, s1, rfl, hlen, hrest, hm, hdone⟩
  | succ n ih =>
    intro j c1 s1 hj hjn hlen hrest hm hdone
    have hjl : j < c.m_players.length := by omega
    have hpj : c.m_players[j]? = some (c.m_players[j]) := List.getElem?_eq_getElem hjl
    obtain ⟨c2, s2, p', hstep, hset, hcred, hm2⟩ :=
      addCyclesStep_spec c c1 s s1 cycles j _ hw hpj (by rw [hrest j (Or.inr le_rfl), hpj])
        (hrest 0 (Or.inl (by omega))) hm
    rw [List.range'_succ]
    unfold addCyclesLoop
    simp only [hstep]
    have hlen2 : c2.m_players.length = c.m_players.length := by rw [hset, List.length_set, hlen]
    obtain ⟨c3, s3, hloop, g1, g2, g3, g4⟩ := ih (j + 1) c2 s2 (by omega) (by omega) hlen2
      (by
        intro i hi
        rw [hset, List.getElem?_set_ne (by omega)]
        exact hrest i (by omega))
      hm2
      (by
        intro i p hi1 hi2 hp
        by_cases hij : i = j
        · subst hij
          rw [hpj] at hp
          cases hp
          refine ⟨p', ?_, hcred⟩
          rw [hset, List.getElem?_set_self (by rw [hlen]; exact hjl)]
        · obtain ⟨p1, hp1, hc1⟩ := hdone i p hi1 (by omega) hp
          refine ⟨p1, ?_, hc1⟩
          rw [hset, List.getElem?_set_ne (fun e => hij e.symm)]
          exact hp1)
    refine ⟨c3, s3, hloop, g1, ?_, g3, ?_⟩
    · intro i hi
      exact g2 i (by omega)
    · intro i p hi1 hi2 hp
      exact g4 i p hi1 (by omega) hp

/-- The effect of `addCycles(0, cycles)` with `cycles >= 0`. -/
theorem addCycles_master (c : MultiplayerController) (s : Session) (cycles : Int)
    (hc : 0 ≤ cycles) (hw : PlayersSet c) :
    ∃ c' s', addCycles c s 0 cycles = .ok (c', s') ∧
      c'.m_players.length = c.m_players.length ∧
      c'.m_players[0]? = c.m_players[0]? ∧
      ∀ i p, 1 ≤ i → c.m_players[i]? = some p →
        ∃ p', c'.m_players[i]? = some p' ∧ Credited c s cycles p p' := by
  unfold addCycles
  rw [if_neg (by omega), if_pos rfl]
  by_cases hlen : c.m_players.length = 0
  · have hnil : List.range' 1 (c.m_players.length - 1) = [] := by rw [hlen]; rfl
    rw [hnil]
    refine ⟨c, s, rfl, rfl, rfl, ?_⟩
    intro i p _ hp
    have : c.m_players = [] := List.length_eq_zero.mp hlen
    rw [this] at hp
    simp at hp
  · obtain ⟨c2, s2, hloop, g1, g2, _, g4⟩ := addCyclesLoop_spec c s cycles hw
      (c.m_players.length - 1) 1 c s le_rfl (by omega) rfl (fun _ _ => rfl) (fun _ => rfl)
      (by intro i p h1 h2; omega)
    refine ⟨c2, s2, hloop, g1, g2 0 (Or.inl (by omega)), ?_⟩
    intro i p hi hp
    have hil : i < c.m_players.length := by
      by_contra hge
      rw [List.getElem?_eq_none (by omega)] at hp
      cases hp
    exact g4 i p hi (by omega) hp

theorem wrapInt32_of_range (x : Int) (h1 : -2147483648 ≤ x) (h2 : x < 2147483648) :
    wrapInt32 x = x := by
  unfold wrapInt32
  omega

/-- Claim C20, amended: for every roster of players whose node pointers are
set and every cycles >= 0, the host bridge's `addCycles(0, cycles)` returns,
leaves player 0 as it was, and for every player with index >= 1: if the player
is on the primary console and the serial mode of its console differs from
that of player 0, its `cyclesPosted` is unchanged (and synchronisation is
switched on); otherwise its `cyclesPosted` is increased by `cycles` in 32-bit
arithmetic, by exactly `cycles` when the sum is in the 32-bit range.  A call
with cycles < 0 aborts, so no bank is changed. -/
theorem C20_addCycles_credit (c : MultiplayerController) (s : Session) (cycles : Int)
    (hw : PlayersSet c) :
    (0 ≤ cycles →
      ∃ c' s', addCycles c s 0 cycles = .ok (c', s') ∧
        c'.m_players.length = c.m_players.length ∧
        c'.m_players[0]? = c.m_players[0]? ∧
        ∀ i p, 1 ≤ i → c.m_players[i]? = some p →
          ∃ p', c'.m_players[i]? = some p' ∧ Credited c s cycles p p' ∧
            (-2147483648 ≤ p.cyclesPosted + cycles → p.cyclesPosted + cycles < 2147483648 →
              wrapInt32 (p.cyclesPosted + cycles) = p.cyclesPosted + cycles)) ∧
    (cycles < 0 → ∀ id, addCycles c s id cycles = .error .abort) := by
  constructor
  · intro hc
    obtain ⟨c', s', h1, h2, h3, h4⟩ := addCycles_master c s cycles hc hw
    refine ⟨c', s', h1, h2, h3, ?_⟩
    intro i p hi hp
    obtain ⟨p', hp', hcr⟩ := h4 i p hi hp
    exact ⟨p', hp', hcr, wrapInt32_of_range _⟩
  · intro hc id
    unfold addCycles
    rw [if_pos hc]

theorem twoPlayers_set : PlayersSet twoPlayers := by
  refine ⟨?_, ?_⟩
  · intro p0 h
    simp only [twoPlayers, List.getElem?_cons_zero, Option.some.injEq] at h
    subst h
    rfl
  · intro p hp
    simp only [twoPlayers, List.mem_cons, List.mem_singleton, List.not_mem_nil, or_false] at hp
    rcases hp with h | h <;> subst h <;> exact ⟨fun _ => rfl, fun h => by cases h⟩

/-- Witness for claim C20: the roster of two consoles in multiplayer mode;
`addCycles(0, 100)` credits 100 cycles to player 1. -/
theorem C20_addCycles_credit_witness :
    ∃ c' s', addCycles twoPlayers twoPlayerSession 0 100 = .ok (c', s') ∧
      c'.m_players[0]? = twoPlayers.m_players[0]? ∧
      ∃ p', c'.m_players[1]? = some p' ∧ p'.cyclesPosted = 100 := by
  obtain ⟨c', s', h1, _, h3, h4⟩ :=
    (C20_addCycles_credit twoPlayers twoPlayerSession 100 twoPlayers_set).1 (by decide)
  obtain ⟨p', hp', hcr, _⟩ := h4 1 (gbaPlayer 1) le_rfl rfl
  refine ⟨c', s', h1, h3, p', hp', ?_⟩
  rw [(hcr.2 rfl).1]
  decide

/-- Counterexample to claim C20 as stated: the roster of two consoles of which
the slave's has been switched to 32-bit normal mode while the master's is in
multiplayer mode; `addCycles(0, 100)` returns and leaves the `cyclesPosted` of
player 1 at 0. -/
theorem C20_mode_mismatch_counterexample :
    ∃ c' s', addCycles twoPlayers mixedModeSession 0 100 = .ok (c', s') ∧
      (twoPlayers.m_players[1]?).map (fun p => p.cyclesPosted) = some 0 ∧
      (c'.m_players[1]?).map (fun p => p.cyclesPosted) = some 0 ∧
      (c'.m_players[1]?).map (fun p => p.controller.sync) = some true :=
  ⟨_, _, rfl, by decide, by decide, by decide⟩

/-! ## The STARTED step of a slave in multiplayer mode -/

/-- Claim C22: for a node in multiplayer mode running the slave update while
the phase is STARTED, `unusedCycles` returning `u`: if `u > eventDiff` then
`multiRecv`, `normalRecv`, the guest's I/O registers (the SIOMULTI registers
among them) and `transferFinished` are unchanged and the only call of the
host bridge is `unusedCycles(id)`, so no signal is sent; otherwise
`multiRecv[id]` becomes the node's send register, every other `multiRecv`
slot is unchanged, the node's four SIOMULTI registers become 0xFFFF, its busy
bit is set, `transferFinished` is cleared, and after `unusedCycles(id)` the
host bridge is called exactly once more, with `signal(1 << id)`; in both
cases the update returns 0. -/
theorem C22_slave_started_step (s : Session) (r : NodeRef) (u : Int)
    (hph : s.phase = .TRANSFER_STARTED) (hmode : (s.nodes r).mode = .SIO_MULTI) :
    (u > (s.nodes r).eventDiff →
      ∃ s', _slaveUpdate s r u = .ok (0, s') ∧
        s'.lockstep.multiRecv = s.lockstep.multiRecv ∧
        s'.lockstep.normalRecv = s.lockstep.normalRecv ∧
        (s'.nodes r).d.io = (s.nodes r).d.io ∧
        (s'.nodes r).transferFinished = (s.nodes r).transferFinished ∧
        s'.calls = s.calls ++ [.unusedCycles (s.nodes r).id]) ∧
    (¬ u > (s.nodes r).eventDiff →
      ∃ s', _slaveUpdate s r u = .ok (0, s') ∧
        s'.lockstep.multiRecv =
          upd s.lockstep.multiRecv (s.nodes r).id (s.getIo r REG_SIOMLT_SEND) ∧
        s'.lockstep.normalRecv = s.lockstep.normalRecv ∧
        s'.getIo r REG_SIOMULTI0 = 0xFFFF ∧ s'.getIo r REG_SIOMULTI1 = 0xFFFF ∧
        s'.getIo r REG_SIOMULTI2 = 0xFFFF ∧ s'.getIo r REG_SIOMULTI3 = 0xFFFF ∧
        s'.getIo r REG_SIOMLT_SEND = s.getIo r REG_SIOMLT_SEND ∧
        multiplayerControl.busy (s'.nodes r).d.siocnt = true ∧
        (s'.nodes r).transferFinished = false ∧
        s'.calls = s.calls ++ [.unusedCycles (s.nodes r).id, .signal (1 <<< (s.nodes r).id)]) := by
  have hph' : s.lockstep.d.transferActive = .TRANSFER_STARTED := hph
  constructor
  · intro hu
    cases hd : _slaveUpdate s r u with
    | error e => simp [_slaveUpdate, hph', hu] at hd
    | ok res =>
      obtain ⟨c, s'⟩ := res
      simp only [_slaveUpdate, hph', Session.call_nodes, Session.modPort_nodes_self, hu, if_true,
        Bool.false_eq_true, if_false, Except.ok.injEq, Prod.mk.injEq] at hd
      obtain ⟨hc, hs⟩ := hd
      subst hc hs
      refine ⟨_, rfl, ?_, ?_, ?_, ?_, ?_⟩ <;> simp
  · intro hu
    cases hd : _slaveUpdate s r u with
    | error e => simp [_slaveUpdate, hph', hu] at hd
    | ok res =>
      obtain ⟨c, s'⟩ := res
      simp only [_slaveUpdate, hph', Session.call_nodes, Session.modPort_nodes_self, hu, if_false,
        if_true, Except.ok.injEq, Prod.mk.injEq] at hd
      obtain ⟨hc, hs⟩ := hd
      subst hc hs
      refine ⟨_, rfl, ?_, ?_, ?_, ?_, ?_, ?_, ?_, ?_, ?_, ?_⟩
      · simp [slaveContribute, hmode, Session.getIo]
      · simp [slaveContribute, hmode]
      · simp [slaveContribute, hmode, Session.getIo, Session.setIo, REG_SIOMULTI0, REG_SIOMULTI1,
          REG_SIOMULTI2, REG_SIOMULTI3]
      · simp [slaveContribute, hmode, Session.getIo, Session.setIo, REG_SIOMULTI0, REG_SIOMULTI1,
          REG_SIOMULTI2, REG_SIOMULTI3]
      · simp [slaveContribute, hmode, Session.getIo, Session.setIo, REG_SIOMULTI0, REG_SIOMULTI1,
          REG_SIOMULTI2, REG_SIOMULTI3]
      · simp [slaveContribute, hmode, Session.getIo, Session.setIo, REG_SIOMULTI0, REG_SIOMULTI1,
          REG_SIOMULTI2, REG_SIOMULTI3]
      · simp [slaveContribute, hmode, Session.getIo, Session.setIo, REG_SIOMULTI0, REG_SIOMULTI1,
          REG_SIOMULTI2, REG_SIOMULTI3, REG_SIOMLT_SEND]
      · simp [slaveContribute, hmode, multiplayerControl.busy, multiplayerControl.setBusy,
          getBit_setBit]
      · simp [slaveContribute, hmode]
      · simp [slaveContribute, hmode]

/-- Witness for claim C22: the slave of the two-player scenario right after
the STARTING step of the master, caught up (`unusedCycles` returns 0). -/
theorem C22_slave_started_step_witness :
    ∃ s', _slaveUpdate afterStartingStep 1 0 = .ok (0, s') ∧
      s'.lockstep.multiRecv 1 = 0x5555 ∧ s'.getIo 1 REG_SIOMULTI0 = 0xFFFF ∧
      multiplayerControl.busy (s'.nodes 1).d.siocnt = true ∧
      s'.calls = afterStartingStep.calls ++ [.unusedCycles 1, .signal 2] := by
  obtain ⟨s', h, h1, _, h3, _, _, _, _, h8, _, h10⟩ :=
    (C22_slave_started_step afterStartingStep 1 0 (by decide) (by decide)).2 (by decide)
  refine ⟨s', h, ?_, h3, h8, ?_⟩
  · rw [h1]; decide
  · rw [h10]; rfl

/-! ## The event callback -/

/-- The event callback with `cyclesLate = 2^32 - 1` on the master of the
two-player scenario (`nextEvent = 0`, `eventDiff = 0`): the unsigned
subtraction wraps to `nextEvent = 1`, so no update runs (the phase stays IDLE
and the host bridge is not called); the event is scheduled 1 cycle ahead,
`nextEvent` is cleared, `earlyExit` is not set and `eventDiff` is
`-1 + 1 = 0`. -/
theorem processEvents_wraps :
    ((callbackEntry twoPlayerSession 0 4294967295).nodes 0).nextEvent = 1 ∧
    ((callbackEntry twoPlayerSession 0 4294967295).nodes 0).eventDiff = -1 ∧
    (_GBASIOLockstepNodeProcessEvents twoPlayerSession 0 4294967295 true 0 0).toOption.map
        (fun s' => [(s'.nodes 0).nextEvent, (s'.nodes 0).eventDiff, (s'.nodes 0).event.when])
      = some [0, 0, 1] ∧
    (_GBASIOLockstepNodeProcessEvents twoPlayerSession 0 4294967295 true 0 0).toOption.map
        (fun s' => [(s'.nodes 0).event.entries, s'.calls.length]) = some [1, 0] ∧
    (_GBASIOLockstepNodeProcessEvents twoPlayerSession 0 4294967295 true 0 0).toOption.map
        (fun s' => (s'.nodes 0).d.earlyExit) = some false ∧
    (_GBASIOLockstepNodeProcessEvents twoPlayerSession 0 4294967295 true 0 0).toOption.map
        (fun s' => s'.phase) = some .TRANSFER_IDLE := by
  refine ⟨by decide, by decide, by decide, by decide, by decide, by decide⟩

/-! ## The host bridge: wait and signal -/

theorem clearMask_testBit (w m i : Nat) :
    (clearMask w m).testBit i = (w.testBit i && !m.testBit i) := by
  unfold clearMask
  rw [Nat.testBit_xor, Nat.testBit_and]
  cases w.testBit i <;> cases m.testBit i <;> rfl

theorem clearMask_zero (w : Nat) : clearMask w 0 = w := by
  apply Nat.eq_of_testBit_eq
  intro i
  rw [clearMask_testBit]
  simp

theorem clearMask_clearMask (w a b : Nat) : clearMask (clearMask w a) b = clearMask w (a ||| b) := by
  apply Nat.eq_of_testBit_eq
  intro i
  rw [clearMask_testBit, clearMask_testBit, clearMask_testBit, Nat.testBit_or]
  cases w.testBit i <;> cases a.testBit i <;> cases b.testBit i <;> rfl

/-- No bit of `w` is left after clearing those of `m` exactly when `m` covers
`w`. -/
theorem clearMask_eq_zero_iff (w m : Nat) : clearMask w m = 0 ↔ w &&& m = w := by
  constructor
  · intro h
    apply Nat.eq_of_testBit_eq
    intro i
    have hi : (clearMask w m).testBit i = false := by rw [h]; simp
    rw [clearMask_testBit] at hi
    rw [Nat.testBit_and]
    cases hw : w.testBit i <;> cases hm : m.testBit i <;> simp [hw, hm] at hi ⊢
  · intro h
    apply Nat.eq_of_testBit_eq
    intro i
    have hi : (w &&& m).testBit i = w.testBit i := by rw [h]
    rw [Nat.testBit_and] at hi
    rw [clearMask_testBit]
    cases hw : w.testBit i <;> cases hm : m.testBit i <;> simp [hw, hm] at hi ⊢

theorem covers_mono (w u m : Nat) (h : w &&& u = w) : w &&& (u ||| m) = w := by
  apply Nat.eq_of_testBit_eq
  intro i
  have hi : (w &&& u).testBit i = w.testBit i := by rw [h]
  rw [Nat.testBit_and] at hi
  rw [Nat.testBit_and, Nat.testBit_or]
  cases hw : w.testBit i <;> cases hu : u.testBit i <;> simp [hw, hu] at hi ⊢

theorem covers_foldl (w : Nat) : ∀ (ms : List Nat) (u : Nat), w &&& u = w →
    w &&& ms.foldl (fun u m => u ||| m) u = w := by
  intro ms
  induction ms with
  | nil => intro u h; exact h
  | cons m ms ih => intro u h; exact ih (u ||| m) (covers_mono w u m h)

/-- At most one call of a sequence is the first to cover the mask. -/
theorem firstCover_count (mask : Nat) : ∀ (ms : List Nat) (u : Nat),
    (firstCover mask u ms).count true =
      (if mask &&& ms.foldl (fun u m => u ||| m) u = mask ∧ mask &&& u ≠ mask then 1 else 0) := by
  intro ms
  induction ms with
  | nil =>
    intro u
    simp [firstCover]
  | cons m ms ih =>
    intro u
    simp only [firstCover, List.foldl_cons, List.count_cons, ih]
    by_cases hu : mask &&& u = mask
    · have h1 := covers_mono mask u m hu
      simp [hu, h1]
    · by_cases hm : mask &&& (u ||| m) = mask
      · have h2 := covers_foldl mask ms (u ||| m) hm
        simp [hu, hm, h2]
      · simp [hu, hm]

/-- The state of the master between the signals, `u` being the union of the
masks signalled since it went to sleep on `mask`. -/
theorem signal_sleeping (c : MultiplayerController) (p : Player) (mask u m : Nat)
    (hp : c.m_players[0]? = some p) (hwm : p.waitMask = clearMask mask u)
    (hs : mask &&& u ≠ mask → p.awake = 0 ∧ p.controller.parked = true)
    (ha : mask &&& u = mask → p.awake = 1 ∧ p.controller.parked = false) :
    ∃ c' p', signal c m = .ok (decide (mask &&& (u ||| m) = mask ∧ mask &&& u ≠ mask), c') ∧
      c'.m_players[0]? = some p' ∧ p'.waitMask = clearMask mask (u ||| m) ∧
      (mask &&& (u ||| m) ≠ mask → p'.awake = 0 ∧ p'.controller.parked = true) ∧
      (mask &&& (u ||| m) = mask → p'.awake = 1 ∧ p'.controller.parked = false) := by
  have hlen : 0 < c.m_players.length := by
    by_contra h
    rw [List.getElem?_eq_none (by omega)] at hp
    cases hp
  have hz : clearMask (clearMask mask u) m = 0 ↔ mask &&& (u ||| m) = mask := by
    rw [clearMask_clearMask, clearMask_eq_zero_iff]
  have hget : ∀ q : Player, (c.setPlayer 0 q).m_players[0]? = some q := by
    intro q
    simp [MultiplayerController.setPlayer, List.getElem?_set_self hlen]
  unfold signal
  simp only [hp, hwm]
  by_cases hu : mask &&& u = mask
  · obtain ⟨a1, a2⟩ := ha hu
    have hum := covers_mono mask u m hu
    have hcond : ¬ (clearMask (clearMask mask u) m = 0 ∧ p.awake < 1) := by
      rw [a1]; omega
    rw [if_neg hcond]
    refine ⟨c.setPlayer 0 { p with waitMask := clearMask (clearMask mask u) m }, { p with waitMask := clearMask (clearMask mask u) m }, ?_, hget _, ?_, ?_, ?_⟩
    · simp [hu, hum]
    · simp [clearMask_clearMask]
    · intro h; exact absurd hum h
    · intro _; exact ⟨a1, a2⟩
  · obtain ⟨a1, a2⟩ := hs hu
    by_cases hum : mask &&& (u ||| m) = mask
    · have hcond : clearMask (clearMask mask u) m = 0 ∧ p.awake < 1 := ⟨hz.mpr hum, by omega⟩
      rw [if_pos hcond]
      refine ⟨c.setPlayer 0 { p with waitMask := clearMask (clearMask mask u) m, controller := mCoreThreadStopWaiting p.controller, awake := 1 }, { p with waitMask := clearMask (clearMask mask u) m, controller := mCoreThreadStopWaiting p.controller, awake := 1 }, ?_, hget _, ?_, ?_, ?_⟩
      · simp [hu, hum]
      · simp [clearMask_clearMask]
      · intro h; exact absurd hum h
      · intro _; exact ⟨rfl, rfl⟩
    · have hcond : ¬ (clearMask (clearMask mask u) m = 0 ∧ p.awake < 1) := by
        intro h; exact hum (hz.mp h.1)
      rw [if_neg hcond]
      refine ⟨c.setPlayer 0 { p with waitMask := clearMask (clearMask mask u) m }, { p with waitMask := clearMask (clearMask mask u) m }, ?_, hget _, ?_, ?_, ?_⟩
      · simp [hu, hum]
      · simp [clearMask_clearMask]
      · intro _; exact ⟨a1, a2⟩
      · intro h; exact absurd h hum

/-- A sequence of signals to a master sleeping on `mask`. -/
theorem runSignals_sleeping (mask : Nat) : ∀ (ms : List Nat) (u : Nat)
    (c : MultiplayerController) (p : Player),
    c.m_players[0]? = some p → p.waitMask = clearMask mask u →
    (mask &&& u ≠ mask → p.awake = 0 ∧ p.controller.parked = true) →
    (mask &&& u = mask → p.awake = 1 ∧ p.controller.parked = false) →
    ∃ c' p', runSignals c ms = .ok (firstCover mask u ms, c') ∧
      c'.m_players[0]? = some p' ∧
      (mask &&& ms.foldl (fun u m => u ||| m) u ≠ mask →
        p'.awake = 0 ∧ p'.controller.parked = true) ∧
      (mask &&& ms.foldl (fun u m => u ||| m) u = mask →
        p'.awake = 1 ∧ p'.controller.parked = false) := by
  intro ms
  induction ms with
  | nil =>
    intro u c p hp _ hs ha
    exact ⟨c, p, rfl, hp, hs, ha⟩
  | cons m ms ih =>
    intro u c p hp hwm hs ha
    obtain ⟨c1, p1, h1, hp1, hwm1, hs1, ha1⟩ := signal_sleeping c p mask u m hp hwm hs ha
    obtain ⟨c2, p2, h2, hp2, hs2, ha2⟩ := ih (u ||| m) c1 p1 hp1 hwm1 hs1 ha1
    refine ⟨c2, p2, ?_, hp2, hs2, ha2⟩
    unfold runSignals
    simp only [h1, h2, firstCover]

/-- The effect of `wait` on an awake master with an empty `waitMask`. -/
theorem wait_awake (c : MultiplayerController) (p : Player) (mask : Nat)
    (hp : c.m_players[0]? = some p) (hawake : p.awake > 0) (hwm : p.waitMask = 0) :
    ∃ c1 p1, wait c mask = .ok (true, c1) ∧ c1.m_players[0]? = some p1 ∧
      p1.awake = 0 ∧ p1.controller.parked = true ∧ p1.waitMask = mask := by
  have hlen : 0 < c.m_players.length := by
    by_contra h
    rw [List.getElem?_eq_none (by omega)] at hp
    cases hp
  unfold wait
  simp only [hp, hwm, hawake, if_true]
  refine ⟨c.setPlayer 0 { p with waitMask := 0 ||| mask, controller := mCoreThreadWaitFromThread p.controller, awake := 0 }, { p with waitMask := 0 ||| mask, controller := mCoreThreadWaitFromThread p.controller, awake := 0 }, ?_, ?_, rfl, rfl, ?_⟩
  · rfl
  · simp [MultiplayerController.setPlayer, List.getElem?_set_self hlen]
  · simp

/-- Claim C24: for every non-empty mask, starting from an awake master
(player 0) with an empty `waitMask`: `wait(mask)` returns true and puts the
master to sleep (`awake` 0, thread parked); and for every subsequent sequence
of `signal` calls with masks `ms` every call returns, the call whose mask
makes the union of the signalled masks cover `mask` for the first time
returns true and every other call returns false (`firstCover`), so at most
one call returns true; after the sequence the master is awake if the union
of the masks covers `mask` and still asleep otherwise. -/
theorem C24_wait_signal (c : MultiplayerController) (p : Player) (mask : Nat)
    (hp : c.m_players[0]? = some p) (hawake : p.awake > 0) (hwm : p.waitMask = 0)
    (hmask : mask ≠ 0) :
    ∃ c1 p1, wait c mask = .ok (true, c1) ∧ c1.m_players[0]? = some p1 ∧
      p1.awake = 0 ∧ p1.controller.parked = true ∧
      ∀ ms, ∃ c2 p2, runSignals c1 ms = .ok (firstCover mask 0 ms, c2) ∧
        c2.m_players[0]? = some p2 ∧
        (firstCover mask 0 ms).count true = (if mask &&& unionMasks ms = mask then 1 else 0) ∧
        (mask &&& unionMasks ms ≠ mask → p2.awake = 0 ∧ p2.controller.parked = true) ∧
        (mask &&& unionMasks ms = mask → p2.awake = 1 ∧ p2.controller.parked = false) := by
  obtain ⟨c1, p1, h1, hp1, ha1, hk1, hw1⟩ := wait_awake c p mask hp hawake hwm
  have h0 : mask &&& 0 ≠ mask := by
    rw [Nat.and_zero]; exact fun h => hmask h.symm
  refine ⟨c1, p1, h1, hp1, ha1, hk1, ?_⟩
  intro ms
  obtain ⟨c2, p2, h2, hp2, hs2, ha2⟩ := runSignals_sleeping mask ms 0 c1 p1 hp1
    (by rw [hw1, clearMask_zero]) (fun _ => ⟨ha1, hk1⟩) (fun h => absurd h h0)
  refine ⟨c2, p2, h2, hp2, ?_, hs2, ha2⟩
  rw [firstCover_count]
  unfold unionMasks
  have hm' : ¬ 0 = mask := fun h => hmask h.symm
  simp [hm']

/-- Witness for claim C24: the master of the two-console roster waits on the
mask 6 (slaves 1 and 2); the signals 2, 2 and 4 follow, of which the third
wakes it. -/
theorem C24_wait_signal_witness :
    ∃ c1, wait twoPlayers 6 = .ok (true, c1) ∧
      ∃ c2 p2, runSignals c1 [2, 2, 4] = .ok ([false, false, true], c2) ∧
        c2.m_players[0]? = some p2 ∧ p2.awake = 1 := by
  obtain ⟨c1, p1, h1, _, _, _, h5⟩ :=
    C24_wait_signal twoPlayers (gbaPlayer 0) 6 rfl (by decide) rfl (by decide)
  obtain ⟨c2, p2, h2, hp2, _, _, h6⟩ := h5 [2, 2, 4]
  exact ⟨c1, h1, c2, p2, h2, hp2, (h6 (by decide)).1⟩

/-! ## The host bridge: the cycle bank of a slave -/

theorem sameSeat_refl (p : Player) : SameSeat p p := ⟨rfl, rfl, rfl⟩

theorem sameSeat_trans (p1 p2 p3 : Player) (h12 : SameSeat p1 p2) (h23 : SameSeat p2 p3) :
    SameSeat p1 p3 :=
  ⟨h23.1.trans h12.1, h23.2.1.trans h12.2.1, h23.2.2.trans h12.2.2⟩

theorem sameSeats_refl (c : MultiplayerController) : SameSeats c c :=
  ⟨rfl, fun _ p hp => ⟨p, hp, sameSeat_refl p⟩⟩

theorem sameSeats_trans (c1 c2 c3 : MultiplayerController) (h12 : SameSeats c1 c2)
    (h23 : SameSeats c2 c3) : SameSeats c1 c3 := by
  refine ⟨h23.1.trans h12.1, ?_⟩
  intro j p hp
  obtain ⟨p2, hp2, hs2⟩ := h12.2 j p hp
  obtain ⟨p3, hp3, hs3⟩ := h23.2 j p2 hp2
  exact ⟨p3, hp3, sameSeat_trans p p2 p3 hs2 hs3⟩

/-- Replacing a player by one on the same seat. -/
theorem sameSeats_setPlayer (c : MultiplayerController) (i : Nat) (p p' : Player)
    (hp : c.m_players[i]? = some p) (hs : SameSeat p p') : SameSeats c (c.setPlayer i p') := by
  have hlen : i < c.m_players.length := by
    by_contra h
    rw [List.getElem?_eq_none (by omega)] at hp
    cases hp
  refine ⟨by simp [MultiplayerController.setPlayer], ?_⟩
  intro j q hq
  by_cases hji : j = i
  · subst hji
    rw [hp] at hq
    cases hq
    exact ⟨p', by simp [MultiplayerController.setPlayer, List.getElem?_set_self hlen], hs⟩
  · refine ⟨q, ?_, sameSeat_refl q⟩
    simp only [MultiplayerController.setPlayer]
    rw [List.getElem?_set_ne (fun e => hji e.symm)]
    exact hq

theorem playersSet_of_seats (c c' : MultiplayerController) (hw : PlayersSet c)
    (hs : SameSeats c c') : PlayersSet c' := by
  have key : ∀ (j : Nat) (p' : Player), c'.m_players[j]? = some p' →
      ∃ p, c.m_players[j]? = some p ∧ SameSeat p p' := by
    intro j p' hp'
    have hj : j < c.m_players.length := by
      by_contra h
      rw [List.getElem?_eq_none (by rw [hs.1]; omega)] at hp'
      cases hp'
    obtain ⟨p2, hp2, hs2⟩ := hs.2 j (c.m_players[j]) (List.getElem?_eq_getElem hj)
    rw [hp'] at hp2
    cases hp2
    exact ⟨_, List.getElem?_eq_getElem hj, hs2⟩
  refine ⟨?_, ?_⟩
  · intro p0 hp0
    obtain ⟨p, hp, hseat⟩ := key 0 p0 hp0
    rw [hseat.2.1]
    exact hw.1 p hp
  · intro p' hmem
    obtain ⟨j, hj⟩ := List.getElem?_of_mem hmem
    obtain ⟨p, hp, hseat⟩ := key j p' hj
    have hpm : p ∈ c.m_players := List.getElem?_mem hp
    rw [hseat.1, hseat.2.1, hseat.2.2]
    exact hw.2 p hpm

theorem modeDiffers_seat (c c1 : MultiplayerController) (s s1 : Session) (p p1 : Player)
    (h0 : ∀ p0, c.m_players[0]? = some p0 →
      ∃ p0', c1.m_players[0]? = some p0' ∧ p0'.gbaNode = p0.gbaNode)
    (hlen : c1.m_players.length = c.m_players.length)
    (hm : ∀ q, (s1.nodes q).d.mode = (s.nodes q).d.mode) (hs : SameSeat p p1) :
    modeDiffers c1 s1 p1 = modeDiffers c s p := by
  unfold modeDiffers
  rw [hs.1, hs.2.1]
  by_cases hpl : p.controller.platform = .PLATFORM_GBA
  · simp only [hpl, if_true]
    cases hg : p.gbaNode with
    | none => rfl
    | some q =>
      simp only
      cases hc0 : c.m_players[0]? with
      | none =>
        have : c1.m_players[0]? = none := by
          rw [List.getElem?_eq_none_iff] at hc0 ⊢
          omega
        rw [this]
      | some p0 =>
        obtain ⟨p0', hp0', hg0⟩ := h0 p0 hc0
        simp only [hp0', hg0, hm]
  · simp only [hpl, if_false]

/-- The wake-up block, whenever it returns, keeps the player on its seat and
keeps the bank and the serial modes of the consoles. -/
theorem wakePlayer_keeps (s s' : Session) (p p' : Player) (h : wakePlayer s p = .ok (p', s')) :
    SameSeat p p' ∧ p'.cyclesPosted = p.cyclesPosted ∧
    (∀ q, (s'.nodes q).d.mode = (s.nodes q).d.mode) := by
  unfold wakePlayer at h
  cases hpl : p.controller.platform with
  | PLATFORM_NONE =>
    simp only [hpl, Except.ok.injEq, Prod.mk.injEq] at h
    obtain ⟨h1, h2⟩ := h
    subst h1 h2
    exact ⟨⟨hpl ▸ rfl, rfl, rfl⟩, rfl, fun _ => rfl⟩
  | PLATFORM_GBA =>
    simp only [hpl] at h
    cases hg : p.gbaNode with
    | none => simp [hg] at h
    | some q =>
      simp only [hg, Except.ok.injEq, Prod.mk.injEq] at h
      obtain ⟨h1, h2⟩ := h
      subst h1 h2
      refine ⟨⟨hpl ▸ rfl, hg ▸ rfl, rfl⟩, rfl, ?_⟩
      intro q'
      by_cases e : q' = q
      · subst e; simp
      · simp [e]
  | PLATFORM_GB =>
    simp only [hpl] at h
    cases hg : p.gbNode with
    | none => simp [hg] at h
    | some g =>
      simp only [hg, Except.ok.injEq, Prod.mk.injEq] at h
      obtain ⟨h1, h2⟩ := h
      subst h1 h2
      exact ⟨⟨hpl ▸ rfl, rfl, by simp [hg]⟩, rfl, fun _ => rfl⟩

/-- One iteration of the loop of `addCycles`, whenever it returns, keeps the
players on their seats and the serial modes of the consoles. -/
theorem addCyclesStep_keeps (cycles : Int) (c1 c2 : MultiplayerController) (s1 s2 : Session)
    (i : Nat) (h : addCyclesStep cycles (c1, s1) i = .ok (c2, s2)) :
    SameSeats c1 c2 ∧ (∀ q, (s2.nodes q).d.mode = (s1.nodes q).d.mode) := by
  unfold addCyclesStep at h
  simp only at h
  cases hp : c1.m_players[i]? with
  | none => simp [hp] at h
  | some p =>
    simp only [hp] at h
    cases hb : modeDiffers c1 s1 p with
    | error e => simp [hb] at h
    | ok b =>
      simp only [hb] at h
      cases b with
      | true =>
        simp only [Except.ok.injEq, Prod.mk.injEq] at h
        obtain ⟨h1, h2⟩ := h
        subst h1 h2
        exact ⟨sameSeats_setPlayer c1 i p _ hp ⟨rfl, rfl, rfl⟩, fun _ => rfl⟩
      | false =>
        simp only at h
        by_cases haw : p.awake < 1
        · rw [if_pos haw] at h
          cases hwk : wakePlayer s1 { controller := p.controller.setSync false, gbNode := p.gbNode, gbaNode := p.gbaNode, awake := p.awake, cyclesPosted := wrapInt32 (p.cyclesPosted + cycles), waitMask := p.waitMask } with
          | error e => simp [hwk] at h
          | ok res =>
            obtain ⟨p', s'⟩ := res
            simp only [hwk, Except.ok.injEq, Prod.mk.injEq] at h
            obtain ⟨h1, h2⟩ := h
            subst h1 h2
            obtain ⟨k1, _, k3⟩ := wakePlayer_keeps _ _ _ _ hwk
            exact ⟨sameSeats_setPlayer c1 i p p' hp ⟨k1.1, k1.2.1, k1.2.2⟩, k3⟩
        · rw [if_neg haw] at h
          simp only [Except.ok.injEq, Prod.mk.injEq] at h
          obtain ⟨h1, h2⟩ := h
          subst h1 h2
          exact ⟨sameSeats_setPlayer c1 i p _ hp ⟨rfl, rfl, rfl⟩, fun _ => rfl⟩

theorem addCyclesLoop_keeps (cycles : Int) : ∀ (l : List Nat) (c1 c2 : MultiplayerController)
    (s1 s2 : Session), addCyclesLoop cycles (c1, s1) l = .ok (c2, s2) →
    SameSeats c1 c2 ∧ (∀ q, (s2.nodes q).d.mode = (s1.nodes q).d.mode) := by
  intro l
  induction l with
  | nil =>
    intro c1 c2 s1 s2 h
    simp only [addCyclesLoop, Except.ok.injEq, Prod.mk.injEq] at h
    obtain ⟨h1, h2⟩ := h
    subst h1 h2
    exact ⟨sameSeats_refl c1, fun _ => rfl⟩
  | cons i is ih =>
    intro c1 c2 s1 s2 h
    unfold addCyclesLoop at h
    cases hst : addCyclesStep cycles (c1, s1) i with
    | error e => simp [hst] at h
    | ok st =>
      obtain ⟨c3, s3⟩ := st
      simp only [hst] at h
      obtain ⟨a1, a2⟩ := addCyclesStep_keeps cycles c1 c3 s1 s3 i hst
      obtain ⟨b1, b2⟩ := ih c3 c2 s3 s2 h
      exact ⟨sameSeats_trans _ _ _ a1 b1, fun q => (b2 q).trans (a2 q)⟩

/-- The callback `addCycles`, whenever it returns, keeps the players on their
seats and the serial modes of the consoles. -/
theorem addCycles_keeps (c c' : MultiplayerController) (s s' : Session) (id : Nat)
    (cycles : Int) (h : addCycles c s id cycles = .ok (c', s')) :
    SameSeats c c' ∧ (∀ q, (s'.nodes q).d.mode = (s.nodes q).d.mode) := by
  unfold addCycles at h
  by_cases hc : cycles < 0
  · simp [hc] at h
  · rw [if_neg hc] at h
    by_cases hid : id = 0
    · rw [if_pos hid] at h
      exact addCyclesLoop_keeps cycles _ c c' s s' h
    · rw [if_neg hid] at h
      cases hp : c.m_players[id]? with
      | none => simp [hp] at h
      | some p =>
        simp only [hp, Except.ok.injEq, Prod.mk.injEq] at h
        obtain ⟨h1, h2⟩ := h
        subst h1 h2
        exact ⟨sameSeats_setPlayer c id p _ hp ⟨rfl, rfl, rfl⟩, fun _ => rfl⟩

/-- The callback `addCycles(id, cycles)` for a slave `id`. -/
theorem addCycles_slave (c : MultiplayerController) (s : Session) (id : Nat) (cycles : Int)
    (p : Player) (hid : 1 ≤ id) (hc : 0 ≤ cycles) (hp : c.m_players[id]? = some p) :
    ∃ c' p', addCycles c s id cycles = .ok (c', s) ∧ c'.m_players[id]? = some p' ∧
      p'.cyclesPosted = wrapInt32 (p.cyclesPosted + cycles) := by
  have hlen : id < c.m_players.length := by
    by_contra h
    rw [List.getElem?_eq_none (by omega)] at hp
    cases hp
  unfold addCycles
  rw [if_neg (by omega), if_neg (by omega)]
  simp only [hp]
  refine ⟨c.setPlayer id { p with controller := p.controller.setSync true, cyclesPosted := wrapInt32 (p.cyclesPosted + cycles) }, { p with controller := p.controller.setSync true, cyclesPosted := wrapInt32 (p.cyclesPosted + cycles) }, rfl, ?_, rfl⟩
  simp [MultiplayerController.setPlayer, List.getElem?_set_self hlen]

/-- The callback `useCycles`. -/
theorem useCycles_spec (c : MultiplayerController) (id : Nat) (cycles : Int) (p : Player)
    (hp : c.m_players[id]? = some p) :
    ∃ c' p', useCycles c id cycles = .ok (wrapInt32 (p.cyclesPosted - cycles), c') ∧
      c' = c.setPlayer id p' ∧ c'.m_players[id]? = some p' ∧
      p'.cyclesPosted = wrapInt32 (p.cyclesPosted - cycles) ∧
      (wrapInt32 (p.cyclesPosted - cycles) ≤ 0 → p'.awake = 0 ∧ p'.controller.parked = true) ∧
      (¬ wrapInt32 (p.cyclesPosted - cycles) ≤ 0 →
        p'.awake = p.awake ∧ p'.controller = p.controller) ∧
      SameSeat p p' := by
  have hlen : id < c.m_players.length := by
    by_contra h
    rw [List.getElem?_eq_none (by omega)] at hp
    cases hp
  have hget : ∀ q : Player, (c.setPlayer id q).m_players[id]? = some q := by
    intro q
    simp [MultiplayerController.setPlayer, List.getElem?_set_self hlen]
  unfold useCycles
  simp only [hp]
  by_cases hb : wrapInt32 (p.cyclesPosted - cycles) ≤ 0
  · refine ⟨c.setPlayer id { p with cyclesPosted := wrapInt32 (p.cyclesPosted - cycles), controller := mCoreThreadWaitFromThread p.controller, awake := 0 }, { p with cyclesPosted := wrapInt32 (p.cyclesPosted - cycles), controller := mCoreThreadWaitFromThread p.controller, awake := 0 }, ?_, rfl, hget _, rfl, fun _ => ⟨rfl, rfl⟩, fun h => absurd hb h, ⟨rfl, rfl, rfl⟩⟩
    simp [hb]
  · refine ⟨c.setPlayer id { p with cyclesPosted := wrapInt32 (p.cyclesPosted - cycles) }, { p with cyclesPosted := wrapInt32 (p.cyclesPosted - cycles) }, ?_, rfl, hget _, rfl, fun h => absurd h hb, fun _ => ⟨rfl, rfl⟩, ⟨rfl, rfl, rfl⟩⟩
    simp [hb]

/-- The state of the roster after a call that keeps the seats: the pointers
are still set and the test of the loop of `addCycles` gives the same result
for the slave. -/
theorem bank_invariant (c c' : MultiplayerController) (s s' : Session) (id : Nat) (p p' : Player)
    (hw : PlayersSet c) (hp : c.m_players[id]? = some p) (hp' : c'.m_players[id]? = some p')
    (hseats : SameSeats c c') (hm : ∀ q, (s'.nodes q).d.mode = (s.nodes q).d.mode) :
    PlayersSet c' ∧ modeDiffers c' s' p' = modeDiffers c s p := by
  refine ⟨playersSet_of_seats c c' hw hseats, ?_⟩
  obtain ⟨p2, hp2, hs2⟩ := hseats.2 id p hp
  rw [hp'] at hp2
  cases hp2
  apply modeDiffers_seat c c' s s' p p' ?_ hseats.1 hm hs2
  intro p0 hp0
  obtain ⟨p0', hp0', hs0⟩ := hseats.2 0 p0 hp0
  exact ⟨p0', hp0', hs0.2.1⟩

/-- A sequence of calls on the bank of a slave that `addCycles(0, ...)`
credits: every call returns, the returned values are those of `bankReturns`,
and the bank changes by the net credit modulo 2^32. -/
theorem runBankCalls_spec (id : Nat) (hid : 1 ≤ id) : ∀ (calls : List BankCall)
    (c : MultiplayerController) (s : Session) (p : Player),
    PlayersSet c → c.m_players[id]? = some p → modeDiffers c s p = .ok false →
    NonNegCredits calls →
    ∃ c' s' p', runBankCalls c s id calls = .ok (bankReturns p.cyclesPosted calls, c', s') ∧
      c'.m_players[id]? = some p' ∧
      wrapInt32 (p'.cyclesPosted - p.cyclesPosted) = wrapInt32 (netCredit calls) := by
  intro calls
  induction calls with
  | nil =>
    intro c s p _ hp _ _
    exact ⟨c, s, p, rfl, hp, by simp [netCredit]⟩
  | cons call calls ih =>
    intro c s p hw hp hmd hnn
    cases call with
    | addAll cycles =>
      obtain ⟨hc, hnn'⟩ := hnn
      obtain ⟨c1, s1, h1, _, _, h4⟩ := addCycles_master c s cycles hc hw
      obtain ⟨p1, hp1, hcr⟩ := h4 id p hid hp
      obtain ⟨k1, k2⟩ := addCycles_keeps c c1 s s1 0 cycles h1
      obtain ⟨hw1, hmd1⟩ := bank_invariant c c1 s s1 id p p1 hw hp hp1 k1 k2
      have hbal : p1.cyclesPosted = wrapInt32 (p.cyclesPosted + cycles) := (hcr.2 hmd).1
      obtain ⟨c2, s2, p2, h2, hp2, hnet⟩ := ih c1 s1 p1 hw1 hp1 (hmd1.trans hmd) hnn'
      refine ⟨c2, s2, p2, ?_, hp2, ?_⟩
      · unfold runBankCalls
        simp only [runBankCall, h1, h2, bankReturns, hbal]
      · simp only [netCredit]
        rw [hbal] at hnet
        unfold wrapInt32 at *
        omega
    | addOne cycles =>
      obtain ⟨hc, hnn'⟩ := hnn
      obtain ⟨c1, p1, h1, hp1, hbal⟩ := addCycles_slave c s id cycles p hid hc hp
      obtain ⟨k1, k2⟩ := addCycles_keeps c c1 s s id cycles h1
      obtain ⟨hw1, hmd1⟩ := bank_invariant c c1 s s id p p1 hw hp hp1 k1 k2
      obtain ⟨c2, s2, p2, h2, hp2, hnet⟩ := ih c1 s p1 hw1 hp1 (hmd1.trans hmd) hnn'
      refine ⟨c2, s2, p2, ?_, hp2, ?_⟩
      · unfold runBankCalls
        simp only [runBankCall, h1, h2, bankReturns, hbal]
      · simp only [netCredit]
        rw [hbal] at hnet
        unfold wrapInt32 at *
        omega
    | use cycles =>
      have hnn' : NonNegCredits calls := hnn
      obtain ⟨c1, p1, h1, hc1, hp1, hbal, _, _, hseat⟩ := useCycles_spec c id cycles p hp
      have k1 : SameSeats c c1 := by rw [hc1]; exact sameSeats_setPlayer c id p p1 hp hseat
      obtain ⟨hw1, hmd1⟩ := bank_invariant c c1 s s id p p1 hw hp hp1 k1 (fun _ => rfl)
      obtain ⟨c2, s2, p2, h2, hp2, hnet⟩ := ih c1 s p1 hw1 hp1 (hmd1.trans hmd) hnn'
      refine ⟨c2, s2, p2, ?_, hp2, ?_⟩
      · unfold runBankCalls
        simp only [runBankCall, h1, h2, bankReturns, hbal]
      · simp only [netCredit]
        rw [hbal] at hnet
        unfold wrapInt32 at *
        omega
    | unused =>
      have hnn' : NonNegCredits calls := hnn
      obtain ⟨c2, s2, p2, h2, hp2, hnet⟩ := ih c s p hw hp hmd hnn'
      refine ⟨c2, s2, p2, ?_, hp2, ?_⟩
      · unfold runBankCalls
        simp only [runBankCall, unusedCycles, hp, h2, bankReturns]
      · simpa only [netCredit] using hnet

/-- Claim C21: for a slave (a player with index >= 1 of a roster whose node
pointers are set) that `addCycles(0, ...)` credits (its serial mode is that of
player 0) and every finite sequence of `addCycles(0, c)`, `addCycles(id, c)`
with non-negative amounts, `useCycles(id, c)` and `unusedCycles(id)` calls:
every call returns, the change of `cyclesPosted` equals the sum of the
credited amounts minus the sum of the debited amounts in 32-bit arithmetic
(modulo 2^32), `useCycles` returns the bank after its debit and
`unusedCycles` the bank as it is (`bankReturns`); a single `useCycles` parks
the slave (`awake` 0, thread parked) if the bank after the debit is <= 0 and
leaves `awake` and the controller as they are otherwise; `unusedCycles`
returns the bank and the roster unchanged. -/
theorem C21_cycle_bank (c : MultiplayerController) (s : Session) (id : Nat) (p : Player)
    (hw : PlayersSet c) (hid : 1 ≤ id) (hp : c.m_players[id]? = some p)
    (hmd : modeDiffers c s p = .ok false) :
    (∀ calls, NonNegCredits calls →
      ∃ c' s' p', runBankCalls c s id calls = .ok (bankReturns p.cyclesPosted calls, c', s') ∧
        c'.m_players[id]? = some p' ∧
        wrapInt32 (p'.cyclesPosted - p.cyclesPosted) = wrapInt32 (netCredit calls)) ∧
    (∀ cycles, ∃ c' p', useCycles c id cycles = .ok (p'.cyclesPosted, c') ∧
      c'.m_players[id]? = some p' ∧
      p'.cyclesPosted = wrapInt32 (p.cyclesPosted - cycles) ∧
      (p'.cyclesPosted ≤ 0 → p'.awake = 0 ∧ p'.controller.parked = true) ∧
      (¬ p'.cyclesPosted ≤ 0 → p'.awake = p.awake ∧ p'.controller = p.controller)) ∧
    unusedCycles c id = .ok (p.cyclesPosted, c) := by
  refine ⟨?_, ?_, ?_⟩
  · intro calls hnn
    exact runBankCalls_spec id hid calls c s p hw hp hmd hnn
  · intro cycles
    obtain ⟨c', p', h1, _, hp', hbal, hpark, hkeep, _⟩ := useCycles_spec c id cycles p hp
    refine ⟨c', p', by rw [hbal]; exact h1, hp', hbal, ?_, ?_⟩
    · intro h; exact hpark (by rw [← hbal]; exact h)
    · intro h; exact hkeep (by rw [← hbal]; exact h)
  · unfold unusedCycles
    simp only [hp]

theorem bankPlayers_set : PlayersSet bankPlayers := by
  refine ⟨?_, ?_⟩
  · intro p0 h
    simp only [bankPlayers, List.getElem?_cons_zero, Option.some.injEq] at h
    subst h
    rfl
  · intro p hp
    simp only [bankPlayers, List.mem_cons, List.mem_singleton, List.not_mem_nil, or_false] at hp
    rcases hp with h | h <;> subst h <;> exact ⟨fun _ => rfl, fun h => by cases h⟩

/-- Witness for claim C21: the slave of the two-console roster, its bank
holding 50 cycles, is credited 100 by `addCycles(0, 100)`, debited 120 and 40
by `useCycles`, and read by `unusedCycles`. -/
theorem C21_cycle_bank_witness :
    ∃ c' s' p', runBankCalls bankPlayers twoPlayerSession 1 [.addAll 100, .use 120, .use 40, .unused]
        = .ok ([none, some 30, some (-10), some (-10)], c', s') ∧
      c'.m_players[1]? = some p' ∧
      wrapInt32 (p'.cyclesPosted - 50) = wrapInt32 (-60) := by
  obtain ⟨c', s', p', h1, h2, h3⟩ :=
    (C21_cycle_bank bankPlayers twoPlayerSession 1 { gbaPlayer 1 with cyclesPosted := 50 }
      bankPlayers_set le_rfl rfl rfl).1 [.addAll 100, .use 120, .use 40, .unused]
      ⟨by decide, trivial⟩
  exact ⟨c', s', p', h1, h2, h3⟩

end Lockstep
